import Mathlib

/-!
# Simulation cores of `14_snake_game.c` and `15_pong_game.c`

A shallow embedding of the two complete games of the repository.

Conventions of the embedding.

* The C globals of each program are gathered in one record (`Game`); every C
  function that reads or writes globals becomes a function on that record.
* C `int` values are mathematical integers (`Int`); array indices and the
  snake length are natural numbers.  The embedding is exact as long as no
  signed overflow occurs (signed overflow is undefined behaviour in C).
* `snake.body` is a total map from indices to cells; only indices below
  `MAX_SNAKE_LENGTH` are ever written.
* The keyboard is an input record read once per tick; `rand()` is an oracle:
  the values it returns during one tick are an argument of that tick.
-/

namespace SnakeGame

/-! ## Constants (`14_snake_game.c`, lines 25-40) -/

def SCREEN_WIDTH : Int := 800
def SCREEN_HEIGHT : Int := 600
def GRID_SIZE : Int := 20
def GRID_WIDTH : Int := SCREEN_WIDTH / GRID_SIZE
def GRID_HEIGHT : Int := SCREEN_HEIGHT / GRID_SIZE
def MAX_SNAKE_LENGTH : Nat := 300
def INITIAL_SNAKE_LENGTH : Nat := 3
def INITIAL_SPEED : Int := 15
def MIN_SPEED : Int := 5

/-! ## Data structures (lines 47-85) -/

inductive Direction where
  | DIR_UP
  | DIR_DOWN
  | DIR_LEFT
  | DIR_RIGHT
  deriving DecidableEq

inductive GameScreen where
  | SCREEN_TITLE
  | SCREEN_PLAYING
  | SCREEN_GAMEOVER
  deriving DecidableEq

structure GridPosition where
  x : Int
  y : Int
  deriving DecidableEq

structure Snake where
  body : Nat → GridPosition
  length : Nat
  direction : Direction
  nextDirection : Direction

/-- The global variables of the program. -/
structure Game where
  snake : Snake
  food : GridPosition
  score : Int
  frameCounter : Int
  moveSpeed : Int
  currentScreen : GameScreen
  gameOver : Bool

/-- The keys reported by `IsKeyPressed` during one call of `UpdateGame`. -/
structure Keys where
  enter : Bool
  up : Bool
  down : Bool
  left : Bool
  right : Bool
  deriving DecidableEq

open Direction GameScreen

/-- The exact reverse of a direction. -/
def opposite : Direction → Direction
  | DIR_UP => DIR_DOWN
  | DIR_DOWN => DIR_UP
  | DIR_LEFT => DIR_RIGHT
  | DIR_RIGHT => DIR_LEFT

/-! ## `SpawnFood` (lines 427-449) -/

/-- The inner `for` loop of `SpawnFood`: scans `body[0 .. length)` in ascending
order and stops at the first segment lying on `p`. -/
def foodOnSnake (s : Snake) (p : GridPosition) : Bool :=
  (List.range s.length).any (fun i => decide (p.x = (s.body i).x) && decide (p.y = (s.body i).y))

/-- The rejection loop of `SpawnFood` over the values returned by `rand()`.
Every attempt consumes two draws; `none` means that the loop has not returned
within the given draws. -/
def spawnLoop (s : Snake) : List Nat → Option GridPosition
  | r1 :: r2 :: rest =>
    let food : GridPosition := ⟨(r1 : Int) % GRID_WIDTH, (r2 : Int) % GRID_HEIGHT⟩
    if foodOnSnake s food then spawnLoop s rest else some food
  | _ => none

def SpawnFood (draws : List Nat) (g : Game) : Option Game :=
  match spawnLoop g.snake draws with
  | some food => some { g with food := food }
  | none => none

/-! ## `InitGame` (lines 145-172) -/

/-- The `for` loop of `InitGame`, after `n` iterations. -/
def initBody (startX startY : Int) (body : Nat → GridPosition) : Nat → Nat → GridPosition
  | 0 => body
  | n + 1 => Function.update (initBody startX startY body n) n ⟨startX - (n : Int), startY⟩

def InitGame (draws : List Nat) (g : Game) : Option Game :=
  let startX := GRID_WIDTH / 2
  let startY := GRID_HEIGHT / 2
  SpawnFood draws
    { g with
      score := 0
      moveSpeed := INITIAL_SPEED
      gameOver := false
      snake :=
        { body := initBody startX startY g.snake.body INITIAL_SNAKE_LENGTH
          length := INITIAL_SNAKE_LENGTH
          direction := DIR_RIGHT
          nextDirection := DIR_RIGHT } }

/-! ## `MoveSnake`, `GrowSnake` (lines 381-422) -/

/-- The `for` loop of `MoveSnake`, started at index `i` and running down to 1. -/
def shiftBody (body : Nat → GridPosition) : Nat → Nat → GridPosition
  | 0 => body
  | i + 1 => shiftBody (Function.update body (i + 1) (body i)) i

/-- The `switch` of `MoveSnake`. -/
def moveHead (d : Direction) (p : GridPosition) : GridPosition :=
  match d with
  | DIR_UP => { p with y := p.y - 1 }
  | DIR_DOWN => { p with y := p.y + 1 }
  | DIR_LEFT => { p with x := p.x - 1 }
  | DIR_RIGHT => { p with x := p.x + 1 }

def MoveSnake (g : Game) : Game :=
  let body := shiftBody g.snake.body (g.snake.length - 1)
  { g with snake := { g.snake with body := Function.update body 0 (moveHead g.snake.direction (body 0)) } }

def GrowSnake (g : Game) : Game :=
  if g.snake.length < MAX_SNAKE_LENGTH then
    { g with snake :=
      { g.snake with
        body := Function.update g.snake.body g.snake.length (g.snake.body (g.snake.length - 1))
        length := g.snake.length + 1 } }
  else g

/-! ## Collision checks (lines 454-491) -/

def CheckFoodCollision (g : Game) : Bool :=
  decide ((g.snake.body 0).x = g.food.x) && decide ((g.snake.body 0).y = g.food.y)

def CheckWallCollision (g : Game) : Bool :=
  let head := g.snake.body 0
  decide (head.x < 0) || decide (head.x ≥ GRID_WIDTH) || decide (head.y < 0) ||
    decide (head.y ≥ GRID_HEIGHT)

def CheckSelfCollision (g : Game) : Bool :=
  let head := g.snake.body 0
  (List.range' 1 (g.snake.length - 1)).any
    (fun i => decide (head.x = (g.snake.body i).x) && decide (head.y = (g.snake.body i).y))

/-! ## `UpdateGame` (lines 177-278) -/

/-- The four arrow-key tests of the PLAYING branch (lines 202-217). -/
def handleKeys (k : Keys) (s : Snake) : Snake :=
  let s := if k.up && decide (s.direction ≠ DIR_DOWN) then { s with nextDirection := DIR_UP } else s
  let s := if k.down && decide (s.direction ≠ DIR_UP) then { s with nextDirection := DIR_DOWN } else s
  let s := if k.left && decide (s.direction ≠ DIR_RIGHT) then { s with nextDirection := DIR_LEFT } else s
  let s := if k.right && decide (s.direction ≠ DIR_LEFT) then { s with nextDirection := DIR_RIGHT } else s
  s

/-- The body of `if (CheckFoodCollision())` (lines 245-258). -/
def eatFood (draws : List Nat) (g : Game) : Option Game :=
  let g := GrowSnake g
  let g := { g with score := g.score + 10 }
  match SpawnFood draws g with
  | some g => some (if g.moveSpeed > MIN_SPEED then { g with moveSpeed := g.moveSpeed - 1 } else g)
  | none => none

/-- The final test of a simulation step (lines 262-266). -/
def checkGameOver (g : Game) : Game :=
  if CheckWallCollision g || CheckSelfCollision g then
    { g with currentScreen := SCREEN_GAMEOVER, gameOver := true }
  else g

/-- The head of a simulation step (lines 230-236): the counter is reset, the
buffered direction is committed and the snake moves. -/
def advance (g : Game) : Game :=
  let g := { g with frameCounter := 0 }
  let g := { g with snake := { g.snake with direction := g.snake.nextDirection } }
  MoveSnake g

/-- The body of `if (frameCounter >= moveSpeed)`: one simulation step
(lines 230-266). -/
def simulationStep (draws : List Nat) (g : Game) : Option Game :=
  let g := advance g
  if CheckFoodCollision g then
    match eatFood draws g with
    | some g => some (checkGameOver g)
    | none => none
  else some (checkGameOver g)

/-- The PLAYING branch up to the timing test (lines 202-224): arrow keys, then
`frameCounter++`. -/
def readInput (k : Keys) (g : Game) : Game :=
  let g := { g with snake := handleKeys k g.snake }
  { g with frameCounter := g.frameCounter + 1 }

/-- Whether the tick started in `g` performs a simulation step. -/
def stepFires (g : Game) : Prop :=
  g.currentScreen = SCREEN_PLAYING ∧ g.frameCounter + 1 ≥ g.moveSpeed

instance (g : Game) : Decidable (stepFires g) := by
  unfold stepFires; exact inferInstance

def UpdateGame (k : Keys) (draws : List Nat) (g : Game) : Option Game :=
  match g.currentScreen with
  | SCREEN_TITLE =>
    if k.enter then InitGame draws { g with currentScreen := SCREEN_PLAYING } else some g
  | SCREEN_PLAYING =>
    let g := readInput k g
    if g.frameCounter ≥ g.moveSpeed then simulationStep draws g else some g
  | SCREEN_GAMEOVER =>
    if k.enter then InitGame draws { g with currentScreen := SCREEN_PLAYING } else some g

/-! ## Reachable states -/

/-- The globals as the C initialisers leave them before `main` runs
(lines 79-85); objects without an initialiser are zero. -/
def startGlobals : Game :=
  { snake := { body := fun _ => ⟨0, 0⟩, length := 0, direction := DIR_UP, nextDirection := DIR_UP }
    food := ⟨0, 0⟩
    score := 0
    frameCounter := 0
    moveSpeed := INITIAL_SPEED
    currentScreen := SCREEN_TITLE
    gameOver := false }

/-- States observed between ticks: `main` calls `InitGame` once and then
`UpdateGame` once per frame. -/
inductive Reachable : Game → Prop where
  | init (draws : List Nat) (g : Game) : InitGame draws startGlobals = some g → Reachable g
  | tick (k : Keys) (draws : List Nat) (g g' : Game) :
      Reachable g → UpdateGame k draws g = some g' → Reachable g'

/-- Runs `UpdateGame` over a list of per-tick inputs. -/
def runTicks : List (Keys × List Nat) → Game → Option Game
  | [], g => some g
  | (k, draws) :: rest, g =>
    match UpdateGame k draws g with
    | some g' => runTicks rest g'
    | none => none


/-- Ghost flag of the growth window: whether `GrowSnake` has been called since
the last `MoveSnake`.  A tick that runs a simulation step sets it to the
outcome of `CheckFoodCollision`; `InitGame` clears it; any other tick keeps it. -/
def windowAfter (k : Keys) (g : Game) (w : Bool) : Bool :=
  match g.currentScreen with
  | SCREEN_PLAYING =>
    if (readInput k g).frameCounter ≥ (readInput k g).moveSpeed then
      CheckFoodCollision (advance (readInput k g))
    else w
  | _ => if k.enter then false else w

/-- Reachable states together with the ghost flag of the growth window. -/
inductive ReachableW : Bool → Game → Prop where
  | init (draws : List Nat) (g : Game) : InitGame draws startGlobals = some g → ReachableW false g
  | tick (k : Keys) (draws : List Nat) (w : Bool) (g g' : Game) :
      ReachableW w g → UpdateGame k draws g = some g' → ReachableW (windowAfter k g w) g'

/-- The invariant of reachable states. -/
structure Inv (w : Bool) (g : Game) : Prop where
  dir : g.snake.nextDirection ≠ opposite g.snake.direction
  len_min : INITIAL_SNAKE_LENGTH ≤ g.snake.length
  len_max : g.snake.length ≤ MAX_SNAKE_LENGTH
  food : ∀ i, i < g.snake.length → g.snake.body i ≠ g.food
  distinct : ∀ i j, i < j → j < g.snake.length → g.snake.body i = g.snake.body j →
    (w = true ∧ i + 2 = g.snake.length ∧ j + 1 = g.snake.length) ∨
      (i = 0 ∧ g.currentScreen = SCREEN_GAMEOVER)
  counter : g.currentScreen ≠ SCREEN_PLAYING → g.frameCounter = 0


/-- The part of the state named by the full-reset property: screen, score,
speed, frame counter, game-over flag, the snake's length and directions, its
occupied segments `body[0 .. length)` in order, and the food cell. -/
structure Snapshot where
  currentScreen : GameScreen
  score : Int
  moveSpeed : Int
  frameCounter : Int
  gameOver : Bool
  length : Nat
  direction : Direction
  nextDirection : Direction
  segments : List GridPosition
  food : GridPosition
  deriving DecidableEq

def snapshot (g : Game) : Snapshot :=
  { currentScreen := g.currentScreen
    score := g.score
    moveSpeed := g.moveSpeed
    frameCounter := g.frameCounter
    gameOver := g.gameOver
    length := g.snake.length
    direction := g.snake.direction
    nextDirection := g.snake.nextDirection
    segments := (List.range g.snake.length).map g.snake.body
    food := g.food }

/-- Segment distinctness as the specification words it: two distinct indices
below `length` hold different cells unless they are the last two segments. -/
def segmentsDistinct (g : Game) : Prop :=
  ∀ i j, i < j → j < g.snake.length → g.snake.body i = g.snake.body j →
    i + 2 = g.snake.length ∧ j + 1 = g.snake.length

def noKeys : Keys := ⟨false, false, false, false, false⟩
def enterKey : Keys := ⟨true, false, false, false, false⟩
def upKey : Keys := ⟨false, true, false, false, false⟩
def downKey : Keys := ⟨false, false, true, false, false⟩
def leftKey : Keys := ⟨false, false, false, true, false⟩

/-- Frames without any key pressed and without a call of `rand()`. -/
def idle (n : Nat) : List (Keys × List Nat) := List.replicate n (noKeys, [])

/-- A state right after the program's first `InitGame`, the first food being
drawn at cell (0, 0). -/
def titleState : Game := (InitGame [0, 0] startGlobals).getD startGlobals

/-- A play of 69 frames: start, eat the food drawn at (21, 15) and the food
drawn at (22, 15), then turn down, left and up into the own tail. -/
def collisionTrace : List (Keys × List Nat) :=
  [(enterKey, [21, 15])] ++ idle 14 ++ [(noKeys, [22, 15])] ++ idle 13 ++ [(noKeys, [0, 0])] ++
    [(downKey, [])] ++ idle 12 ++ [(leftKey, [])] ++ idle 12 ++ [(upKey, [])] ++ idle 12

/-- The GAMEOVER state in which `collisionTrace` ends. -/
def collidedState : Game := (runTicks collisionTrace titleState).getD startGlobals


/-- The ghost flag of the growth window along a run of ticks. -/
def runWindow : List (Keys × List Nat) → Bool → Game → Bool
  | [], w, _ => w
  | (k, draws) :: rest, w, g =>
    match UpdateGame k draws g with
    | some g' => runWindow rest (windowAfter k g w) g'
    | none => w

/-- UP and DOWN pressed on the same frame. -/
def upDownKeys : Keys := ⟨false, true, true, false, false⟩

/-- The first 15 frames of `collisionTrace` but the last: PLAYING, one frame
before the first simulation step. -/
def readyTrace : List (Keys × List Nat) := [(enterKey, [21, 15])] ++ idle 14

def readyState : Game := (runTicks readyTrace titleState).getD startGlobals

/-- The first 16 frames of `collisionTrace`: the snake has just eaten the food
at (21, 15) and grown to length 4. -/
def fedTrace : List (Keys × List Nat) := readyTrace ++ [(noKeys, [22, 15])]

def fedState : Game := (runTicks fedTrace titleState).getD startGlobals

/-- All of `collisionTrace` but its last frame: PLAYING, one frame before the
step that runs the head into the tail. -/
def brinkState : Game := (runTicks (collisionTrace.take 68) titleState).getD startGlobals


/-- A cell of the grid `[0, GRID_WIDTH) x [0, GRID_HEIGHT)`. -/
def inGrid (p : GridPosition) : Prop :=
  0 ≤ p.x ∧ p.x < GRID_WIDTH ∧ 0 ≤ p.y ∧ p.y < GRID_HEIGHT

instance (p : GridPosition) : Decidable (inGrid p) := by
  unfold inGrid; exact inferInstance

/-- The unit offsets as the specification lists them: UP = (0, -1),
DOWN = (0, +1), LEFT = (-1, 0), RIGHT = (+1, 0). -/
def unitOffset : Direction → GridPosition
  | DIR_UP => ⟨0, -1⟩
  | DIR_DOWN => ⟨0, 1⟩
  | DIR_LEFT => ⟨-1, 0⟩
  | DIR_RIGHT => ⟨1, 0⟩

/-- A run of `UpdateGame` in which every call starts on the PLAYING screen
with `moveSpeed = T`; `none` when a call does not return or starts otherwise. -/
def steadyRun (T : Int) : List (Keys × List Nat) → Game → Option Game
  | [], g => some g
  | (k, draws) :: rest, g =>
    if g.currentScreen = SCREEN_PLAYING ∧ g.moveSpeed = T then
      match UpdateGame k draws g with
      | some g' => steadyRun T rest g'
      | none => none
    else none

/-- The scenario of the specification: the snake `[(5,5), (4,5), (3,5)]` moves
right, the food is at (6, 5), and the frame counter is one short of
`moveSpeed = INITIAL_SPEED`. -/
def scenarioState : Game :=
  { snake :=
      { body := fun i => if i = 0 then ⟨5, 5⟩ else if i = 1 then ⟨4, 5⟩ else if i = 2 then ⟨3, 5⟩
          else ⟨0, 0⟩
        length := 3
        direction := DIR_RIGHT
        nextDirection := DIR_RIGHT }
    food := ⟨6, 5⟩
    score := 0
    frameCounter := 14
    moveSpeed := INITIAL_SPEED
    currentScreen := SCREEN_PLAYING
    gameOver := false }

/-- The PLAYING state right after ENTER on the title screen, the food being
drawn at (0, 0). -/
def playState : Game := (UpdateGame enterKey [0, 0] titleState).getD startGlobals

/-- The state 14 idle frames after `playState`: one frame before the first
simulation step. -/
def steadyState : Game := (steadyRun INITIAL_SPEED (idle 14) playState).getD startGlobals

/-- A play of 240 frames: start, turn up at once and go straight on; the head
is then in row 0, one frame before the step that leaves the grid. -/
def wallTrace : List (Keys × List Nat) := [(enterKey, [0, 0]), (upKey, [])] ++ idle 238

/-- The PLAYING state in which `wallTrace` ends. -/
def wallBrink : Game := (runTicks wallTrace titleState).getD startGlobals


/-- The cells drawn by the successive attempts of `SpawnFood`: every attempt
takes two values of `rand()`, `food.x = rand() % GRID_WIDTH` and
`food.y = rand() % GRID_HEIGHT`. -/
def candidates : List Nat → List GridPosition
  | r1 :: r2 :: rest => ⟨(r1 : Int) % GRID_WIDTH, (r2 : Int) % GRID_HEIGHT⟩ :: candidates rest
  | _ => []

/-- The simulation step with its two tests exchanged: the wall and self
collision test runs first, on the advanced snake, and the food test with the
growth runs after it. The program runs `simulationStep`; this variant is what
the order claim compares it with. -/
def collisionFirstStep (draws : List Nat) (g : Game) : Option Game :=
  let g := checkGameOver (advance g)
  if CheckFoodCollision g then eatFood draws g else some g

/-- Further invariants of reachable states: the progression relation between
score, length and speed, the range of the frame counter, and the grid bounds
of the segments. -/
structure Progress (g : Game) : Prop where
  score_nonneg : 0 ≤ g.score
  score_mult : (10 : Int) ∣ g.score
  length_eq : (g.snake.length : Int) =
    min (MAX_SNAKE_LENGTH : Int) ((INITIAL_SNAKE_LENGTH : Int) + g.score / 10)
  speed_eq : g.moveSpeed = max MIN_SPEED (INITIAL_SPEED - g.score / 10)
  counter_lo : 0 ≤ g.frameCounter
  counter_hi : g.frameCounter < g.moveSpeed
  tail_in : ∀ i, 1 ≤ i → i < g.snake.length → inGrid (g.snake.body i)
  head_in : g.currentScreen ≠ SCREEN_GAMEOVER → inGrid (g.snake.body 0)
  head_step : g.snake.body 0 = moveHead g.snake.direction (g.snake.body 1)

/-- A snake of 300 segments, all on cell (0, 0). -/
def fullSnake : Game :=
  { startGlobals with snake := { startGlobals.snake with length := MAX_SNAKE_LENGTH } }

/-- The GAMEOVER state one frame after `wallBrink`: the head has left the grid
through the top row. -/
def wallOver : Game := (UpdateGame noKeys [] wallBrink).getD startGlobals

/-- The first 42 frames of `collisionTrace`: the snake has eaten twice, its
tail is still doubled, and the next frame runs a step that does not eat. -/
def dupState : Game := (runTicks (collisionTrace.take 42) titleState).getD startGlobals

end SnakeGame

namespace PongGame

/-!
## `15_pong_game.c`

C `float` values are elements of a linear ordered field `F` (ideal arithmetic
without rounding); the embedding is polymorphic in `F`, so it runs over `ℚ`
and is reasoned about over `ℝ`.  The functions the program takes from `libm`
and raylib are the fields of a record `Lib F`.
-/

/-! ## Constants (lines 25-40) -/

def SCREEN_WIDTH : Int := 800
def SCREEN_HEIGHT : Int := 600
def PADDLE_WIDTH : Int := 15
def PADDLE_HEIGHT : Int := 80
def WINNING_SCORE : Int := 5

section
variable {F : Type} [LinearOrderedField F]

def PADDLE_SPEED : F := 6
def BALL_RADIUS : F := 8
def BALL_SPEED_START : F := 5
def BALL_SPEED_MAX : F := 12
def BALL_SPEED_INCREASE : F := 1 / 2

end

/-! ## Data structures (lines 46-73) -/

/-- The `Vector2` of raylib. -/
structure Vector2 (F : Type) where
  x : F
  y : F
  deriving DecidableEq

/-- The `Rectangle` of raylib. -/
structure Rectangle (F : Type) where
  x : F
  y : F
  width : F
  height : F
  deriving DecidableEq

structure Paddle (F : Type) where
  position : Vector2 F
  speed : F
  deriving DecidableEq

structure Ball (F : Type) where
  position : Vector2 F
  velocity : Vector2 F
  radius : F
  deriving DecidableEq

inductive GameScreen where
  | SCREEN_MENU
  | SCREEN_GAME
  | SCREEN_WINNER
  deriving DecidableEq

/-- The global variables of the program. -/
structure Game (F : Type) where
  leftPaddle : Paddle F
  rightPaddle : Paddle F
  ball : Ball F
  player1Score : Int
  player2Score : Int
  winner : Int
  currentScreen : GameScreen
  deriving DecidableEq

/-- What the program takes from `libm` (`cosf`, `sinf`, `sqrtf`) and from
raylib (`CheckCollisionCircleRec`, the constant `DEG2RAD`); none of them is
defined in the repository. -/
structure Lib (F : Type) where
  cosf : F → F
  sinf : F → F
  sqrtf : F → F
  CheckCollisionCircleRec : Vector2 F → F → Rectangle F → Bool
  DEG2RAD : F

/-- The keys read during one call of `UpdateGame`: `IsKeyPressed(KEY_SPACE)`
and `IsKeyDown` of W, S, UP, DOWN. -/
structure Keys where
  space : Bool
  w : Bool
  s : Bool
  up : Bool
  down : Bool
  deriving DecidableEq

open GameScreen

section
variable {F : Type} [LinearOrderedField F]

/-! ## `ResetBall`, `InitGame` (lines 114-148)

`rnd` is the stream of values that the coming calls of `rand()` return; a
function that calls `rand()` returns the rest of the stream. -/

def ResetBall (lib : Lib F) (direction : Int) (rnd : Nat → Nat) (g : Game F) :
    Game F × (Nat → Nat) :=
  let angle : F := (((((rnd 0 % 60 : Nat) : Int) - 30 : Int) : F)) * lib.DEG2RAD
  ({ g with
      ball :=
        { position := ⟨((SCREEN_WIDTH / 2 : Int) : F), ((SCREEN_HEIGHT / 2 : Int) : F)⟩
          radius := BALL_RADIUS
          velocity :=
            ⟨lib.cosf angle * BALL_SPEED_START * ((direction : Int) : F),
              lib.sinf angle * BALL_SPEED_START⟩ } },
    fun n => rnd (n + 1))

def InitGame (lib : Lib F) (rnd : Nat → Nat) (g : Game F) : Game F × (Nat → Nat) :=
  let g :=
    { g with
      leftPaddle :=
        { position := ⟨30, ((SCREEN_HEIGHT / 2 - PADDLE_HEIGHT / 2 : Int) : F)⟩
          speed := PADDLE_SPEED } }
  let g :=
    { g with
      rightPaddle :=
        { position :=
            ⟨((SCREEN_WIDTH - 30 - PADDLE_WIDTH : Int) : F),
              ((SCREEN_HEIGHT / 2 - PADDLE_HEIGHT / 2 : Int) : F)⟩
          speed := PADDLE_SPEED } }
  let g := { g with player1Score := 0, player2Score := 0 }
  ResetBall lib 1 rnd g

/-! ## `UpdateGame` (lines 153-341) -/

/-- Sets `position.y` of a paddle. -/
def Paddle.setY (p : Paddle F) (y : F) : Paddle F :=
  { p with position := { p.position with y := y } }

/-- Paddle controls (lines 171-188). -/
def movePaddles (k : Keys) (g : Game F) : Game F :=
  let g :=
    if k.w then
      { g with leftPaddle := g.leftPaddle.setY (g.leftPaddle.position.y - g.leftPaddle.speed) }
    else g
  let g :=
    if k.s then
      { g with leftPaddle := g.leftPaddle.setY (g.leftPaddle.position.y + g.leftPaddle.speed) }
    else g
  let g :=
    if k.up then
      { g with rightPaddle := g.rightPaddle.setY (g.rightPaddle.position.y - g.rightPaddle.speed) }
    else g
  let g :=
    if k.down then
      { g with rightPaddle := g.rightPaddle.setY (g.rightPaddle.position.y + g.rightPaddle.speed) }
    else g
  g

/-- The two boundary tests applied to one paddle (lines 195-198, 200-203). -/
def clampPaddle (p : Paddle F) : Paddle F :=
  let p := if p.position.y < 0 then p.setY 0 else p
  let p :=
    if p.position.y + (PADDLE_HEIGHT : F) > (SCREEN_HEIGHT : F) then
      p.setY ((SCREEN_HEIGHT - PADDLE_HEIGHT : Int) : F)
    else p
  p

/-- Paddle boundary checking (lines 195-203). -/
def clampPaddles (g : Game F) : Game F :=
  let g := { g with leftPaddle := clampPaddle g.leftPaddle }
  { g with rightPaddle := clampPaddle g.rightPaddle }

/-- Ball movement (lines 209-210). -/
def moveBall (g : Game F) : Game F :=
  { g with
    ball :=
      { g.ball with
        position :=
          ⟨g.ball.position.x + g.ball.velocity.x, g.ball.position.y + g.ball.velocity.y⟩ } }

/-- Ball collision with the top and bottom walls (lines 216-227). -/
def wallBounce (g : Game F) : Game F :=
  if g.ball.position.y - g.ball.radius ≤ 0 ∨
      g.ball.position.y + g.ball.radius ≥ (SCREEN_HEIGHT : F) then
    let b := { g.ball with velocity := { g.ball.velocity with y := -g.ball.velocity.y } }
    let b :=
      if b.position.y - b.radius < 0 then { b with position := { b.position with y := b.radius } }
      else b
    let b :=
      if b.position.y + b.radius > (SCREEN_HEIGHT : F) then
        { b with position := { b.position with y := (SCREEN_HEIGHT : F) - b.radius } }
      else b
    { g with ball := b }
  else g

/-- The angle of a paddle hit (lines 246-247 and 276-277). -/
def hitAngle (lib : Lib F) (ballY paddleY : F) : F :=
  let hitPos := (ballY - paddleY) / (PADDLE_HEIGHT : F)
  (hitPos - 1 / 2) * 60 * lib.DEG2RAD

/-- The speed after a paddle hit (lines 250-253 and 280-283). -/
def hitSpeed (lib : Lib F) (vx vy : F) : F :=
  let speed := lib.sqrtf (vx * vx + vy * vy)
  let speed := speed + BALL_SPEED_INCREASE
  if speed > BALL_SPEED_MAX then BALL_SPEED_MAX else speed

/-- Left paddle collision (lines 234-262). -/
def leftPaddleHit (lib : Lib F) (g : Game F) : Game F :=
  let leftPaddleRect : Rectangle F :=
    ⟨g.leftPaddle.position.x, g.leftPaddle.position.y, (PADDLE_WIDTH : F), (PADDLE_HEIGHT : F)⟩
  if lib.CheckCollisionCircleRec g.ball.position g.ball.radius leftPaddleRect then
    if g.ball.velocity.x < 0 then
      let vx := -g.ball.velocity.x
      let angle := hitAngle lib g.ball.position.y g.leftPaddle.position.y
      let speed := hitSpeed lib vx g.ball.velocity.y
      { g with
        ball :=
          { g.ball with
            velocity := ⟨lib.cosf angle * speed, lib.sinf angle * speed⟩
            position :=
              { g.ball.position with
                x := g.leftPaddle.position.x + (PADDLE_WIDTH : F) + g.ball.radius } } }
    else g
  else g

/-- Right paddle collision (lines 265-292). -/
def rightPaddleHit (lib : Lib F) (g : Game F) : Game F :=
  let rightPaddleRect : Rectangle F :=
    ⟨g.rightPaddle.position.x, g.rightPaddle.position.y, (PADDLE_WIDTH : F), (PADDLE_HEIGHT : F)⟩
  if lib.CheckCollisionCircleRec g.ball.position g.ball.radius rightPaddleRect then
    if g.ball.velocity.x > 0 then
      let vx := -g.ball.velocity.x
      let angle := hitAngle lib g.ball.position.y g.rightPaddle.position.y
      let speed := hitSpeed lib vx g.ball.velocity.y
      { g with
        ball :=
          { g.ball with
            velocity := ⟨-lib.cosf angle * speed, lib.sinf angle * speed⟩
            position := { g.ball.position with x := g.rightPaddle.position.x - g.ball.radius } } }
    else g
  else g

/-- The GAME branch up to the scoring tests (lines 171-292): paddle controls,
paddle clamp, ball movement, wall bounce, paddle hits. -/
def beforeScoring (lib : Lib F) (k : Keys) (g : Game F) : Game F :=
  rightPaddleHit lib (leftPaddleHit lib (wallBounce (moveBall (clampPaddles (movePaddles k g)))))

/-- Ball off the left side (lines 299-313). -/
def scoreLeft (lib : Lib F) (rnd : Nat → Nat) (g : Game F) : Game F × (Nat → Nat) :=
  if g.ball.position.x < 0 then
    let g := { g with player2Score := g.player2Score + 1 }
    if g.player2Score ≥ WINNING_SCORE then
      ({ g with winner := 2, currentScreen := SCREEN_WINNER }, rnd)
    else ResetBall lib 1 rnd g
  else (g, rnd)

/-- Ball off the right side (lines 316-330). -/
def scoreRight (lib : Lib F) (rnd : Nat → Nat) (g : Game F) : Game F × (Nat → Nat) :=
  if g.ball.position.x > (SCREEN_WIDTH : F) then
    let g := { g with player1Score := g.player1Score + 1 }
    if g.player1Score ≥ WINNING_SCORE then
      ({ g with winner := 1, currentScreen := SCREEN_WINNER }, rnd)
    else ResetBall lib (-1) rnd g
  else (g, rnd)

/-- Scoring (lines 299-330). -/
def scoring (lib : Lib F) (rnd : Nat → Nat) (g : Game F) : Game F :=
  let r := scoreLeft lib rnd g
  (scoreRight lib r.2 r.1).1

def UpdateGame (lib : Lib F) (k : Keys) (rnd : Nat → Nat) (g : Game F) : Game F :=
  match g.currentScreen with
  | SCREEN_MENU =>
    if k.space then (InitGame lib rnd { g with currentScreen := SCREEN_GAME }).1 else g
  | SCREEN_GAME => scoring lib rnd (beforeScoring lib k g)
  | SCREEN_WINNER =>
    if k.space then (InitGame lib rnd { g with currentScreen := SCREEN_GAME }).1 else g

/-! ## Reachable states -/

/-- The globals as the C initialisers leave them before `main` runs
(lines 67-73); objects without an initialiser are zero. -/
def startGlobals : Game F :=
  { leftPaddle := ⟨⟨0, 0⟩, 0⟩
    rightPaddle := ⟨⟨0, 0⟩, 0⟩
    ball := ⟨⟨0, 0⟩, ⟨0, 0⟩, 0⟩
    player1Score := 0
    player2Score := 0
    winner := 0
    currentScreen := SCREEN_MENU }

/-- States observed between ticks: `main` calls `InitGame` once and then
`UpdateGame` once per frame. -/
inductive Reachable (lib : Lib F) : Game F → Prop where
  | init (rnd : Nat → Nat) : Reachable lib (InitGame lib rnd startGlobals).1
  | tick (k : Keys) (rnd : Nat → Nat) (g : Game F) :
      Reachable lib g → Reachable lib (UpdateGame lib k rnd g)

/-- Runs `UpdateGame` over a list of per-tick inputs. -/
def runTicks (lib : Lib F) : List (Keys × (Nat → Nat)) → Game F → Game F
  | [], g => g
  | (k, rnd) :: rest, g => runTicks lib rest (UpdateGame lib k rnd g)

/-- Two states with the same scores, winner and screen. -/
def sameBoard (a b : Game F) : Prop :=
  a.player1Score = b.player1Score ∧ a.player2Score = b.player2Score ∧ a.winner = b.winner ∧
    a.currentScreen = b.currentScreen

/-- The invariant of reachable states on scores and winner. -/
structure Inv (g : Game F) : Prop where
  score1 : 0 ≤ g.player1Score
  score2 : 0 ≤ g.player2Score
  playing : g.currentScreen = SCREEN_GAME →
    g.player1Score < WINNING_SCORE ∧ g.player2Score < WINNING_SCORE
  menu : g.currentScreen = SCREEN_MENU → g.winner = 0
  won : g.currentScreen = SCREEN_WINNER → g.winner = 1 ∨ g.winner = 2

/-- Modelled from the spec: the circle-vs-rectangle overlap test that stands
for raylib's `CheckCollisionCircleRec` (library code, absent from `src/`): the
circle overlaps the rectangle when the point of the rectangle closest to the
centre is at most `radius` away from it. -/
def circleRecOverlap (center : Vector2 F) (radius : F) (rec : Rectangle F) : Bool :=
  let nx := max rec.x (min center.x (rec.x + rec.width))
  let ny := max rec.y (min center.y (rec.y + rec.height))
  decide ((center.x - nx) * (center.x - nx) + (center.y - ny) * (center.y - ny) ≤ radius * radius)

end


/-- An executable instance of `Lib` over `ℚ`, for running the embedding on
concrete inputs: `cosf` and `sinf` are the Taylor polynomials of degree 4 and
5 (exact at 0), `sqrtf` is six steps of Newton's iteration,
`CheckCollisionCircleRec` is the overlap test and `DEG2RAD` is raylib's
`PI / 180` with `PI = 3.14159265358979323846`. -/
def ratLib : Lib ℚ :=
  { cosf := fun a => 1 - a ^ 2 / 2 + a ^ 4 / 24
    sinf := fun a => a - a ^ 3 / 6 + a ^ 5 / 120
    sqrtf := fun x => if x ≤ 0 then 0 else Nat.iterate (fun y => (y + x / y) / 2) 6 ((x + 1) / 2)
    CheckCollisionCircleRec := circleRecOverlap
    DEG2RAD := 314159265358979323846 / 100000000000000000000 / 180 }

def noKeys : Keys := ⟨false, false, false, false, false⟩
def spaceKey : Keys := ⟨true, false, false, false, false⟩

/-- S and DOWN held: both paddles move towards the bottom wall. -/
def sDownKeys : Keys := ⟨false, false, true, false, true⟩

/-- A stream of `rand()` values that makes every serve horizontal
(`30 % 60 - 30 = 0`). -/
def flatServe : Nat → Nat := fun _ => 30

/-- The inputs of `n` frames with S and DOWN held. -/
def holdDown (n : Nat) : List (Keys × (Nat → Nat)) := List.replicate n (sDownKeys, flatServe)

/-- A state right after the program's first `InitGame`. -/
def menuState : Game ℚ := (InitGame ratLib flatServe startGlobals).1

/-- A match of 730 frames: SPACE, then both paddles are held at the bottom
wall while every horizontal serve leaves the field after 81 frames; the
players score in turn and player 1 reaches 5 points first. -/
def matchTrace : List (Keys × (Nat → Nat)) := (spaceKey, flatServe) :: holdDown 729

/-- The WINNER state in which `matchTrace` ends. -/
def wonState : Game ℚ := runTicks ratLib matchTrace menuState


/-- The GAME states of `matchTrace` once the paddles are at the bottom wall:
the ball at height 300 and abscissa `x` moves horizontally with velocity `vx`;
the scores are `s1` and `s2`, the recorded winner is `w`. -/
def rally (x vx : ℚ) (s1 s2 w : Int) : Game ℚ :=
  { leftPaddle := ⟨⟨30, 520⟩, 6⟩
    rightPaddle := ⟨⟨755, 520⟩, 6⟩
    ball := ⟨⟨x, 300⟩, ⟨vx, 0⟩, 8⟩
    player1Score := s1
    player2Score := s2
    winner := w
    currentScreen := SCREEN_GAME }

/-- The first frame of `matchTrace` played: the GAME state right after the
first press of SPACE. -/
def servedState : Game ℚ := UpdateGame ratLib spaceKey flatServe menuState

/-- The state 162 frames into `matchTrace`: player 1 leads 1-0 and the ball,
served to the left, is at the left edge with velocity (-5, 0). -/
def leftExitState : Game ℚ := runTicks ratLib ((spaceKey, flatServe) :: holdDown 161) menuState

/-- A GAME state at 4-4 in which the ball, at the right edge, moves right. -/
def matchPoint : Game ℚ :=
  { leftPaddle := ⟨⟨30, 520⟩, 6⟩
    rightPaddle := ⟨⟨755, 520⟩, 6⟩
    ball := ⟨⟨800, 300⟩, ⟨5, 0⟩, 8⟩
    player1Score := 4
    player2Score := 4
    winner := 0
    currentScreen := SCREEN_GAME }


section
variable {F : Type} [LinearOrderedField F]

/-- The GAME branch up to the wall test (lines 171-210): paddle controls,
paddle clamp, ball movement. -/
def beforeWall (k : Keys) (g : Game F) : Game F :=
  moveBall (clampPaddles (movePaddles k g))

/-- The GAME branch up to the left paddle test (lines 171-227). -/
def beforeLeftHit (k : Keys) (g : Game F) : Game F :=
  wallBounce (beforeWall k g)

/-- The GAME branch up to the right paddle test (lines 171-262). -/
def beforeRightHit (lib : Lib F) (k : Keys) (g : Game F) : Game F :=
  leftPaddleHit lib (beforeLeftHit k g)

/-- The two tests guarding the left paddle bounce (lines 237 and 240). -/
def leftHitFires (lib : Lib F) (b : Game F) : Prop :=
  lib.CheckCollisionCircleRec b.ball.position b.ball.radius
      ⟨b.leftPaddle.position.x, b.leftPaddle.position.y, (PADDLE_WIDTH : F), (PADDLE_HEIGHT : F)⟩ =
      true ∧
    b.ball.velocity.x < 0

/-- The two tests guarding the right paddle bounce (lines 268 and 271). -/
def rightHitFires (lib : Lib F) (b : Game F) : Prop :=
  lib.CheckCollisionCircleRec b.ball.position b.ball.radius
      ⟨b.rightPaddle.position.x, b.rightPaddle.position.y, (PADDLE_WIDTH : F),
        (PADDLE_HEIGHT : F)⟩ =
      true ∧
    b.ball.velocity.x > 0

/-- The test of the wall stage (lines 216-217), split into its two sides. -/
def touchesTop (b : Game F) : Prop := b.ball.position.y - b.ball.radius ≤ 0

def touchesBottom (b : Game F) : Prop := b.ball.position.y + b.ball.radius ≥ (SCREEN_HEIGHT : F)

/-- The speed of the ball, `sqrtf (vx * vx + vy * vy)` as lines 250 and 280
compute it. -/
def ballSpeed (lib : Lib F) (b : Game F) : F :=
  lib.sqrtf (b.ball.velocity.x * b.ball.velocity.x + b.ball.velocity.y * b.ball.velocity.y)

/-- The angle of a paddle hit in degrees: the factor of `DEG2RAD` in
`hitAngle`. -/
def hitAngleDegrees (ballY paddleY : F) : F :=
  ((ballY - paddleY) / (PADDLE_HEIGHT : F) - 1 / 2) * 60

/-- A library whose `cosf` and `sinf` are exact at 0 and whose collision test
is the overlap test. -/
structure ExactAtZero (lib : Lib F) : Prop where
  cos_zero : lib.cosf 0 = 1
  sin_zero : lib.sinf 0 = 0
  overlap : lib.CheckCollisionCircleRec = circleRecOverlap

/-- The GAME states of a first serve on its way to the right: the ball at
height 300 and abscissa `x` with velocity (5, 0), the paddles at heights `ly`
and `ry`, no point scored yet. -/
def approach (x ly ry : F) : Game F :=
  { leftPaddle := ⟨⟨30, ly⟩, 6⟩
    rightPaddle := ⟨⟨755, ry⟩, 6⟩
    ball := ⟨⟨x, 300⟩, ⟨5, 0⟩, 8⟩
    player1Score := 0
    player2Score := 0
    winner := 0
    currentScreen := SCREEN_GAME }

/-- The geometric invariant of reachable states: the radius of the ball is
`BALL_RADIUS = 8`, the ball is between the top and bottom walls, and the
paddles are on their columns. -/
structure Geometry (g : Game F) : Prop where
  radius : g.ball.radius = 8
  top : 8 ≤ g.ball.position.y
  bottom : g.ball.position.y ≤ 592
  left : g.leftPaddle.position.x = 30
  right : g.rightPaddle.position.x = 755

/-- A library with the given `cosf`, `sinf`, `sqrtf` and `DEG2RAD` whose
collision test is the overlap test. -/
def libOf (cosf sinf sqrtf : F → F) (deg2rad : F) : Lib F :=
  ⟨cosf, sinf, sqrtf, circleRecOverlap, deg2rad⟩

/-- The inputs of `n` frames without any key. -/
def coast (n : Nat) : List (Keys × (Nat → Nat)) := List.replicate n (noKeys, flatServe)

end

/-- Ideal real arithmetic: `cosf`, `sinf` and `sqrtf` are the real cosine, sine
and square root. -/
structure IdealLibm (lib : Lib ℝ) : Prop where
  cosf : lib.cosf = Real.cos
  sinf : lib.sinf = Real.sin
  sqrtf : lib.sqrtf = Real.sqrt

/-- DOWN held alone: the right paddle moves towards the bottom wall. -/
def downKey : Keys := ⟨false, false, false, false, true⟩

/-- The state 70 frames into a match in which player 2 first holds DOWN for 7
frames: the first serve, at (745, 300), is one frame away from the right
paddle, whose top edge is at height 302. -/
def edgeState : Game ℚ :=
  runTicks ratLib ((spaceKey, flatServe) :: (List.replicate 7 (downKey, flatServe) ++ coast 62))
    menuState

/-- The state 102 frames after `edgeState`: the ball, sent up and to the left
by the right paddle, is one frame away from the top wall. -/
def wallState : Game ℚ := runTicks ratLib (coast 102) edgeState


section
variable {F : Type} [LinearOrderedField F]

/-- The invariant of reachable states on the scores: both are 0 on the MENU
screen, and on the WINNER screen exactly one of them is `WINNING_SCORE` and
`winner` is the number of that player. -/
structure ScoreInv (g : Game F) : Prop where
  menu : g.currentScreen = SCREEN_MENU → g.player1Score = 0 ∧ g.player2Score = 0
  won : g.currentScreen = SCREEN_WINNER →
    (g.player1Score = WINNING_SCORE ∧ g.player2Score < WINNING_SCORE ∧ g.winner = 1) ∨
      (g.player2Score = WINNING_SCORE ∧ g.player1Score < WINNING_SCORE ∧ g.winner = 2)

/-- The per-tick wording of the score claim: from `a` to `b` at most one of the
two scores changes, and it changes by exactly 1. -/
def oneScoreStep (a b : Game F) : Prop :=
  (b.player1Score = a.player1Score ∧ b.player2Score = a.player2Score) ∨
    (b.player1Score = a.player1Score + 1 ∧ b.player2Score = a.player2Score) ∨
    (b.player1Score = a.player1Score ∧ b.player2Score = a.player2Score + 1)

end

end PongGame

namespace SnakeGame
open Direction GameScreen

theorem pos_ext_iff (p q : GridPosition) : p = q ↔ p.x = q.x ∧ p.y = q.y := by
  cases p; cases q; simp

theorem foodOnSnake_false_iff (s : Snake) (p : GridPosition) :
    foodOnSnake s p = false ↔ ∀ i, i < s.length → s.body i ≠ p := by
  unfold foodOnSnake
  rw [Bool.eq_false_iff]
  simp only [ne_eq, List.any_eq_true, List.mem_range, Bool.and_eq_true, decide_eq_true_eq,
    not_exists, not_and]
  constructor
  · intro h i hi heq
    exact h i hi (by rw [heq]) (by rw [heq])
  · intro h i hi hx hy
    exact h i hi ((pos_ext_iff _ _).2 ⟨hx.symm, hy.symm⟩)

theorem spawnLoop_spec (s : Snake) (draws : List Nat) (food : GridPosition)
    (h : spawnLoop s draws = some food) :
    (∀ i, i < s.length → s.body i ≠ food) ∧
      0 ≤ food.x ∧ food.x < GRID_WIDTH ∧ 0 ≤ food.y ∧ food.y < GRID_HEIGHT := by
  induction draws using spawnLoop.induct s with
  | case1 r1 r2 rest food' hon ih =>
    rw [spawnLoop] at h
    simp only [food'] at hon
    simp only [hon, if_true] at h
    exact ih h
  | case2 r1 r2 rest food' hon =>
    rw [spawnLoop] at h
    simp only [food'] at hon
    have hon' := Bool.eq_false_iff.2 hon
    simp only [hon', Bool.false_eq_true, if_false, Option.some.injEq] at h
    subst h
    refine ⟨(foodOnSnake_false_iff _ _).1 hon', ?_, ?_, ?_, ?_⟩
    · exact Int.emod_nonneg _ (by decide)
    · exact Int.emod_lt_of_pos _ (by decide)
    · exact Int.emod_nonneg _ (by decide)
    · exact Int.emod_lt_of_pos _ (by decide)
  | case3 draws hne =>
    rw [spawnLoop] at h
    · exact absurd h (by simp)
    · exact hne

theorem shiftBody_apply (n : Nat) (body : Nat → GridPosition) (j : Nat) :
    shiftBody body n j = if 1 ≤ j ∧ j ≤ n then body (j - 1) else body j := by
  induction n generalizing body with
  | zero =>
    simp only [shiftBody]
    have : ¬ (1 ≤ j ∧ j ≤ 0) := by omega
    rw [if_neg this]
  | succ n ih =>
    simp only [shiftBody]
    rw [ih]
    by_cases h1 : 1 ≤ j ∧ j ≤ n
    · have h2 : 1 ≤ j ∧ j ≤ n + 1 := by omega
      have h3 : j - 1 ≠ n + 1 := by omega
      simp [h1, h2, Function.update_apply, h3]
    · by_cases h4 : j = n + 1
      · subst h4
        simp [h1]
      · have h2 : ¬ (1 ≤ j ∧ j ≤ n + 1) := by omega
        simp [h1, h2, Function.update_apply, h4]

theorem initBody_apply (sx sy : Int) (body : Nat → GridPosition) (n j : Nat) :
    initBody sx sy body n j = if j < n then ⟨sx - (j : Int), sy⟩ else body j := by
  induction n with
  | zero => simp [initBody]
  | succ n ih =>
    simp only [initBody, Function.update_apply]
    by_cases h : j = n
    · subst h; simp
    · rw [ih]
      by_cases h2 : j < n
      · have : j < n + 1 := by omega
        simp [h, h2, this]
      · have : ¬ j < n + 1 := by omega
        simp [h, h2, this]


theorem selfCollision_iff (g : Game) :
    CheckSelfCollision g = true ↔
      ∃ i, 1 ≤ i ∧ i < g.snake.length ∧ g.snake.body 0 = g.snake.body i := by
  unfold CheckSelfCollision
  simp only [List.any_eq_true, List.mem_range'_1, Bool.and_eq_true, decide_eq_true_eq]
  constructor
  · rintro ⟨i, ⟨hi1, hi2⟩, hx, hy⟩
    exact ⟨i, hi1, by omega, (pos_ext_iff _ _).2 ⟨hx, hy⟩⟩
  · rintro ⟨i, hi1, hi2, h⟩
    exact ⟨i, ⟨hi1, by omega⟩, by rw [h], by rw [h]⟩

theorem foodCollision_iff (g : Game) : CheckFoodCollision g = true ↔ g.snake.body 0 = g.food := by
  unfold CheckFoodCollision
  simp only [Bool.and_eq_true, decide_eq_true_eq]
  exact ((pos_ext_iff _ _)).symm

theorem handleKeys_body (k : Keys) (s : Snake) : (handleKeys k s).body = s.body := by
  unfold handleKeys; dsimp only; split_ifs
  all_goals rfl

theorem handleKeys_length (k : Keys) (s : Snake) : (handleKeys k s).length = s.length := by
  unfold handleKeys; dsimp only; split_ifs
  all_goals rfl

theorem handleKeys_direction (k : Keys) (s : Snake) : (handleKeys k s).direction = s.direction := by
  unfold handleKeys; dsimp only; split_ifs
  all_goals rfl

theorem handleKeys_next (k : Keys) (s : Snake) (h : s.nextDirection ≠ opposite s.direction) :
    (handleKeys k s).nextDirection ≠ opposite s.direction := by
  rcases s with ⟨b, l, d, n⟩
  rcases k with ⟨e, u, dn, lf, r⟩
  cases d <;> cases n <;> cases u <;> cases dn <;> cases lf <;> cases r <;>
    simp [handleKeys, opposite] at h ⊢


theorem advance_length (g : Game) : (advance g).snake.length = g.snake.length := rfl
theorem advance_direction (g : Game) : (advance g).snake.direction = g.snake.nextDirection := rfl
theorem advance_next (g : Game) : (advance g).snake.nextDirection = g.snake.nextDirection := rfl
theorem advance_food (g : Game) : (advance g).food = g.food := rfl
theorem advance_screen (g : Game) : (advance g).currentScreen = g.currentScreen := rfl
theorem advance_counter (g : Game) : (advance g).frameCounter = 0 := rfl

theorem advance_head (g : Game) :
    (advance g).snake.body 0 = moveHead g.snake.nextDirection (g.snake.body 0) := by
  simp [advance, MoveSnake, shiftBody_apply]

theorem advance_tail (g : Game) (j : Nat) (h1 : 1 ≤ j) (h2 : j < g.snake.length) :
    (advance g).snake.body j = g.snake.body (j - 1) := by
  have hj : j ≠ 0 := by omega
  have hj2 : 1 ≤ j ∧ j ≤ g.snake.length - 1 := by omega
  simp [advance, MoveSnake, shiftBody_apply, Function.update_apply, hj, hj2]

theorem GrowSnake_length_le (g : Game) (h : g.snake.length ≤ MAX_SNAKE_LENGTH) :
    (GrowSnake g).snake.length ≤ MAX_SNAKE_LENGTH := by
  unfold GrowSnake
  split
  · simp only; omega
  · exact h

theorem GrowSnake_length_ge (g : Game) : g.snake.length ≤ (GrowSnake g).snake.length := by
  unfold GrowSnake
  split
  · simp only; omega
  · exact le_refl _

theorem GrowSnake_cases (g : Game) :
    (g.snake.length < MAX_SNAKE_LENGTH ∧ (GrowSnake g).snake.length = g.snake.length + 1 ∧
        (GrowSnake g).snake.body g.snake.length = g.snake.body (g.snake.length - 1) ∧
        ∀ j, j < g.snake.length → (GrowSnake g).snake.body j = g.snake.body j) ∨
      (g.snake.length = MAX_SNAKE_LENGTH ∨ MAX_SNAKE_LENGTH < g.snake.length) ∧ GrowSnake g = g := by
  unfold GrowSnake
  by_cases h : g.snake.length < MAX_SNAKE_LENGTH
  · left
    simp only [h, if_true, Function.update_same, true_and]
    intro j hj
    have : j ≠ g.snake.length := by omega
    simp [Function.update_apply, this]
  · right
    simp only [h, if_false, and_true]
    omega

theorem GrowSnake_other (g : Game) :
    (GrowSnake g).food = g.food ∧ (GrowSnake g).score = g.score ∧
      (GrowSnake g).frameCounter = g.frameCounter ∧ (GrowSnake g).moveSpeed = g.moveSpeed ∧
      (GrowSnake g).currentScreen = g.currentScreen ∧ (GrowSnake g).gameOver = g.gameOver ∧
      (GrowSnake g).snake.direction = g.snake.direction ∧
      (GrowSnake g).snake.nextDirection = g.snake.nextDirection := by
  unfold GrowSnake
  split <;> simp

theorem SpawnFood_some (draws : List Nat) (g g' : Game) (h : SpawnFood draws g = some g') :
    ∃ food, spawnLoop g.snake draws = some food ∧ g' = { g with food := food } := by
  unfold SpawnFood at h
  split at h
  · next food hf =>
    exact ⟨food, hf, by simpa using h.symm⟩
  · exact absurd h (by simp)

theorem eatFood_some (draws : List Nat) (g g' : Game) (h : eatFood draws g = some g') :
    g'.snake = (GrowSnake g).snake ∧ spawnLoop (GrowSnake g).snake draws = some g'.food ∧
      g'.currentScreen = g.currentScreen ∧ g'.frameCounter = g.frameCounter ∧
      g'.score = g.score + 10 ∧ g'.gameOver = g.gameOver ∧
      g'.moveSpeed = (if g.moveSpeed > MIN_SPEED then g.moveSpeed - 1 else g.moveSpeed) := by
  unfold eatFood at h
  dsimp only at h
  split at h
  · next g1 hs =>
    obtain ⟨food, hf, rfl⟩ := SpawnFood_some _ _ _ hs
    simp only [Option.some.injEq] at h
    subst h
    obtain ⟨ho1, ho2, ho3, ho4, ho5, ho6, -, -⟩ := GrowSnake_other g
    clear hs
    dsimp only at hf ⊢
    rw [ho4]
    split
    · next hgt => simp [hf, ho2, ho3, ho5, ho6, ho4, hgt]
    · next hgt => simp [hf, ho2, ho3, ho5, ho6, ho4, hgt]
  · exact absurd h (by simp)

theorem checkGameOver_snake (g : Game) : (checkGameOver g).snake = g.snake := by
  unfold checkGameOver; split <;> rfl

theorem checkGameOver_fields (g : Game) :
    (checkGameOver g).food = g.food ∧ (checkGameOver g).score = g.score ∧
      (checkGameOver g).frameCounter = g.frameCounter ∧
      (checkGameOver g).moveSpeed = g.moveSpeed := by
  unfold checkGameOver; split <;> simp

theorem checkGameOver_screen (g : Game) :
    (checkGameOver g).currentScreen =
      if CheckWallCollision g || CheckSelfCollision g then SCREEN_GAMEOVER else g.currentScreen := by
  unfold checkGameOver; split <;> rfl

theorem InitGame_some (draws : List Nat) (g g' : Game) (h : InitGame draws g = some g') :
    g'.snake.length = INITIAL_SNAKE_LENGTH ∧ g'.snake.direction = DIR_RIGHT ∧
      g'.snake.nextDirection = DIR_RIGHT ∧
      (∀ i, i < INITIAL_SNAKE_LENGTH → g'.snake.body i = ⟨GRID_WIDTH / 2 - (i : Int), GRID_HEIGHT / 2⟩) ∧
      (∀ i, i < g'.snake.length → g'.snake.body i ≠ g'.food) ∧
      g'.score = 0 ∧ g'.moveSpeed = INITIAL_SPEED ∧ g'.gameOver = false ∧
      g'.currentScreen = g.currentScreen ∧ g'.frameCounter = g.frameCounter := by
  unfold InitGame at h
  obtain ⟨food, hf, rfl⟩ := SpawnFood_some _ _ _ h
  have hs := spawnLoop_spec _ _ _ hf
  refine ⟨rfl, rfl, rfl, ?_, hs.1, rfl, rfl, rfl, rfl, rfl⟩
  intro i hi
  simp [initBody_apply, hi]


theorem Inv_of_InitGame (draws : List Nat) (g0 g : Game) (h : InitGame draws g0 = some g)
    (hc : g0.currentScreen ≠ SCREEN_PLAYING → g0.frameCounter = 0) : Inv false g := by
  obtain ⟨hlen, hd, hn, hb, hf, -, -, -, hscr, hfc⟩ := InitGame_some _ _ _ h
  refine ⟨?_, ?_, ?_, hf, ?_, ?_⟩
  · rw [hd, hn]; decide
  · rw [hlen]
  · rw [hlen]; decide
  · intro i j hij hj heq
    rw [hlen] at hj
    rw [hb i (by omega), hb j hj] at heq
    simp only [GridPosition.mk.injEq, and_true] at heq
    omega
  · rw [hscr, hfc]; exact hc

theorem Inv_readInput (k : Keys) (w : Bool) (g : Game) (hi : Inv w g)
    (hp : g.currentScreen = SCREEN_PLAYING) : Inv w (readInput k g) := by
  obtain ⟨h1, h2, h3, h4, h5, h6⟩ := hi
  refine ⟨?_, ?_, ?_, ?_, ?_, ?_⟩
  · simpa [readInput, handleKeys_direction] using handleKeys_next k g.snake h1
  · simpa [readInput, handleKeys_length] using h2
  · simpa [readInput, handleKeys_length] using h3
  · simpa [readInput, handleKeys_length, handleKeys_body] using h4
  · simpa [readInput, handleKeys_length, handleKeys_body] using h5
  · intro h; exact absurd hp h

/-- After `advance`, the segments behind the head are pairwise distinct. -/
theorem advance_tail_distinct (w : Bool) (g : Game) (hi : Inv w g)
    (hp : g.currentScreen = SCREEN_PLAYING) (i j : Nat) (h1 : 1 ≤ i) (hij : i < j)
    (hj : j < g.snake.length) : (advance g).snake.body i ≠ (advance g).snake.body j := by
  intro heq
  rw [advance_tail g i h1 (by omega), advance_tail g j (by omega) hj] at heq
  rcases hi.distinct (i - 1) (j - 1) (by omega) (by omega) heq with ⟨-, -, h⟩ | ⟨-, h⟩
  · omega
  · rw [hp] at h; exact absurd h (by decide)

theorem advance_tail_food (w : Bool) (g : Game) (hi : Inv w g) (j : Nat) (h1 : 1 ≤ j)
    (hj : j < g.snake.length) : (advance g).snake.body j ≠ g.food := by
  rw [advance_tail g j h1 hj]
  exact hi.food (j - 1) (by omega)

theorem Inv_checkGameOver (w : Bool) (g : Game)
    (hdir : g.snake.nextDirection ≠ opposite g.snake.direction)
    (hmin : INITIAL_SNAKE_LENGTH ≤ g.snake.length) (hmax : g.snake.length ≤ MAX_SNAKE_LENGTH)
    (hfood : ∀ i, i < g.snake.length → g.snake.body i ≠ g.food)
    (hdist : ∀ i j, 1 ≤ i → i < j → j < g.snake.length → g.snake.body i = g.snake.body j →
      w = true ∧ i + 2 = g.snake.length ∧ j + 1 = g.snake.length)
    (hfc : g.frameCounter = 0) : Inv w (checkGameOver g) := by
  have hs := checkGameOver_snake g
  obtain ⟨hf, -, hc, -⟩ := checkGameOver_fields g
  refine ⟨?_, ?_, ?_, ?_, ?_, ?_⟩
  · rw [hs]; exact hdir
  · rw [hs]; exact hmin
  · rw [hs]; exact hmax
  · rw [hs, hf]; exact hfood
  · rw [hs]
    intro i j hij hj heq
    rcases Nat.eq_zero_or_pos i with h0 | h0
    · right
      refine ⟨h0, ?_⟩
      subst h0
      have hself : CheckSelfCollision g = true :=
        (selfCollision_iff g).2 ⟨j, hij, hj, heq⟩
      rw [checkGameOver_screen, hself]
      simp
    · left
      exact hdist i j h0 hij hj heq
  · intro _
    rw [hc]; exact hfc


theorem ne_opposite (d : Direction) : d ≠ opposite d := by
  cases d <;> decide

theorem Inv_simulationStep (w : Bool) (draws : List Nat) (g g' : Game) (hi : Inv w g)
    (hp : g.currentScreen = SCREEN_PLAYING) (h : simulationStep draws g = some g') :
    Inv (CheckFoodCollision (advance g)) g' := by
  unfold simulationStep at h
  dsimp only at h
  have htd := advance_tail_distinct w g hi hp
  by_cases hfc : CheckFoodCollision (advance g) = true
  · rw [hfc] at h ⊢
    simp only [if_true] at h
    split at h
    · next e he =>
      simp only [Option.some.injEq] at h
      subst h
      obtain ⟨hs, hspawn, -, hcnt, -, -, -⟩ := eatFood_some _ _ _ he
      obtain ⟨-, -, -, -, -, -, hgd, hgn⟩ := GrowSnake_other (advance g)
      have hsp := (spawnLoop_spec _ _ _ hspawn).1
      apply Inv_checkGameOver
      · rw [hs, hgd, hgn, advance_direction, advance_next]; exact ne_opposite _
      · rw [hs]
        exact le_trans hi.len_min (GrowSnake_length_ge (advance g))
      · rw [hs]
        exact GrowSnake_length_le (advance g) hi.len_max
      · rw [hs]; exact hsp
      · rw [hs]
        intro i j h1 hij hj heq
        rcases GrowSnake_cases (advance g) with ⟨-, hl, hlast, hsame⟩ | ⟨-, hg⟩
        · rw [hl] at hj ⊢
          rw [advance_length] at hj hlast hsame ⊢
          by_cases hjl : j < g.snake.length
          · rw [hsame i (by omega), hsame j hjl] at heq
            exact absurd heq (htd i j h1 hij hjl)
          · have hje : j = g.snake.length := by omega
            subst hje
            rw [hlast, hsame i hij] at heq
            by_cases hil : i + 1 = g.snake.length
            · exact ⟨rfl, by omega, rfl⟩
            · exact absurd heq (htd i (g.snake.length - 1) h1 (by omega) (by omega))
        · rw [hg] at hj heq
          rw [advance_length] at hj
          exact absurd heq (htd i j h1 hij hj)
      · rw [hcnt]; rfl
    · exact absurd h (by simp)
  · have hfc' : CheckFoodCollision (advance g) = false := by simpa using hfc
    rw [hfc'] at h ⊢
    simp only [Bool.false_eq_true, if_false, Option.some.injEq] at h
    subst h
    apply Inv_checkGameOver
    · rw [advance_direction, advance_next]; exact ne_opposite _
    · exact hi.len_min
    · exact hi.len_max
    · intro i hil
      rw [advance_length] at hil
      rcases Nat.eq_zero_or_pos i with h0 | h0
      · subst h0
        intro heq
        exact hfc ((foodCollision_iff _).2 heq)
      · exact advance_tail_food w g hi i h0 hil
    · intro i j h1 hij hj heq
      rw [advance_length] at hj
      exact absurd heq (htd i j h1 hij hj)
    · rfl

theorem Inv_UpdateGame (k : Keys) (draws : List Nat) (w : Bool) (g g' : Game) (hi : Inv w g)
    (h : UpdateGame k draws g = some g') : Inv (windowAfter k g w) g' := by
  unfold UpdateGame at h
  unfold windowAfter
  split at h
  · next hs =>
    rw [hs]
    dsimp only
    by_cases he : k.enter = true
    · rw [if_pos he] at h ⊢
      exact Inv_of_InitGame _ _ _ h (fun hne => absurd rfl hne)
    · rw [if_neg he] at h ⊢
      simp only [Option.some.injEq] at h
      subst h; exact hi
  · next hs =>
    rw [hs]
    dsimp only at h ⊢
    have hr := Inv_readInput k w g hi hs
    by_cases hf : (readInput k g).frameCounter ≥ (readInput k g).moveSpeed
    · rw [if_pos hf] at h ⊢
      exact Inv_simulationStep w draws _ _ hr hs h
    · rw [if_neg hf] at h ⊢
      simp only [Option.some.injEq] at h
      subst h; exact hr
  · next hs =>
    rw [hs]
    dsimp only
    by_cases he : k.enter = true
    · rw [if_pos he] at h ⊢
      exact Inv_of_InitGame _ _ _ h (fun hne => absurd rfl hne)
    · rw [if_neg he] at h ⊢
      simp only [Option.some.injEq] at h
      subst h; exact hi

theorem ReachableW.snakeInv {w : Bool} {g : Game} (h : ReachableW w g) : Inv w g := by
  induction h with
  | init draws g h => exact Inv_of_InitGame _ _ _ h (fun _ => rfl)
  | tick k draws w g g' _ h ih => exact Inv_UpdateGame k draws w g g' ih h

theorem Reachable.window {g : Game} (h : Reachable g) : ∃ w, ReachableW w g := by
  induction h with
  | init draws g h => exact ⟨false, ReachableW.init draws g h⟩
  | tick k draws g g' _ h ih =>
    obtain ⟨w, hw⟩ := ih
    exact ⟨_, ReachableW.tick k draws w g g' hw h⟩

theorem ReachableW.reachable {w : Bool} {g : Game} (h : ReachableW w g) : Reachable g := by
  induction h with
  | init draws g h => exact Reachable.init draws g h
  | tick k draws w g g' _ h ih => exact Reachable.tick k draws g g' ih h


theorem getD_of_isSome {α : Type} (o : Option α) (d : α) (h : o.isSome = true) :
    o = some (o.getD d) := by
  cases o with
  | none => exact absurd h (by simp)
  | some a => rfl

theorem runTicks_reachable (l : List (Keys × List Nat)) (g g' : Game) (hr : Reachable g)
    (h : runTicks l g = some g') : Reachable g' := by
  induction l generalizing g with
  | nil =>
    simp only [runTicks, Option.some.injEq] at h
    subst h; exact hr
  | cons a rest ih =>
    obtain ⟨k, draws⟩ := a
    simp only [runTicks] at h
    split at h
    · next g1 h1 => exact ih g1 (Reachable.tick k draws g g1 hr h1) h
    · exact absurd h (by simp)

theorem titleState_reachable : Reachable titleState :=
  Reachable.init [0, 0] titleState (getD_of_isSome _ _ (by decide!))

theorem collidedState_reachable : Reachable collidedState :=
  runTicks_reachable collisionTrace titleState collidedState titleState_reachable
    (getD_of_isSome _ _ (by decide!))

theorem simulationStep_some (draws : List Nat) (g g' : Game) (h : simulationStep draws g = some g') :
    g'.snake.direction = g.snake.nextDirection ∧ g'.snake.nextDirection = g.snake.nextDirection ∧
      g'.frameCounter = 0 ∧
      g'.currentScreen =
        (if CheckWallCollision g' || CheckSelfCollision g' then SCREEN_GAMEOVER
          else g.currentScreen) := by
  unfold simulationStep at h
  dsimp only at h
  have key : ∀ e : Game, e.snake.direction = g.snake.nextDirection →
      e.snake.nextDirection = g.snake.nextDirection → e.frameCounter = 0 →
      e.currentScreen = g.currentScreen → g' = checkGameOver e →
      g'.snake.direction = g.snake.nextDirection ∧ g'.snake.nextDirection = g.snake.nextDirection ∧
      g'.frameCounter = 0 ∧
      g'.currentScreen =
        (if CheckWallCollision g' || CheckSelfCollision g' then SCREEN_GAMEOVER
          else g.currentScreen) := by
    intro e h1 h2 h3 h4 h5
    subst h5
    have hs := checkGameOver_snake e
    have hw : CheckWallCollision (checkGameOver e) = CheckWallCollision e := by
      unfold CheckWallCollision; rw [hs]
    have hc : CheckSelfCollision (checkGameOver e) = CheckSelfCollision e := by
      unfold CheckSelfCollision; rw [hs]
    refine ⟨by rw [hs]; exact h1, by rw [hs]; exact h2, ?_, ?_⟩
    · rw [(checkGameOver_fields e).2.2.1]; exact h3
    · rw [hw, hc, checkGameOver_screen, h4]
  split at h
  · split at h
    · next e he =>
      simp only [Option.some.injEq] at h
      obtain ⟨hs, -, hscr, hcnt, -, -, -⟩ := eatFood_some _ _ _ he
      obtain ⟨-, -, -, -, -, -, hgd, hgn⟩ := GrowSnake_other (advance g)
      exact key e (by rw [hs, hgd]; rfl) (by rw [hs, hgn]; rfl) (by rw [hcnt]; rfl)
        (by rw [hscr]; rfl) h.symm
    · exact absurd h (by simp)
  · simp only [Option.some.injEq] at h
    exact key (advance g) rfl rfl rfl rfl h.symm


theorem runTicks_reachableW (l : List (Keys × List Nat)) (w : Bool) (g g' : Game)
    (hr : ReachableW w g) (h : runTicks l g = some g') : ReachableW (runWindow l w g) g' := by
  induction l generalizing g w with
  | nil =>
    simp only [runTicks, Option.some.injEq] at h
    subst h; exact hr
  | cons a rest ih =>
    obtain ⟨k, draws⟩ := a
    simp only [runTicks] at h
    split at h
    · next g1 h1 =>
      simp only [runWindow, h1]
      exact ih _ g1 (ReachableW.tick k draws w g g1 hr h1) h
    · exact absurd h (by simp)

theorem readyState_reachable : Reachable readyState :=
  runTicks_reachable readyTrace titleState readyState titleState_reachable
    (getD_of_isSome _ _ (by decide!))

theorem brinkState_reachable : Reachable brinkState :=
  runTicks_reachable _ titleState brinkState titleState_reachable
    (getD_of_isSome _ _ (by decide!))

theorem stepFires_iff (k : Keys) (g : Game) (hp : g.currentScreen = SCREEN_PLAYING) :
    stepFires g ↔ (readInput k g).frameCounter ≥ (readInput k g).moveSpeed := by
  unfold stepFires
  simp only [hp, true_and]
  exact Iff.rfl

/-- C1 (no-reverse invariant). In every reachable PLAYING state, for every
combination of arrow keys of the frame (several keys at once included): the
buffered `nextDirection` left by the key tests is not the opposite of
`snake.direction`; a frame without a simulation step leaves `snake.direction`
as it is; a frame with a simulation step commits exactly that buffered value;
hence the direction after the tick is never the exact opposite of the
direction held before it. -/
theorem C1_no_reverse (k : Keys) (draws : List Nat) (g g' : Game) (hr : Reachable g)
    (hp : g.currentScreen = SCREEN_PLAYING) (h : UpdateGame k draws g = some g') :
    (handleKeys k g.snake).nextDirection ≠ opposite g.snake.direction ∧
      (stepFires g → g'.snake.direction = (handleKeys k g.snake).nextDirection) ∧
      (¬ stepFires g → g'.snake.direction = g.snake.direction) ∧
      g'.snake.direction ≠ opposite g.snake.direction := by
  obtain ⟨w, hw⟩ := hr.window
  have hinv := hw.snakeInv
  have hk := handleKeys_next k g.snake hinv.dir
  have hcases : (stepFires g → g'.snake.direction = (handleKeys k g.snake).nextDirection) ∧
      (¬ stepFires g → g'.snake.direction = g.snake.direction) := by
    unfold UpdateGame at h
    rw [hp] at h
    dsimp only at h
    rw [stepFires_iff k g hp]
    by_cases hf : (readInput k g).frameCounter ≥ (readInput k g).moveSpeed
    · rw [if_pos hf] at h
      refine ⟨fun _ => (simulationStep_some _ _ _ h).1, fun hn => absurd hf hn⟩
    · rw [if_neg hf] at h
      simp only [Option.some.injEq] at h
      subst h
      exact ⟨fun hn => absurd hn hf, fun _ => handleKeys_direction k g.snake⟩
  refine ⟨hk, hcases.1, hcases.2, ?_⟩
  by_cases hs : stepFires g
  · rw [hcases.1 hs]; exact hk
  · rw [hcases.2 hs]; exact ne_opposite _

theorem C1_no_reverse_witness :
    (handleKeys upDownKeys readyState.snake).nextDirection ≠ opposite readyState.snake.direction ∧
      (stepFires readyState →
        ((UpdateGame upDownKeys [22, 15] readyState).getD startGlobals).snake.direction =
          (handleKeys upDownKeys readyState.snake).nextDirection) ∧
      (¬ stepFires readyState →
        ((UpdateGame upDownKeys [22, 15] readyState).getD startGlobals).snake.direction =
          readyState.snake.direction) ∧
      ((UpdateGame upDownKeys [22, 15] readyState).getD startGlobals).snake.direction ≠
        opposite readyState.snake.direction :=
  C1_no_reverse upDownKeys [22, 15] readyState _ readyState_reachable (by decide!)
    (getD_of_isSome _ _ (by decide!))

/-- C2 (food/body disjointness). In every reachable state the food cell
differs from the cell of every segment `body[i]`, `0 ≤ i < length`. -/
theorem C2_food_off_snake (g : Game) (hr : Reachable g) (i : Nat) (hi : i < g.snake.length) :
    g.snake.body i ≠ g.food := by
  obtain ⟨w, hw⟩ := hr.window
  exact hw.snakeInv.food i hi

theorem C2_food_off_snake_witness : collidedState.snake.body 4 ≠ collidedState.food :=
  C2_food_off_snake collidedState collidedState_reachable 4 (by decide!)

/-- C3, counterexample. The reachable GAMEOVER state at the end of
`collisionTrace` has length 5 and its head `body[0]` lies on `body[4]`:
two equal segments that are not the last two. -/
theorem C3_counterexample :
    Reachable collidedState ∧ collidedState.snake.length = 5 ∧
      collidedState.snake.body 0 = collidedState.snake.body 4 ∧
      collidedState.currentScreen = SCREEN_GAMEOVER ∧ ¬ segmentsDistinct collidedState := by
  refine ⟨collidedState_reachable, by decide!, by decide!, by decide!, ?_⟩
  intro h
  have := (h 0 4 (by decide) (by decide!) (by decide!)).1
  exact absurd this (by decide!)

/-- C3, amended. In every reachable state, two distinct indices `i < j` below
`snake.length` that hold the same cell are either the last two segments, and
then `GrowSnake` has been called since the last `MoveSnake` (ghost flag `w`),
or the head `i = 0` in a GAMEOVER state (the self collision that ended the
game). -/
theorem C3_distinct_amended (w : Bool) (g : Game) (hr : ReachableW w g) (i j : Nat) (hij : i < j)
    (hj : j < g.snake.length) (heq : g.snake.body i = g.snake.body j) :
    (w = true ∧ i + 2 = g.snake.length ∧ j + 1 = g.snake.length) ∨
      (i = 0 ∧ g.currentScreen = SCREEN_GAMEOVER) :=
  hr.snakeInv.distinct i j hij hj heq

theorem C3_distinct_amended_witness :
    (runWindow fedTrace false titleState = true ∧ 2 + 2 = fedState.snake.length ∧
        3 + 1 = fedState.snake.length) ∨
      (2 = 0 ∧ fedState.currentScreen = SCREEN_GAMEOVER) :=
  C3_distinct_amended (runWindow fedTrace false titleState) fedState
    (runTicks_reachableW fedTrace false titleState fedState
      (ReachableW.init [0, 0] titleState (getD_of_isSome _ _ (by decide!)))
      (getD_of_isSome _ _ (by decide!)))
    2 3 (by decide) (by decide!) (by decide!)


theorem InitGame_screen (draws : List Nat) (g g' : Game) (h : InitGame draws g = some g') :
    g'.currentScreen = g.currentScreen :=
  (InitGame_some draws g g' h).2.2.2.2.2.2.2.2.1

/-- C4 (phase machine). For every state and every input, a returning call of
`UpdateGame` maps TITLE to PLAYING if ENTER is pressed and to TITLE otherwise;
GAMEOVER to PLAYING if ENTER is pressed and to GAMEOVER otherwise; PLAYING to
GAMEOVER if a simulation step fires on the tick and the wall or self collision
test holds on the snake it leaves, and to PLAYING otherwise; no state other
than TITLE is mapped to TITLE. -/
theorem C4_phase_machine (k : Keys) (draws : List Nat) (g g' : Game)
    (h : UpdateGame k draws g = some g') :
    (g.currentScreen = SCREEN_TITLE →
        g'.currentScreen = if k.enter then SCREEN_PLAYING else SCREEN_TITLE) ∧
      (g.currentScreen = SCREEN_PLAYING →
        g'.currentScreen =
          if stepFires g ∧ (CheckWallCollision g' = true ∨ CheckSelfCollision g' = true) then
            SCREEN_GAMEOVER
          else SCREEN_PLAYING) ∧
      (g.currentScreen = SCREEN_GAMEOVER →
        g'.currentScreen = if k.enter then SCREEN_PLAYING else SCREEN_GAMEOVER) ∧
      (g.currentScreen ≠ SCREEN_TITLE → g'.currentScreen ≠ SCREEN_TITLE) := by
  have hmenu : ∀ scr, g.currentScreen = scr →
      (if k.enter = true then InitGame draws { g with currentScreen := SCREEN_PLAYING }
        else some g) = some g' →
      g'.currentScreen = if k.enter then SCREEN_PLAYING else scr := by
    intro scr hs h
    by_cases he : k.enter = true
    · rw [if_pos he] at h ⊢
      exact InitGame_screen _ _ _ h
    · rw [if_neg he] at h ⊢
      simp only [Option.some.injEq] at h
      subst h; exact hs
  have hplay : g.currentScreen = SCREEN_PLAYING →
      g'.currentScreen =
        if stepFires g ∧ (CheckWallCollision g' = true ∨ CheckSelfCollision g' = true) then
          SCREEN_GAMEOVER
        else SCREEN_PLAYING := by
    intro hp
    unfold UpdateGame at h
    rw [hp] at h
    dsimp only at h
    by_cases hf : (readInput k g).frameCounter ≥ (readInput k g).moveSpeed
    · rw [if_pos hf] at h
      have hsf : stepFires g := (stepFires_iff k g hp).2 hf
      have hs := (simulationStep_some _ _ _ h).2.2.2
      have hrs : (readInput k g).currentScreen = SCREEN_PLAYING := hp
      rw [hrs] at hs
      by_cases hc : CheckWallCollision g' = true ∨ CheckSelfCollision g' = true
      · rw [if_pos ⟨hsf, hc⟩, hs, if_pos (by simpa using hc)]
      · rw [if_neg (fun hh => hc hh.2), hs, if_neg (by simpa using hc)]
    · rw [if_neg hf] at h
      have hsf : ¬ stepFires g := fun hh => hf ((stepFires_iff k g hp).1 hh)
      simp only [Option.some.injEq] at h
      subst h
      rw [if_neg (fun hh => hsf hh.1)]
      exact hp
  have htitle : g.currentScreen = SCREEN_TITLE →
      g'.currentScreen = if k.enter then SCREEN_PLAYING else SCREEN_TITLE := by
    intro hs
    unfold UpdateGame at h
    rw [hs] at h
    exact hmenu _ hs h
  have hover : g.currentScreen = SCREEN_GAMEOVER →
      g'.currentScreen = if k.enter then SCREEN_PLAYING else SCREEN_GAMEOVER := by
    intro hs
    unfold UpdateGame at h
    rw [hs] at h
    exact hmenu _ hs h
  refine ⟨htitle, hplay, hover, ?_⟩
  intro hne
  cases hscr : g.currentScreen with
  | SCREEN_TITLE => exact absurd hscr hne
  | SCREEN_PLAYING =>
    rw [hplay hscr]
    split <;> decide
  | SCREEN_GAMEOVER =>
    rw [hover hscr]
    split <;> decide

theorem C4_phase_machine_witness :
    (brinkState.currentScreen = SCREEN_TITLE →
        ((UpdateGame noKeys [] brinkState).getD startGlobals).currentScreen =
          if noKeys.enter then SCREEN_PLAYING else SCREEN_TITLE) ∧
      (brinkState.currentScreen = SCREEN_PLAYING →
        ((UpdateGame noKeys [] brinkState).getD startGlobals).currentScreen =
          if stepFires brinkState ∧
              (CheckWallCollision ((UpdateGame noKeys [] brinkState).getD startGlobals) = true ∨
                CheckSelfCollision ((UpdateGame noKeys [] brinkState).getD startGlobals) = true) then
            SCREEN_GAMEOVER
          else SCREEN_PLAYING) ∧
      (brinkState.currentScreen = SCREEN_GAMEOVER →
        ((UpdateGame noKeys [] brinkState).getD startGlobals).currentScreen =
          if noKeys.enter then SCREEN_PLAYING else SCREEN_GAMEOVER) ∧
      (brinkState.currentScreen ≠ SCREEN_TITLE →
        ((UpdateGame noKeys [] brinkState).getD startGlobals).currentScreen ≠ SCREEN_TITLE) :=
  C4_phase_machine noKeys [] brinkState _ (getD_of_isSome _ _ (by decide!))

/-- C6, counterexample. In the reachable GAMEOVER state `collidedState` (so
`currentScreen` is not PLAYING) a tick with ENTER pressed changes the score
from 20 to 0, the length from 5 to 3, `moveSpeed` from 13 to 15, the head from
(21, 15) to (20, 15) and the food from (0, 0) to (7, 7). -/
theorem C6_counterexample :
    Reachable collidedState ∧ collidedState.currentScreen ≠ SCREEN_PLAYING ∧
      (collidedState.score, collidedState.snake.length, collidedState.moveSpeed,
          collidedState.snake.body 0, collidedState.food) =
        (20, 5, 13, ⟨21, 15⟩, ⟨0, 0⟩) ∧
      (UpdateGame enterKey [7, 7] collidedState).map
          (fun g => (g.score, g.snake.length, g.moveSpeed, g.snake.body 0, g.food)) =
        some (0, 3, 15, ⟨20, 15⟩, ⟨7, 7⟩) :=
  ⟨collidedState_reachable, by decide!, by decide!, by decide!⟩

/-- C6, amended. On every tick on which `currentScreen` is not PLAYING and
ENTER is not pressed, whatever the other keys, `UpdateGame` returns and the
snake's segment positions and length, the food position, the score and
`moveSpeed` are unchanged. -/
theorem C6_idle_amended (k : Keys) (draws : List Nat) (g : Game)
    (hs : g.currentScreen ≠ SCREEN_PLAYING) (he : k.enter = false) :
    ∃ g', UpdateGame k draws g = some g' ∧ g'.snake.body = g.snake.body ∧
      g'.snake.length = g.snake.length ∧ g'.food = g.food ∧ g'.score = g.score ∧
      g'.moveSpeed = g.moveSpeed := by
  refine ⟨g, ?_, rfl, rfl, rfl, rfl, rfl⟩
  unfold UpdateGame
  cases hscr : g.currentScreen with
  | SCREEN_TITLE => simp [he]
  | SCREEN_PLAYING => exact absurd hscr hs
  | SCREEN_GAMEOVER => simp [he]

theorem C6_idle_amended_witness :
    ∃ g', UpdateGame upDownKeys [7, 7] collidedState = some g' ∧
      g'.snake.body = collidedState.snake.body ∧
      g'.snake.length = collidedState.snake.length ∧ g'.food = collidedState.food ∧
      g'.score = collidedState.score ∧ g'.moveSpeed = collidedState.moveSpeed :=
  C6_idle_amended upDownKeys [7, 7] collidedState (by decide!) (by decide)


theorem foodOnSnake_congr (s s' : Snake) (p : GridPosition) (hl : s.length = s'.length)
    (hb : ∀ i, i < s.length → s.body i = s'.body i) : foodOnSnake s p = foodOnSnake s' p := by
  rw [Bool.eq_iff_iff]
  simp only [foodOnSnake, List.any_eq_true, List.mem_range]
  constructor
  · rintro ⟨i, hi, h⟩
    exact ⟨i, by omega, by rw [← hb i hi]; exact h⟩
  · rintro ⟨i, hi, h⟩
    exact ⟨i, by omega, by rw [hb i (by omega)]; exact h⟩

theorem spawnLoop_congr (s s' : Snake) (draws : List Nat) (hl : s.length = s'.length)
    (hb : ∀ i, i < s.length → s.body i = s'.body i) : spawnLoop s draws = spawnLoop s' draws := by
  induction draws using spawnLoop.induct s with
  | case1 r1 r2 rest food hon ih =>
    rw [spawnLoop, spawnLoop, ih, foodOnSnake_congr s s' _ hl hb]
  | case2 r1 r2 rest food hon =>
    rw [spawnLoop, spawnLoop, foodOnSnake_congr s s' _ hl hb]
    simp only [food, foodOnSnake_congr s s' _ hl hb] at hon
    simp only [hon, Bool.false_eq_true, if_false]
  | case3 draws hne =>
    rw [spawnLoop, spawnLoop]
    · exact hne
    · exact hne

/-- The snake that `InitGame` lays out, as a snapshot with food `food`. -/
theorem InitGame_snapshot (draws : List Nat) (g : Game) :
    (InitGame draws g).map snapshot =
      (spawnLoop ⟨fun i => ⟨GRID_WIDTH / 2 - (i : Int), GRID_HEIGHT / 2⟩, INITIAL_SNAKE_LENGTH,
          DIR_RIGHT, DIR_RIGHT⟩ draws).map
        (fun food =>
          { currentScreen := g.currentScreen
            score := 0
            moveSpeed := INITIAL_SPEED
            frameCounter := g.frameCounter
            gameOver := false
            length := INITIAL_SNAKE_LENGTH
            direction := DIR_RIGHT
            nextDirection := DIR_RIGHT
            segments := [⟨20, 15⟩, ⟨19, 15⟩, ⟨18, 15⟩]
            food := food }) := by
  have hcells : ∀ i, i < INITIAL_SNAKE_LENGTH →
      initBody (GRID_WIDTH / 2) (GRID_HEIGHT / 2) g.snake.body INITIAL_SNAKE_LENGTH i =
        ⟨GRID_WIDTH / 2 - (i : Int), GRID_HEIGHT / 2⟩ := by
    intro i hi
    simp [initBody_apply, hi]
  have hsp : spawnLoop (⟨initBody (GRID_WIDTH / 2) (GRID_HEIGHT / 2) g.snake.body
        INITIAL_SNAKE_LENGTH, INITIAL_SNAKE_LENGTH, DIR_RIGHT, DIR_RIGHT⟩ : Snake) draws =
      spawnLoop ⟨fun i => ⟨GRID_WIDTH / 2 - (i : Int), GRID_HEIGHT / 2⟩, INITIAL_SNAKE_LENGTH,
        DIR_RIGHT, DIR_RIGHT⟩ draws :=
    spawnLoop_congr _ _ draws rfl hcells
  unfold InitGame SpawnFood
  dsimp only
  rw [hsp]
  cases spawnLoop ⟨fun i => ⟨GRID_WIDTH / 2 - (i : Int), GRID_HEIGHT / 2⟩,
    INITIAL_SNAKE_LENGTH, DIR_RIGHT, DIR_RIGHT⟩ draws with
  | none => rfl
  | some food =>
    simp only [Option.map_some', snapshot, Option.some.injEq, Snapshot.mk.injEq, true_and]
    have h0 := hcells 0 (by decide)
    have h1 := hcells 1 (by decide)
    have h2 := hcells 2 (by decide)
    simp only [INITIAL_SNAKE_LENGTH, List.range, List.range.loop, List.map, h0, h1, h2] at *
    decide

/-- C7 (full-reset round trip). Pressing ENTER in any reachable GAMEOVER state
`g` and pressing ENTER in any reachable TITLE state `t` (the state before the
first TITLE -> PLAYING transition), with the same random draws, either both
do not return or yield states with the same snapshot: `currentScreen`, score,
`moveSpeed`, `frameCounter`, `gameOver`, snake length, direction,
`nextDirection`, occupied segments and food. -/
theorem C7_full_reset (k : Keys) (draws : List Nat) (g t : Game) (hg : Reachable g)
    (hgs : g.currentScreen = SCREEN_GAMEOVER) (ht : Reachable t)
    (hts : t.currentScreen = SCREEN_TITLE) (hk : k.enter = true) :
    (UpdateGame k draws g).map snapshot = (UpdateGame k draws t).map snapshot := by
  obtain ⟨wg, hwg⟩ := hg.window
  obtain ⟨wt, hwt⟩ := ht.window
  have hcg : g.frameCounter = 0 := hwg.snakeInv.counter (by rw [hgs]; decide)
  have hct : t.frameCounter = 0 := hwt.snakeInv.counter (by rw [hts]; decide)
  have hug : UpdateGame k draws g = InitGame draws { g with currentScreen := SCREEN_PLAYING } := by
    unfold UpdateGame
    rw [hgs]
    simp [hk]
  have hut : UpdateGame k draws t = InitGame draws { t with currentScreen := SCREEN_PLAYING } := by
    unfold UpdateGame
    rw [hts]
    simp [hk]
  rw [hug, hut, InitGame_snapshot, InitGame_snapshot]
  simp only [hcg, hct]

theorem C7_full_reset_witness :
    (UpdateGame enterKey [7, 7] collidedState).map snapshot =
      (UpdateGame enterKey [7, 7] titleState).map snapshot :=
  C7_full_reset enterKey [7, 7] collidedState titleState collidedState_reachable (by decide!)
    titleState_reachable (by decide!) (by decide)


theorem UpdateGame_step (k : Keys) (draws : List Nat) (g : Game)
    (hp : g.currentScreen = SCREEN_PLAYING) (hf : stepFires g) :
    UpdateGame k draws g = simulationStep draws (readInput k g) := by
  unfold UpdateGame
  rw [hp]
  dsimp only
  rw [if_pos ((stepFires_iff k g hp).1 hf)]

theorem UpdateGame_nostep (k : Keys) (draws : List Nat) (g : Game)
    (hp : g.currentScreen = SCREEN_PLAYING) (hf : ¬ stepFires g) :
    UpdateGame k draws g = some (readInput k g) := by
  unfold UpdateGame
  rw [hp]
  dsimp only
  rw [if_neg (fun h => hf ((stepFires_iff k g hp).2 h))]

theorem simulationStep_eat (draws : List Nat) (g : Game)
    (h : CheckFoodCollision (advance g) = true) :
    simulationStep draws g = (eatFood draws (advance g)).map checkGameOver := by
  unfold simulationStep
  dsimp only
  rw [if_pos h]
  cases eatFood draws (advance g) <;> rfl

theorem simulationStep_noeat (draws : List Nat) (g : Game)
    (h : CheckFoodCollision (advance g) = false) :
    simulationStep draws g = some (checkGameOver (advance g)) := by
  unfold simulationStep
  dsimp only
  rw [if_neg (by rw [h]; exact Bool.false_ne_true)]

theorem eatFood_isSome (draws : List Nat) (g : Game) :
    (eatFood draws g).isSome = (spawnLoop (GrowSnake g).snake draws).isSome := by
  unfold eatFood SpawnFood
  dsimp only
  cases spawnLoop (GrowSnake g).snake draws <;> rfl

theorem readInput_fields (k : Keys) (g : Game) :
    (readInput k g).snake.length = g.snake.length ∧ (readInput k g).snake.body = g.snake.body ∧
      (readInput k g).snake.direction = g.snake.direction ∧ (readInput k g).food = g.food ∧
      (readInput k g).score = g.score ∧ (readInput k g).moveSpeed = g.moveSpeed ∧
      (readInput k g).currentScreen = g.currentScreen ∧ (readInput k g).gameOver = g.gameOver ∧
      (readInput k g).frameCounter = g.frameCounter + 1 :=
  ⟨handleKeys_length k g.snake, handleKeys_body k g.snake, handleKeys_direction k g.snake, rfl,
    rfl, rfl, rfl, rfl, rfl⟩

theorem advance_fields (g : Game) :
    (advance g).score = g.score ∧ (advance g).moveSpeed = g.moveSpeed ∧
      (advance g).gameOver = g.gameOver :=
  ⟨rfl, rfl, rfl⟩

theorem GrowSnake_head (g : Game) : (GrowSnake g).snake.body 0 = g.snake.body 0 := by
  rcases GrowSnake_cases g with ⟨-, -, hlast, hsame⟩ | ⟨-, hg⟩
  · rcases Nat.eq_zero_or_pos g.snake.length with h0 | h0
    · rw [h0] at hlast
      exact hlast
    · exact hsame 0 h0
  · rw [hg]

theorem GrowSnake_length_pos (g : Game) : 0 < (GrowSnake g).snake.length := by
  rcases GrowSnake_cases g with ⟨-, hl, -, -⟩ | ⟨hm, hg⟩
  · omega
  · rw [hg]
    unfold MAX_SNAKE_LENGTH at hm
    omega


/-- C13 (eating step). In every PLAYING state in which a simulation step fires
and the advanced head lies on the food: the tick returns exactly when the
rejection loop of `SpawnFood` returns on the grown snake, and then the score
has grown by exactly 10; if `length < MAX_SNAKE_LENGTH` the length has grown
by 1 and the new last segment equals the last segment of the advanced snake;
the segments below the old length are those of the advanced snake; `moveSpeed`
is one less if it was above `MIN_SPEED` and unchanged otherwise; the food is on
a new cell, off the snake. -/
theorem C13_eating_step (k : Keys) (draws : List Nat) (g : Game)
    (hp : g.currentScreen = SCREEN_PLAYING) (hf : stepFires g)
    (he : (advance (readInput k g)).snake.body 0 = g.food) :
    (UpdateGame k draws g).isSome =
        (spawnLoop (GrowSnake (advance (readInput k g))).snake draws).isSome ∧
      ∀ g', UpdateGame k draws g = some g' →
        g'.score = g.score + 10 ∧
          (g.snake.length < MAX_SNAKE_LENGTH →
            g'.snake.length = g.snake.length + 1 ∧
              g'.snake.body g.snake.length =
                (advance (readInput k g)).snake.body (g.snake.length - 1)) ∧
          (∀ i, i < g.snake.length → g'.snake.body i = (advance (readInput k g)).snake.body i) ∧
          g'.moveSpeed = (if g.moveSpeed > MIN_SPEED then g.moveSpeed - 1 else g.moveSpeed) ∧
          g'.food ≠ g.food ∧ ∀ i, i < g'.snake.length → g'.snake.body i ≠ g'.food := by
  have hlen : (advance (readInput k g)).snake.length = g.snake.length := by
    rw [advance_length]; exact handleKeys_length k g.snake
  have hfc : CheckFoodCollision (advance (readInput k g)) = true :=
    (foodCollision_iff _).2 he
  rw [UpdateGame_step k draws g hp hf, simulationStep_eat draws _ hfc]
  constructor
  · rw [Option.isSome_map', eatFood_isSome]
  · intro g' h
    cases hef : eatFood draws (advance (readInput k g)) with
    | none => rw [hef] at h; exact absurd h (by simp)
    | some e =>
      rw [hef] at h
      simp only [Option.map_some', Option.some.injEq] at h
      subst h
      obtain ⟨hs, hspawn, -, -, hscore, -, hms⟩ := eatFood_some _ _ _ hef
      obtain ⟨cf, cs, -, cm⟩ := checkGameOver_fields e
      have hsnake := checkGameOver_snake e
      have hoff := (spawnLoop_spec _ _ _ hspawn).1
      rw [hsnake, cf, cs, cm, hs]
      refine ⟨hscore, ?_, ?_, hms, ?_, hoff⟩
      · intro hlt
        rcases GrowSnake_cases (advance (readInput k g)) with ⟨-, hl, hlast, -⟩ | ⟨hm, -⟩
        · rw [hlen] at hl hlast
          exact ⟨hl, hlast⟩
        · rw [hlen] at hm; omega
      · intro i hi
        rcases GrowSnake_cases (advance (readInput k g)) with ⟨-, -, -, hsame⟩ | ⟨-, hg⟩
        · exact hsame i (by rw [hlen]; exact hi)
        · rw [hg]
      · intro heq
        have := hoff 0 (GrowSnake_length_pos _)
        rw [GrowSnake_head, he, heq] at this
        exact this rfl

theorem C13_eating_step_witness :
    (((UpdateGame noKeys [7, 7] scenarioState).getD startGlobals).score =
          scenarioState.score + 10 ∧
        (scenarioState.snake.length < MAX_SNAKE_LENGTH →
          ((UpdateGame noKeys [7, 7] scenarioState).getD startGlobals).snake.length =
              scenarioState.snake.length + 1 ∧
            ((UpdateGame noKeys [7, 7] scenarioState).getD startGlobals).snake.body
                scenarioState.snake.length =
              (advance (readInput noKeys scenarioState)).snake.body
                (scenarioState.snake.length - 1)) ∧
        (∀ i, i < scenarioState.snake.length →
          ((UpdateGame noKeys [7, 7] scenarioState).getD startGlobals).snake.body i =
            (advance (readInput noKeys scenarioState)).snake.body i) ∧
        ((UpdateGame noKeys [7, 7] scenarioState).getD startGlobals).moveSpeed =
          (if scenarioState.moveSpeed > MIN_SPEED then scenarioState.moveSpeed - 1
            else scenarioState.moveSpeed) ∧
        ((UpdateGame noKeys [7, 7] scenarioState).getD startGlobals).food ≠ scenarioState.food ∧
        ∀ i, i < ((UpdateGame noKeys [7, 7] scenarioState).getD startGlobals).snake.length →
          ((UpdateGame noKeys [7, 7] scenarioState).getD startGlobals).snake.body i ≠
            ((UpdateGame noKeys [7, 7] scenarioState).getD startGlobals).food) ∧
      (UpdateGame noKeys [7, 7] scenarioState).map
          (fun g => (g.snake.body 0, g.snake.length, g.score, g.moveSpeed, g.food)) =
        some (⟨6, 5⟩, 4, 10, 14, ⟨7, 7⟩) :=
  ⟨(C13_eating_step noKeys [7, 7] scenarioState (by decide!) (by decide!) (by decide!)).2 _
      (getD_of_isSome _ _ (by decide!)),
    by decide!⟩

/-- C19 (no-op inputs). On the TITLE and GAMEOVER screens a tick without ENTER
returns the whole state unchanged, whatever arrow keys are pressed; on the
PLAYING screen the result of `UpdateGame` is the same with and without ENTER. -/
theorem C19_noop_inputs (k : Keys) (draws : List Nat) (g : Game) :
    (g.currentScreen ≠ SCREEN_PLAYING → k.enter = false → UpdateGame k draws g = some g) ∧
      (g.currentScreen = SCREEN_PLAYING →
        UpdateGame { k with enter := true } draws g =
          UpdateGame { k with enter := false } draws g) := by
  constructor
  · intro hs he
    unfold UpdateGame
    cases hscr : g.currentScreen with
    | SCREEN_TITLE => simp [he]
    | SCREEN_PLAYING => exact absurd hscr hs
    | SCREEN_GAMEOVER => simp [he]
  · intro hs
    unfold UpdateGame
    rw [hs]
    rfl

theorem C19_noop_inputs_witness :
    UpdateGame upDownKeys [7, 7] collidedState = some collidedState :=
  (C19_noop_inputs upDownKeys [7, 7] collidedState).1 (by decide!) (by decide)

/-- C20 (`MoveSnake`). For every snake with `1 ≤ length ≤ MAX_SNAKE_LENGTH`,
after `MoveSnake` every segment `i` with `1 ≤ i < length` holds the cell that
segment `i - 1` held before, the head is the old head plus the unit offset of
`snake.direction`, the segments from `length` on are untouched, and length,
direction, `nextDirection`, food and the other globals are unchanged. -/
theorem C20_MoveSnake (g : Game) (h1 : 1 ≤ g.snake.length)
    (_h2 : g.snake.length ≤ MAX_SNAKE_LENGTH) :
    (∀ i, 1 ≤ i → i < g.snake.length → (MoveSnake g).snake.body i = g.snake.body (i - 1)) ∧
      (MoveSnake g).snake.body 0 =
        ⟨(g.snake.body 0).x + (unitOffset g.snake.direction).x,
          (g.snake.body 0).y + (unitOffset g.snake.direction).y⟩ ∧
      (∀ i, g.snake.length ≤ i → (MoveSnake g).snake.body i = g.snake.body i) ∧
      (MoveSnake g).snake.length = g.snake.length ∧
      (MoveSnake g).snake.direction = g.snake.direction ∧
      (MoveSnake g).snake.nextDirection = g.snake.nextDirection ∧
      (MoveSnake g).food = g.food ∧ (MoveSnake g).score = g.score ∧
      (MoveSnake g).frameCounter = g.frameCounter ∧ (MoveSnake g).moveSpeed = g.moveSpeed ∧
      (MoveSnake g).currentScreen = g.currentScreen ∧ (MoveSnake g).gameOver = g.gameOver := by
  refine ⟨?_, ?_, ?_, rfl, rfl, rfl, rfl, rfl, rfl, rfl, rfl, rfl⟩
  · intro i hi1 hi2
    have hi0 : i ≠ 0 := by omega
    have hi : 1 ≤ i ∧ i ≤ g.snake.length - 1 := by omega
    simp [MoveSnake, shiftBody_apply, Function.update_apply, hi0, hi]
  · have h0 : ¬ (1 ≤ 0 ∧ 0 ≤ g.snake.length - 1) := by omega
    simp only [MoveSnake, shiftBody_apply, Function.update_same, h0, if_false]
    cases g.snake.direction <;> simp [moveHead, unitOffset] <;> rfl
  · intro i hi
    have hi0 : i ≠ 0 := by omega
    have hi' : ¬ (1 ≤ i ∧ i ≤ g.snake.length - 1) := by omega
    simp [MoveSnake, shiftBody_apply, Function.update_apply, hi0, hi']

theorem C20_MoveSnake_witness :
    (∀ i, 1 ≤ i → i < scenarioState.snake.length →
        (MoveSnake scenarioState).snake.body i = scenarioState.snake.body (i - 1)) ∧
      (MoveSnake scenarioState).snake.body 0 =
        ⟨(scenarioState.snake.body 0).x + (unitOffset scenarioState.snake.direction).x,
          (scenarioState.snake.body 0).y + (unitOffset scenarioState.snake.direction).y⟩ ∧
      (∀ i, scenarioState.snake.length ≤ i →
        (MoveSnake scenarioState).snake.body i = scenarioState.snake.body i) ∧
      (MoveSnake scenarioState).snake.length = scenarioState.snake.length ∧
      (MoveSnake scenarioState).snake.direction = scenarioState.snake.direction ∧
      (MoveSnake scenarioState).snake.nextDirection = scenarioState.snake.nextDirection ∧
      (MoveSnake scenarioState).food = scenarioState.food ∧
      (MoveSnake scenarioState).score = scenarioState.score ∧
      (MoveSnake scenarioState).frameCounter = scenarioState.frameCounter ∧
      (MoveSnake scenarioState).moveSpeed = scenarioState.moveSpeed ∧
      (MoveSnake scenarioState).currentScreen = scenarioState.currentScreen ∧
      (MoveSnake scenarioState).gameOver = scenarioState.gameOver :=
  C20_MoveSnake scenarioState (by decide) (by decide)


theorem spawnLoop_inGrid (s : Snake) (draws : List Nat) (food : GridPosition)
    (h : spawnLoop s draws = some food) : inGrid food :=
  (spawnLoop_spec s draws food h).2

theorem InitGame_more (draws : List Nat) (g g' : Game) (h : InitGame draws g = some g') :
    inGrid g'.food ∧ g'.gameOver = false ∧ g'.currentScreen = g.currentScreen := by
  unfold InitGame at h
  obtain ⟨food, hf, rfl⟩ := SpawnFood_some _ _ _ h
  exact ⟨spawnLoop_inGrid _ _ _ hf, rfl, rfl⟩

theorem checkGameOver_flag (g : Game) :
    (checkGameOver g).gameOver =
      (if CheckWallCollision g || CheckSelfCollision g then true else g.gameOver) := by
  unfold checkGameOver; split <;> rfl

theorem wallCollision_iff (g : Game) :
    CheckWallCollision g = true ↔ ¬ inGrid (g.snake.body 0) := by
  unfold CheckWallCollision inGrid
  simp only [Bool.or_eq_true, decide_eq_true_eq]
  constructor
  · rintro (((h | h) | h) | h) ⟨h1, h2, h3, h4⟩ <;> omega
  · intro h
    by_contra hc
    apply h
    refine ⟨?_, ?_, ?_, ?_⟩ <;> omega

/-- The step of a tick in terms of the state `e` on which the final collision
test runs. -/
theorem simulationStep_shape (draws : List Nat) (g g' : Game)
    (h : simulationStep draws g = some g') :
    ∃ e, g' = checkGameOver e ∧ e.currentScreen = g.currentScreen ∧ e.gameOver = g.gameOver ∧
      (CheckFoodCollision (advance g) = false → e = advance g) ∧
      (CheckFoodCollision (advance g) = true → inGrid e.food) ∧ (inGrid g.food → inGrid e.food) := by
  by_cases hfc : CheckFoodCollision (advance g) = true
  · rw [simulationStep_eat draws g hfc] at h
    cases hef : eatFood draws (advance g) with
    | none => rw [hef] at h; exact absurd h (by simp)
    | some e =>
      rw [hef] at h
      simp only [Option.map_some', Option.some.injEq] at h
      obtain ⟨-, hspawn, hscr, -, -, hgo, -⟩ := eatFood_some _ _ _ hef
      refine ⟨e, h.symm, hscr, hgo, ?_, fun _ => spawnLoop_inGrid _ _ _ hspawn,
        fun _ => spawnLoop_inGrid _ _ _ hspawn⟩
      intro hc; rw [hfc] at hc; exact absurd hc (by decide)
  · have hfc' : CheckFoodCollision (advance g) = false := by simpa using hfc
    rw [simulationStep_noeat draws g hfc'] at h
    simp only [Option.some.injEq] at h
    refine ⟨advance g, h.symm, rfl, rfl, fun _ => rfl, ?_, fun hg => hg⟩
    intro hc; exact absurd hc hfc

/-- In every reachable state the food is a cell of the grid, and the
`gameOver` flag is set exactly on the GAMEOVER screen. -/
theorem Reachable.food_flag {g : Game} (h : Reachable g) :
    inGrid g.food ∧ (g.gameOver = true ↔ g.currentScreen = SCREEN_GAMEOVER) := by
  induction h with
  | init draws g h =>
    obtain ⟨h1, h2, h3⟩ := InitGame_more _ _ _ h
    refine ⟨h1, ?_⟩
    rw [h2, h3]
    constructor
    · intro hh; exact absurd hh (by decide)
    · intro hh; exact GameScreen.noConfusion hh
  | tick k draws g g' _ h ih =>
    have hrestart : ∀ g0 : Game, g0.currentScreen = SCREEN_PLAYING →
        InitGame draws g0 = some g' →
        inGrid g'.food ∧ (g'.gameOver = true ↔ g'.currentScreen = SCREEN_GAMEOVER) := by
      intro g0 hg0 hi
      obtain ⟨h1, h2, h3⟩ := InitGame_more _ _ _ hi
      refine ⟨h1, ?_⟩
      rw [h2, h3, hg0]
      constructor
      · intro hh; exact absurd hh (by decide)
      · intro hh; exact GameScreen.noConfusion hh
    cases hscr : g.currentScreen with
    | SCREEN_TITLE =>
      unfold UpdateGame at h
      rw [hscr] at h
      dsimp only at h
      split at h
      · exact hrestart _ rfl h
      · simp only [Option.some.injEq] at h
        subst h; exact ih
    | SCREEN_GAMEOVER =>
      unfold UpdateGame at h
      rw [hscr] at h
      dsimp only at h
      split at h
      · exact hrestart _ rfl h
      · simp only [Option.some.injEq] at h
        subst h; exact ih
    | SCREEN_PLAYING =>
      have hgo : g.gameOver = false := by
        cases hb : g.gameOver with
        | false => rfl
        | true =>
          have := ih.2.1 hb
          rw [hscr] at this
          exact GameScreen.noConfusion this
      by_cases hf : stepFires g
      · rw [UpdateGame_step k draws g hscr hf] at h
        obtain ⟨e, rfl, he1, he2, -, -, he5⟩ := simulationStep_shape _ _ _ h
        have hfood : inGrid e.food := he5 ih.1
        have hes : e.currentScreen = SCREEN_PLAYING := by rw [he1]; exact hscr
        have heg : e.gameOver = false := by rw [he2]; exact hgo
        refine ⟨by rw [(checkGameOver_fields e).1]; exact hfood, ?_⟩
        rw [checkGameOver_flag, checkGameOver_screen, hes, heg]
        by_cases hc : (CheckWallCollision e || CheckSelfCollision e) = true
        · simp [hc]
        · simp [hc]
      · rw [UpdateGame_nostep k draws g hscr hf] at h
        simp only [Option.some.injEq] at h
        subst h
        exact ⟨ih.1, by
          show g.gameOver = true ↔ g.currentScreen = SCREEN_GAMEOVER
          exact ih.2⟩


/-- C14 (terminal condition). For a simulation step fired in a reachable
PLAYING state: the resulting state has `currentScreen = SCREEN_GAMEOVER`, and
likewise `gameOver = true`, if and only if its head (the head after the
advance and any growth) lies outside the grid or on a segment `body[i]`,
`1 ≤ i < length`; and when the advanced head is outside the grid the tick
returns, whatever the random draws, the advanced state with only
`currentScreen` and `gameOver` set. -/
theorem C14_terminal (k : Keys) (draws : List Nat) (g : Game) (hr : Reachable g)
    (hp : g.currentScreen = SCREEN_PLAYING) (hf : stepFires g) :
    (∀ g', UpdateGame k draws g = some g' →
        (g'.currentScreen = SCREEN_GAMEOVER ↔
          (¬ inGrid (g'.snake.body 0) ∨
            ∃ i, 1 ≤ i ∧ i < g'.snake.length ∧ g'.snake.body 0 = g'.snake.body i)) ∧
          (g'.gameOver = true ↔ g'.currentScreen = SCREEN_GAMEOVER)) ∧
      (¬ inGrid ((advance (readInput k g)).snake.body 0) →
        UpdateGame k draws g =
          some { advance (readInput k g) with
            currentScreen := SCREEN_GAMEOVER, gameOver := true }) := by
  constructor
  · intro g' h
    have hr' := (Reachable.tick k draws g g' hr h).food_flag.2
    refine ⟨?_, hr'⟩
    rw [UpdateGame_step k draws g hp hf] at h
    have hs := (simulationStep_some _ _ _ h).2.2.2
    have hrs : (readInput k g).currentScreen = SCREEN_PLAYING := hp
    rw [hrs] at hs
    rw [← wallCollision_iff, ← selfCollision_iff, hs]
    by_cases hc : (CheckWallCollision g' || CheckSelfCollision g') = true
    · rw [if_pos hc]
      simpa using hc
    · rw [if_neg hc]
      simp only [Bool.or_eq_true] at hc
      simp only [reduceCtorEq, false_iff]
      exact hc
  · intro hout
    have hfood : inGrid g.food := hr.food_flag.1
    have hne : CheckFoodCollision (advance (readInput k g)) = false := by
      rw [Bool.eq_false_iff]
      intro hc
      have := (foodCollision_iff _).1 hc
      rw [this] at hout
      exact hout hfood
    have hw : CheckWallCollision (advance (readInput k g)) = true :=
      (wallCollision_iff _).2 hout
    rw [UpdateGame_step k draws g hp hf, simulationStep_noeat draws _ hne]
    unfold checkGameOver
    rw [hw]
    rfl

theorem C14_terminal_witness :
    UpdateGame noKeys [] wallBrink =
      some { advance (readInput noKeys wallBrink) with
        currentScreen := SCREEN_GAMEOVER, gameOver := true } :=
  (C14_terminal noKeys [] wallBrink
    (runTicks_reachable wallTrace titleState wallBrink titleState_reachable
      (getD_of_isSome _ _ (by decide!)))
    (by decide!) (by decide!)).2 (by decide!)

theorem steadyRun_counter (T : Int) (hT : 1 ≤ T) (l : List (Keys × List Nat)) (g0 g : Game)
    (c : Int) (hc0 : 0 ≤ c) (hcT : c < T) (h0 : g0.frameCounter = c)
    (hrun : steadyRun T l g0 = some g) : g.frameCounter = (c + (l.length : Int)) % T := by
  induction l generalizing g0 c with
  | nil =>
    simp only [steadyRun, Option.some.injEq] at hrun
    subst hrun
    simp only [List.length_nil, Nat.cast_zero, add_zero]
    rw [Int.emod_eq_of_lt hc0 hcT]
    exact h0
  | cons a rest ih =>
    obtain ⟨k, draws⟩ := a
    simp only [steadyRun] at hrun
    split at hrun
    · next hcond =>
      obtain ⟨hp, hs⟩ := hcond
      split at hrun
      · next g1 h1 =>
        have hc1 : g1.frameCounter = (c + 1) % T := by
          by_cases hf : stepFires g0
          · rw [UpdateGame_step k draws g0 hp hf] at h1
            rw [(simulationStep_some _ _ _ h1).2.2.1]
            have hge : g0.frameCounter + 1 ≥ g0.moveSpeed := hf.2
            rw [h0, hs] at hge
            have : c + 1 = T := by omega
            rw [this, Int.emod_self]
          · rw [UpdateGame_nostep k draws g0 hp hf] at h1
            simp only [Option.some.injEq] at h1
            subst h1
            have hlt : ¬ g0.frameCounter + 1 ≥ g0.moveSpeed := fun hh => hf ⟨hp, hh⟩
            rw [h0, hs] at hlt
            rw [Int.emod_eq_of_lt (by omega) (by omega)]
            show g0.frameCounter + 1 = c + 1
            rw [h0]
        have hT0 : (0 : Int) < T := by omega
        have := ih g1 ((c + 1) % T) (Int.emod_nonneg _ (by omega)) (Int.emod_lt_of_pos _ hT0)
          hc1 hrun
        rw [this, Int.emod_add_emod]
        congr 1
        simp only [List.length_cons, Nat.cast_add, Nat.cast_one]
        ring
      · exact absurd hrun (by simp)
    · exact absurd hrun (by simp)

/-- C16 (tick scheduler). Let `g` be reached from a state with
`frameCounter = 0` by `n - 1` calls of `UpdateGame`, each started on the
PLAYING screen with `moveSpeed = T ≥ 1`, and let the `n`-th call start in `g`
under the same conditions. Then `g.frameCounter = (n - 1) mod T`; a simulation
step fires on the `n`-th call if and only if `T` divides `n`; a firing call
that returns leaves `frameCounter = 0` and the segments of one `MoveSnake` on
the committed direction; a call that does not fire returns, leaves the snake
body as it is and leaves `frameCounter = n mod T`. -/
theorem C16_scheduler (T : Int) (hT : 1 ≤ T) (l : List (Keys × List Nat)) (g0 g : Game)
    (h0 : g0.frameCounter = 0) (hrun : steadyRun T l g0 = some g)
    (hp : g.currentScreen = SCREEN_PLAYING) (hs : g.moveSpeed = T) (k : Keys)
    (draws : List Nat) :
    g.frameCounter = (l.length : Int) % T ∧
      (stepFires g ↔ T ∣ ((l.length + 1 : Nat) : Int)) ∧
      (stepFires g → ∀ g', UpdateGame k draws g = some g' →
        g'.frameCounter = 0 ∧
          ∀ i, i < g.snake.length →
            g'.snake.body i =
              (MoveSnake { g with snake :=
                { g.snake with direction := (handleKeys k g.snake).nextDirection } }).snake.body
                i) ∧
      (¬ stepFires g → ∃ g', UpdateGame k draws g = some g' ∧
        g'.frameCounter = ((l.length + 1 : Nat) : Int) % T ∧ g'.snake.body = g.snake.body) := by
  have hT0 : (0 : Int) < T := by omega
  have hfc := steadyRun_counter T hT l g0 g 0 (le_refl 0) hT0 h0 hrun
  rw [zero_add] at hfc
  have hlo : 0 ≤ (l.length : Int) % T := Int.emod_nonneg _ (by omega)
  have hhi : (l.length : Int) % T < T := Int.emod_lt_of_pos _ hT0
  have hnext : ((l.length + 1 : Nat) : Int) % T = ((l.length : Int) % T + 1) % T := by
    rw [Int.emod_add_emod]
    simp
  have hiff : stepFires g ↔ T ∣ ((l.length + 1 : Nat) : Int) := by
    rw [Int.dvd_iff_emod_eq_zero, hnext]
    constructor
    · intro hf
      have hge : g.frameCounter + 1 ≥ g.moveSpeed := hf.2
      rw [hfc, hs] at hge
      have : (l.length : Int) % T + 1 = T := by omega
      rw [this, Int.emod_self]
    · intro hz
      refine ⟨hp, ?_⟩
      rw [hfc, hs]
      by_contra hlt
      rw [Int.emod_eq_of_lt (by omega) (by omega)] at hz
      omega
  refine ⟨hfc, hiff, ?_, ?_⟩
  · intro hf g' h
    rw [UpdateGame_step k draws g hp hf] at h
    refine ⟨(simulationStep_some _ _ _ h).2.2.1, ?_⟩
    intro i hi
    obtain ⟨e, rfl, -, -, hne, -, -⟩ := simulationStep_shape _ _ _ h
    rw [checkGameOver_snake]
    have hadv : ∀ j, (advance (readInput k g)).snake.body j =
        (MoveSnake { g with snake :=
          { g.snake with direction := (handleKeys k g.snake).nextDirection } }).snake.body j := by
      intro j
      simp only [advance, readInput, MoveSnake, handleKeys_body, handleKeys_length]
    by_cases hfc' : CheckFoodCollision (advance (readInput k g)) = true
    · rw [simulationStep_eat draws _ hfc'] at h
      cases hef : eatFood draws (advance (readInput k g)) with
      | none => rw [hef] at h; exact absurd h (by simp)
      | some e' =>
        rw [hef] at h
        simp only [Option.map_some', Option.some.injEq] at h
        have hs' := (eatFood_some _ _ _ hef).1
        have hsn : e.snake = e'.snake := by
          have := congrArg Game.snake h
          rw [checkGameOver_snake, checkGameOver_snake] at this
          exact this.symm
        rw [hsn, hs', ← hadv]
        rcases GrowSnake_cases (advance (readInput k g)) with ⟨-, -, -, hsame⟩ | ⟨-, hg⟩
        · exact hsame i (by rw [advance_length, (readInput_fields k g).1]; exact hi)
        · rw [hg]
    · have hfc'' : CheckFoodCollision (advance (readInput k g)) = false := by simpa using hfc'
      rw [hne hfc'', hadv]
  · intro hf
    refine ⟨readInput k g, UpdateGame_nostep k draws g hp hf, ?_, handleKeys_body k g.snake⟩
    have hlt : ¬ g.frameCounter + 1 ≥ g.moveSpeed := fun hh => hf ⟨hp, hh⟩
    rw [hfc, hs] at hlt
    rw [hnext, Int.emod_eq_of_lt (by omega) (by omega)]
    show g.frameCounter + 1 = _
    rw [hfc]

theorem C16_scheduler_witness :
    steadyState.frameCounter = ((idle 14).length : Int) % INITIAL_SPEED ∧
      stepFires steadyState ∧
      ((UpdateGame upKey [] steadyState).getD startGlobals).frameCounter = 0 ∧
      ∀ i, i < steadyState.snake.length →
        ((UpdateGame upKey [] steadyState).getD startGlobals).snake.body i =
          (MoveSnake { steadyState with snake :=
            { steadyState.snake with
              direction := (handleKeys upKey steadyState.snake).nextDirection } }).snake.body
            i := by
  obtain ⟨h1, h2, h3, -⟩ := C16_scheduler INITIAL_SPEED (by decide) (idle 14) playState
    steadyState (by decide!) (getD_of_isSome _ _ (by decide!)) (by decide!) (by decide!) upKey []
  have hf : stepFires steadyState := h2.2 ⟨1, by decide⟩
  exact ⟨h1, hf, h3 hf _ (getD_of_isSome _ _ (by decide!))⟩


theorem spawnLoop_find (s : Snake) (draws : List Nat) :
    spawnLoop s draws = (candidates draws).find? (fun p => !foodOnSnake s p) := by
  induction draws using spawnLoop.induct s with
  | case1 r1 r2 rest food hon ih =>
    rw [spawnLoop, candidates, List.find?_cons]
    simp only [food] at hon
    simp only [hon, if_true, Bool.not_true, ih]
  | case2 r1 r2 rest food hoff =>
    rw [spawnLoop, candidates, List.find?_cons]
    simp only [food] at hoff
    simp only [hoff, Bool.not_false]
    rfl
  | case3 draws hne =>
    rw [spawnLoop, candidates]
    · rfl
    · exact hne
    · exact hne

theorem find_isSome_eq_any {α : Type} (q : α → Bool) (l : List α) :
    (l.find? q).isSome = l.any q := by
  induction l with
  | nil => rfl
  | cons a rest ih =>
    rw [List.find?_cons, List.any_cons]
    cases hq : q a
    · simpa using ih
    · rfl


theorem grid_cells : GRID_WIDTH = 40 ∧ GRID_HEIGHT = 30 := by decide

/-- A snake of at most `MAX_SNAKE_LENGTH = 300` segments leaves one of the
`GRID_WIDTH * GRID_HEIGHT = 1200` cells free. -/
theorem free_cell (s : Snake) (h : s.length ≤ MAX_SNAKE_LENGTH) :
    ∃ p, inGrid p ∧ foodOnSnake s p = false := by
  by_contra hno
  have hall : ∀ p, inGrid p → ∃ i, i < s.length ∧ s.body i = p := by
    intro p hp
    by_contra hc
    apply hno
    refine ⟨p, hp, (foodOnSnake_false_iff s p).2 ?_⟩
    intro i hi he
    exact hc ⟨i, hi, he⟩
  have hsub : (Finset.Ico (0 : Int) 40) ×ˢ (Finset.Ico (0 : Int) 30) ⊆
      (Finset.range s.length).image (fun i => ((s.body i).x, (s.body i).y)) := by
    intro c hc
    rw [Finset.mem_product, Finset.mem_Ico, Finset.mem_Ico] at hc
    obtain ⟨i, hi, he⟩ := hall ⟨c.1, c.2⟩
      ⟨hc.1.1, by rw [grid_cells.1]; exact hc.1.2, hc.2.1, by rw [grid_cells.2]; exact hc.2.2⟩
    rw [Finset.mem_image]
    refine ⟨i, Finset.mem_range.2 hi, ?_⟩
    rw [he]
  have hcard := Finset.card_le_card hsub
  have himg := Finset.card_image_le (s := Finset.range s.length)
    (f := fun i => ((s.body i).x, (s.body i).y))
  rw [Finset.card_product, Int.card_Ico, Int.card_Ico] at hcard
  rw [Finset.card_range] at himg
  have hmax : MAX_SNAKE_LENGTH = 300 := rfl
  rw [hmax] at h
  have h40 : Int.toNat (40 - 0) = 40 := rfl
  have h30 : Int.toNat (30 - 0) = 30 := rfl
  rw [h40, h30] at hcard
  omega

/-- The rejection loop returns on the two draws that name a free cell. -/
theorem spawn_possible (s : Snake) (h : s.length ≤ MAX_SNAKE_LENGTH) :
    ∃ draws p, spawnLoop s draws = some p := by
  obtain ⟨p, ⟨hx0, hx1, hy0, hy1⟩, hfree⟩ := free_cell s h
  refine ⟨[p.x.toNat, p.y.toNat], p, ?_⟩
  have hx : ((p.x.toNat : Nat) : Int) % GRID_WIDTH = p.x := by
    rw [Int.toNat_of_nonneg hx0]
    exact Int.emod_eq_of_lt hx0 hx1
  have hy : ((p.y.toNat : Nat) : Int) % GRID_HEIGHT = p.y := by
    rw [Int.toNat_of_nonneg hy0]
    exact Int.emod_eq_of_lt hy0 hy1
  rw [spawnLoop, hx, hy]
  simp only [hfree]
  rfl

theorem SpawnFood_isSome (draws : List Nat) (g : Game) :
    (SpawnFood draws g).isSome = (spawnLoop g.snake draws).isSome := by
  unfold SpawnFood
  cases spawnLoop g.snake draws <;> rfl

theorem InitGame_possible (g : Game) : ∃ draws g', InitGame draws g = some g' := by
  obtain ⟨draws, p, hp⟩ := spawn_possible
    ⟨initBody (GRID_WIDTH / 2) (GRID_HEIGHT / 2) g.snake.body INITIAL_SNAKE_LENGTH,
      INITIAL_SNAKE_LENGTH, DIR_RIGHT, DIR_RIGHT⟩
    (show INITIAL_SNAKE_LENGTH ≤ MAX_SNAKE_LENGTH by decide)
  refine ⟨draws, ?_⟩
  apply Option.isSome_iff_exists.1
  unfold InitGame
  dsimp only
  rw [SpawnFood_isSome]
  dsimp only
  rw [hp]
  rfl

theorem eatFood_possible (g : Game) (h : g.snake.length ≤ MAX_SNAKE_LENGTH) :
    ∃ draws g', eatFood draws g = some g' := by
  obtain ⟨draws, p, hp⟩ := spawn_possible (GrowSnake g).snake (GrowSnake_length_le g h)
  refine ⟨draws, ?_⟩
  have := eatFood_isSome draws g
  rw [hp] at this
  exact Option.isSome_iff_exists.1 this


theorem moveHead_near (d : Direction) (p : GridPosition) (hp : inGrid p) :
    -1 ≤ (moveHead d p).x ∧ (moveHead d p).x ≤ GRID_WIDTH ∧ -1 ≤ (moveHead d p).y ∧
      (moveHead d p).y ≤ GRID_HEIGHT ∧
      ((0 ≤ (moveHead d p).x ∧ (moveHead d p).x < GRID_WIDTH) ∨
        (0 ≤ (moveHead d p).y ∧ (moveHead d p).y < GRID_HEIGHT)) := by
  obtain ⟨h1, h2, h3, h4⟩ := hp
  cases d <;> simp only [moveHead] <;> omega

theorem Progress_InitGame (draws : List Nat) (g0 g : Game) (h : InitGame draws g0 = some g)
    (hc : g0.frameCounter = 0) : Progress g := by
  obtain ⟨hl, hd, -, hb, -, hs, hm, -, -, hf⟩ := InitGame_some draws g0 g h
  have hw := grid_cells.1
  have hh := grid_cells.2
  have b0 := hb 0 (by decide)
  have b1 := hb 1 (by decide)
  have b2 := hb 2 (by decide)
  rw [hw, hh] at b0 b1 b2
  refine ⟨?_, ?_, ?_, ?_, ?_, ?_, ?_, ?_, ?_⟩
  · rw [hs]
  · rw [hs]; exact dvd_zero _
  · rw [hl, hs]; decide
  · rw [hm, hs]; decide
  · rw [hf, hc]
  · rw [hf, hc, hm]; decide
  · intro i h1 h2
    rw [hl] at h2
    have hi : i = 1 ∨ i = 2 := by
      have : INITIAL_SNAKE_LENGTH = 3 := rfl
      omega
    rcases hi with rfl | rfl
    · rw [b1]; decide
    · rw [b2]; decide
  · intro _
    rw [b0]; decide
  · rw [b0, b1, hd]
    decide

theorem Progress_readInput (k : Keys) (g : Game) (hi : Progress g)
    (hlt : ¬ g.frameCounter + 1 ≥ g.moveSpeed) : Progress (readInput k g) := by
  obtain ⟨r1, r2, r3, -, r5, r6, r7, -, r9⟩ := readInput_fields k g
  refine ⟨?_, ?_, ?_, ?_, ?_, ?_, ?_, ?_, ?_⟩
  · rw [r5]; exact hi.score_nonneg
  · rw [r5]; exact hi.score_mult
  · rw [r1, r5]; exact hi.length_eq
  · rw [r6, r5]; exact hi.speed_eq
  · rw [r9]; have := hi.counter_lo; omega
  · rw [r9, r6]; omega
  · intro i h1 h2
    rw [r2]
    rw [r1] at h2
    exact hi.tail_in i h1 h2
  · intro hs
    rw [r2]
    rw [r7] at hs
    exact hi.head_in hs
  · rw [r2, r3]; exact hi.head_step

/-- The last test of a step keeps the invariants that do not mention the
screen and establishes the one that does. -/
theorem Progress_checkGameOver (e : Game) (h1 : 0 ≤ e.score) (h2 : (10 : Int) ∣ e.score)
    (h3 : (e.snake.length : Int) =
      min (MAX_SNAKE_LENGTH : Int) ((INITIAL_SNAKE_LENGTH : Int) + e.score / 10))
    (h4 : e.moveSpeed = max MIN_SPEED (INITIAL_SPEED - e.score / 10)) (h5 : e.frameCounter = 0)
    (h6 : ∀ i, 1 ≤ i → i < e.snake.length → inGrid (e.snake.body i))
    (h7 : e.snake.body 0 = moveHead e.snake.direction (e.snake.body 1)) :
    Progress (checkGameOver e) := by
  obtain ⟨-, c2, c3, c4⟩ := checkGameOver_fields e
  have cs := checkGameOver_snake e
  refine ⟨?_, ?_, ?_, ?_, ?_, ?_, ?_, ?_, ?_⟩
  · rw [c2]; exact h1
  · rw [c2]; exact h2
  · rw [cs, c2]; exact h3
  · rw [c4, c2]; exact h4
  · rw [c3, h5]
  · rw [c3, c4, h5, h4]
    have : MIN_SPEED = 5 := rfl
    rw [this]
    omega
  · rw [cs]; exact h6
  · intro hs
    rw [cs]
    rw [checkGameOver_screen] at hs
    by_contra hout
    have hwall := (wallCollision_iff e).2 hout
    rw [hwall] at hs
    exact hs rfl
  · rw [cs]; exact h7

theorem Progress_simulationStep (k : Keys) (draws : List Nat) (g g' : Game) (hi : Progress g)
    (hlen : INITIAL_SNAKE_LENGTH ≤ g.snake.length) (hp : g.currentScreen = SCREEN_PLAYING)
    (h : simulationStep draws (readInput k g) = some g') : Progress g' := by
  obtain ⟨r1, r2, r3, -, r5, r6, -, -, -⟩ := readInput_fields k g
  obtain ⟨a1, a2, -⟩ := advance_fields (readInput k g)
  have h3 : INITIAL_SNAKE_LENGTH = 3 := rfl
  rw [h3] at hlen
  have alen : (advance (readInput k g)).snake.length = g.snake.length := by
    rw [advance_length, r1]
  have atail : ∀ i, 1 ≤ i → i < g.snake.length →
      inGrid ((advance (readInput k g)).snake.body i) := by
    intro i h1 h2
    rw [advance_tail _ i h1 (by rw [r1]; exact h2), r2]
    by_cases h0 : i - 1 = 0
    · rw [h0]
      exact hi.head_in (by rw [hp]; exact fun hh => GameScreen.noConfusion hh)
    · exact hi.tail_in (i - 1) (by omega) (by omega)
  have astep : (advance (readInput k g)).snake.body 0 =
      moveHead (advance (readInput k g)).snake.direction
        ((advance (readInput k g)).snake.body 1) := by
    rw [advance_head, advance_direction, advance_tail _ 1 (le_refl 1) (by rw [r1]; omega)]
  have ascore : (advance (readInput k g)).score = g.score := by rw [a1, r5]
  have aspeed : (advance (readInput k g)).moveSpeed = g.moveSpeed := by rw [a2, r6]
  by_cases hfc : CheckFoodCollision (advance (readInput k g)) = true
  · rw [simulationStep_eat draws _ hfc] at h
    cases hef : eatFood draws (advance (readInput k g)) with
    | none => rw [hef] at h; exact absurd h (by simp)
    | some e =>
      rw [hef] at h
      simp only [Option.map_some', Option.some.injEq] at h
      subst h
      obtain ⟨e1, -, -, e4, e5, -, e7⟩ := eatFood_some _ _ _ hef
      obtain ⟨-, -, -, -, -, -, gd, -⟩ := GrowSnake_other (advance (readInput k g))
      have hl := hi.length_eq
      have hsp := hi.speed_eq
      have hs0 := hi.score_nonneg
      apply Progress_checkGameOver
      · rw [e5, ascore]; omega
      · rw [e5, ascore]; exact dvd_add hi.score_mult (dvd_refl _)
      · rw [e1, e5, ascore]
        rcases GrowSnake_cases (advance (readInput k g)) with ⟨hlt, hg, -, -⟩ | ⟨hge, hg⟩
        · rw [hg, alen]
          rw [alen] at hlt
          simp only [MAX_SNAKE_LENGTH, INITIAL_SNAKE_LENGTH, Nat.cast_ofNat] at hl hlt ⊢
          push_cast
          omega
        · rw [hg, alen]
          rw [alen] at hge
          simp only [MAX_SNAKE_LENGTH, INITIAL_SNAKE_LENGTH, Nat.cast_ofNat] at hl hge ⊢
          omega
      · rw [e7, e5, aspeed, ascore]
        simp only [MIN_SPEED, INITIAL_SPEED] at hsp ⊢
        split_ifs <;> omega
      · rw [e4]; rfl
      · intro i h1 h2
        rw [e1] at h2 ⊢
        rcases GrowSnake_cases (advance (readInput k g)) with ⟨-, hg, hnew, hold⟩ | ⟨-, hg⟩
        · rw [hg, alen] at h2
          rw [alen] at hnew
          by_cases hlast : i = g.snake.length
          · rw [hlast, hnew]
            exact atail (g.snake.length - 1) (by omega) (by omega)
          · rw [hold i (by rw [alen]; omega)]
            exact atail i h1 (by omega)
        · rw [hg] at h2 ⊢
          exact atail i h1 (by rw [← alen]; exact h2)
      · rw [e1, gd]
        rcases GrowSnake_cases (advance (readInput k g)) with ⟨-, -, -, hold⟩ | ⟨-, hg⟩
        · rw [hold 0 (by rw [alen]; omega), hold 1 (by rw [alen]; omega)]
          exact astep
        · rw [hg]; exact astep
  · have hfc' : CheckFoodCollision (advance (readInput k g)) = false := by simpa using hfc
    rw [simulationStep_noeat draws _ hfc'] at h
    simp only [Option.some.injEq] at h
    subst h
    apply Progress_checkGameOver
    · rw [ascore]; exact hi.score_nonneg
    · rw [ascore]; exact hi.score_mult
    · rw [alen, ascore]; exact hi.length_eq
    · rw [aspeed, ascore]; exact hi.speed_eq
    · rfl
    · intro i h1 h2
      exact atail i h1 (by rw [← alen]; exact h2)
    · exact astep

theorem Progress_UpdateGame (k : Keys) (draws : List Nat) (w : Bool) (g g' : Game)
    (hv : Inv w g) (hi : Progress g) (h : UpdateGame k draws g = some g') : Progress g' := by
  have hrestart : g.currentScreen ≠ SCREEN_PLAYING →
      (if k.enter = true then InitGame draws { g with currentScreen := SCREEN_PLAYING }
        else some g) = some g' → Progress g' := by
    intro hs h
    split at h
    · exact Progress_InitGame draws _ g' h (hv.counter hs)
    · simp only [Option.some.injEq] at h
      rw [← h]; exact hi
  unfold UpdateGame at h
  split at h
  · next hs => exact hrestart (by rw [hs]; exact fun hh => GameScreen.noConfusion hh) h
  · next hs =>
    dsimp only at h
    split at h
    · exact Progress_simulationStep k draws g g' hi hv.len_min hs h
    · next hlt =>
      simp only [Option.some.injEq] at h
      rw [← h]
      apply Progress_readInput k g hi
      obtain ⟨-, -, -, -, -, r6, -, -, r9⟩ := readInput_fields k g
      rw [r6, r9] at hlt
      exact hlt
  · next hs => exact hrestart (by rw [hs]; exact fun hh => GameScreen.noConfusion hh) h

/-- Every reachable state satisfies the progression, counter and grid
invariants. -/
theorem Reachable.progress {g : Game} (h : Reachable g) : Progress g := by
  induction h with
  | init draws g h => exact Progress_InitGame draws _ g h rfl
  | tick k draws g g' hr h ih =>
    obtain ⟨w, hw⟩ := hr.window
    exact Progress_UpdateGame k draws w g g' hw.snakeInv ih h


/-- C21 (`GrowSnake`). If `1 ≤ length < MAX_SNAKE_LENGTH`, `GrowSnake`
increments `length` by exactly 1, makes the new last segment equal to the
previous last segment and leaves all earlier segments unchanged; if
`length = MAX_SNAKE_LENGTH` it returns the state as it is; in both cases
directions, food, score, speed, counter, screen and flag are unchanged. -/
theorem C21_GrowSnake (g : Game) :
    (1 ≤ g.snake.length → g.snake.length < MAX_SNAKE_LENGTH →
        (GrowSnake g).snake.length = g.snake.length + 1 ∧
          (GrowSnake g).snake.body g.snake.length = g.snake.body (g.snake.length - 1) ∧
          ∀ i, i < g.snake.length → (GrowSnake g).snake.body i = g.snake.body i) ∧
      (g.snake.length = MAX_SNAKE_LENGTH → GrowSnake g = g) ∧
      (GrowSnake g).snake.direction = g.snake.direction ∧
      (GrowSnake g).snake.nextDirection = g.snake.nextDirection ∧
      (GrowSnake g).food = g.food ∧ (GrowSnake g).score = g.score ∧
      (GrowSnake g).frameCounter = g.frameCounter ∧ (GrowSnake g).moveSpeed = g.moveSpeed ∧
      (GrowSnake g).currentScreen = g.currentScreen ∧ (GrowSnake g).gameOver = g.gameOver := by
  obtain ⟨o1, o2, o3, o4, o5, o6, o7, o8⟩ := GrowSnake_other g
  refine ⟨?_, ?_, o7, o8, o1, o2, o3, o4, o5, o6⟩
  · intro _ hlt
    rcases GrowSnake_cases g with ⟨-, h1, h2, h3⟩ | ⟨hge, -⟩
    · exact ⟨h1, h2, h3⟩
    · omega
  · intro he
    rcases GrowSnake_cases g with ⟨hlt, -⟩ | ⟨-, h⟩
    · omega
    · exact h

theorem C21_GrowSnake_witness :
    ((GrowSnake scenarioState).snake.length = scenarioState.snake.length + 1 ∧
        (GrowSnake scenarioState).snake.body scenarioState.snake.length =
          scenarioState.snake.body (scenarioState.snake.length - 1) ∧
        ∀ i, i < scenarioState.snake.length →
          (GrowSnake scenarioState).snake.body i = scenarioState.snake.body i) ∧
      (GrowSnake scenarioState).snake.body 3 = ⟨3, 5⟩ ∧ GrowSnake fullSnake = fullSnake :=
  ⟨(C21_GrowSnake scenarioState).1 (by decide) (by decide), by decide,
    (C21_GrowSnake fullSnake).2.1 rfl⟩

/-- C22 (`SpawnFood` postcondition). `SpawnFood` returns exactly when one of
the drawn candidate cells is off the snake; when it returns, the food cell has
`0 ≤ food.x < GRID_WIDTH` and `0 ≤ food.y < GRID_HEIGHT`, differs from every
segment `body[i]`, `i < length`, the snake and every other global are
unchanged, and the food cell is the first drawn candidate that is not on the
snake. -/
theorem C22_SpawnFood (draws : List Nat) (g : Game) :
    (SpawnFood draws g).isSome = (candidates draws).any (fun p => !foodOnSnake g.snake p) ∧
      ∀ g', SpawnFood draws g = some g' →
        (0 ≤ g'.food.x ∧ g'.food.x < GRID_WIDTH ∧ 0 ≤ g'.food.y ∧ g'.food.y < GRID_HEIGHT) ∧
          (∀ i, i < g.snake.length → g.snake.body i ≠ g'.food) ∧ g'.snake = g.snake ∧
          g' = { g with food := g'.food } ∧
          (candidates draws).find? (fun p => !foodOnSnake g.snake p) = some g'.food := by
  constructor
  · rw [SpawnFood_isSome, spawnLoop_find, find_isSome_eq_any]
  · intro g' h
    obtain ⟨food, hf, rfl⟩ := SpawnFood_some draws g g' h
    obtain ⟨h1, h2⟩ := spawnLoop_spec g.snake draws food hf
    refine ⟨h2, h1, rfl, rfl, ?_⟩
    rw [← spawnLoop_find]
    exact hf

theorem C22_SpawnFood_witness :
    (SpawnFood [5, 5, 44, 35, 7, 7, 8, 8] scenarioState).map (fun g => g.food) = some ⟨7, 7⟩ ∧
      candidates [5, 5, 44, 35, 7, 7, 8, 8] = [⟨5, 5⟩, ⟨4, 5⟩, ⟨7, 7⟩, ⟨8, 8⟩] ∧
      (candidates [5, 5, 44, 35, 7, 7, 8, 8]).find? (fun p => !foodOnSnake scenarioState.snake p) =
        some ((SpawnFood [5, 5, 44, 35, 7, 7, 8, 8] scenarioState).getD startGlobals).food :=
  ⟨by decide!, by decide!,
    ((C22_SpawnFood [5, 5, 44, 35, 7, 7, 8, 8] scenarioState).2 _
      (getD_of_isSome _ _ (by decide!))).2.2.2.2⟩

/-- C25 (`SpawnFood` can always succeed). In every reachable state
`snake.length ≤ MAX_SNAKE_LENGTH = 300`, which is less than the
`GRID_WIDTH * GRID_HEIGHT = 1200` cells of the grid; so the snake, and the
grown snake that a simulation step hands to `SpawnFood`, leave a grid cell
free, and for every key input there are random draws on which the tick
returns. -/
theorem C25_spawn_can_succeed (k : Keys) (g : Game) (hr : Reachable g) :
    g.snake.length ≤ MAX_SNAKE_LENGTH ∧
      ((MAX_SNAKE_LENGTH : Nat) : Int) < GRID_WIDTH * GRID_HEIGHT ∧
      GRID_WIDTH * GRID_HEIGHT = 1200 ∧
      (∃ p, inGrid p ∧ foodOnSnake g.snake p = false) ∧
      (∃ p, inGrid p ∧ foodOnSnake (GrowSnake (advance (readInput k g))).snake p = false) ∧
      ∃ draws g', UpdateGame k draws g = some g' := by
  obtain ⟨w, hw⟩ := hr.window
  have hmax := hw.snakeInv.len_max
  have halen : (advance (readInput k g)).snake.length ≤ MAX_SNAKE_LENGTH := by
    rw [advance_length, (readInput_fields k g).1]
    exact hmax
  refine ⟨hmax, by decide, by decide, free_cell _ hmax,
    free_cell _ (GrowSnake_length_le _ halen), ?_⟩
  have hrestart : ∃ draws g',
      (if k.enter = true then InitGame draws { g with currentScreen := SCREEN_PLAYING }
        else some g) = some g' := by
    by_cases he : k.enter = true
    · obtain ⟨draws, g', h⟩ := InitGame_possible { g with currentScreen := SCREEN_PLAYING }
      exact ⟨draws, g', by rw [if_pos he]; exact h⟩
    · exact ⟨[], g, by rw [if_neg he]⟩
  cases hs : g.currentScreen with
  | SCREEN_TITLE =>
    obtain ⟨draws, g', h⟩ := hrestart
    refine ⟨draws, g', ?_⟩
    unfold UpdateGame
    rw [hs]
    exact h
  | SCREEN_GAMEOVER =>
    obtain ⟨draws, g', h⟩ := hrestart
    refine ⟨draws, g', ?_⟩
    unfold UpdateGame
    rw [hs]
    exact h
  | SCREEN_PLAYING =>
    by_cases hf : stepFires g
    · by_cases hfc : CheckFoodCollision (advance (readInput k g)) = true
      · obtain ⟨draws, e, he⟩ := eatFood_possible _ halen
        refine ⟨draws, checkGameOver e, ?_⟩
        rw [UpdateGame_step k draws g hs hf, simulationStep_eat draws _ hfc, he]
        rfl
      · have hfc' : CheckFoodCollision (advance (readInput k g)) = false := by simpa using hfc
        exact ⟨[], _, by rw [UpdateGame_step k [] g hs hf, simulationStep_noeat [] _ hfc']⟩
    · exact ⟨[], _, UpdateGame_nostep k [] g hs hf⟩

theorem C25_spawn_can_succeed_witness :
    readyState.snake.length ≤ MAX_SNAKE_LENGTH ∧
      ((MAX_SNAKE_LENGTH : Nat) : Int) < GRID_WIDTH * GRID_HEIGHT ∧
      GRID_WIDTH * GRID_HEIGHT = 1200 ∧
      (∃ p, inGrid p ∧ foodOnSnake readyState.snake p = false) ∧
      (∃ p, inGrid p ∧
        foodOnSnake (GrowSnake (advance (readInput noKeys readyState))).snake p = false) ∧
      ∃ draws g', UpdateGame noKeys draws readyState = some g' :=
  C25_spawn_can_succeed noKeys readyState readyState_reachable


theorem wallBrink_reachable : Reachable wallBrink :=
  runTicks_reachable wallTrace titleState wallBrink titleState_reachable
    (getD_of_isSome _ _ (by decide!))

theorem wallOver_reachable : Reachable wallOver :=
  Reachable.tick noKeys [] wallBrink wallOver wallBrink_reachable
    (getD_of_isSome _ _ (by decide!))

theorem dupState_reachable : Reachable dupState :=
  runTicks_reachable (collisionTrace.take 42) titleState dupState titleState_reachable
    (getD_of_isSome _ _ (by decide!))

theorem playState_reachable : Reachable playState :=
  Reachable.tick enterKey [0, 0] titleState playState titleState_reachable
    (getD_of_isSome _ _ (by decide!))

theorem fedState_reachable : Reachable fedState :=
  runTicks_reachable fedTrace titleState fedState titleState_reachable
    (getD_of_isSome _ _ (by decide!))

/-- A tick that does not call `InitGame` leaves the score as it is or adds 10
to it. -/
theorem UpdateGame_score (k : Keys) (draws : List Nat) (g g' : Game)
    (h : UpdateGame k draws g = some g')
    (hs : g.currentScreen = SCREEN_PLAYING ∨ k.enter = false) :
    g'.score = g.score ∨ g'.score = g.score + 10 := by
  by_cases hp : g.currentScreen = SCREEN_PLAYING
  · by_cases hf : stepFires g
    · rw [UpdateGame_step k draws g hp hf] at h
      have ascore : (advance (readInput k g)).score = g.score := by
        rw [(advance_fields (readInput k g)).1, (readInput_fields k g).2.2.2.2.1]
      by_cases hfc : CheckFoodCollision (advance (readInput k g)) = true
      · rw [simulationStep_eat draws _ hfc] at h
        cases hef : eatFood draws (advance (readInput k g)) with
        | none => rw [hef] at h; exact absurd h (by simp)
        | some e =>
          rw [hef] at h
          simp only [Option.map_some', Option.some.injEq] at h
          subst h
          right
          rw [(checkGameOver_fields e).2.1, (eatFood_some _ _ _ hef).2.2.2.2.1, ascore]
      · have hfc' : CheckFoodCollision (advance (readInput k g)) = false := by simpa using hfc
        rw [simulationStep_noeat draws _ hfc'] at h
        simp only [Option.some.injEq] at h
        subst h
        left
        rw [(checkGameOver_fields _).2.1, ascore]
    · rw [UpdateGame_nostep k draws g hp hf] at h
      simp only [Option.some.injEq] at h
      subst h
      left
      exact (readInput_fields k g).2.2.2.2.1
  · have he : k.enter = false := by
      rcases hs with h1 | h1
      · exact absurd h1 hp
      · exact h1
    have hsame : UpdateGame k draws g = some g := by
      unfold UpdateGame
      cases hc : g.currentScreen with
      | SCREEN_TITLE => simp [he]
      | SCREEN_PLAYING => exact absurd hc hp
      | SCREEN_GAMEOVER => simp [he]
    rw [hsame] at h
    simp only [Option.some.injEq] at h
    left
    rw [h]

/-- Frames on the PLAYING screen that stay below `moveSpeed` only count. -/
theorem quiet_run (l : List (Keys × List Nat)) (g : Game)
    (hp : g.currentScreen = SCREEN_PLAYING)
    (hlt : g.frameCounter + (l.length : Int) < g.moveSpeed) :
    ∃ g2, runTicks l g = some g2 ∧ g2.currentScreen = SCREEN_PLAYING ∧
      g2.frameCounter = g.frameCounter + (l.length : Int) ∧ g2.moveSpeed = g.moveSpeed ∧
      g2.snake.body = g.snake.body ∧ g2.snake.length = g.snake.length ∧
      g2.snake.direction = g.snake.direction := by
  induction l generalizing g with
  | nil => exact ⟨g, rfl, hp, by simp, rfl, rfl, rfl, rfl⟩
  | cons a rest ih =>
    obtain ⟨k, draws⟩ := a
    simp only [List.length_cons, Nat.cast_add, Nat.cast_one] at hlt
    have hf : ¬ stepFires g := by
      intro hf
      have := hf.2
      omega
    obtain ⟨r1, r2, r3, -, -, r6, r7, -, r9⟩ := readInput_fields k g
    obtain ⟨g2, h1, h2, h3, h4, h5, h6, h7⟩ := ih (readInput k g) (by rw [r7]; exact hp)
      (by rw [r9, r6]; omega)
    refine ⟨g2, ?_, h2, ?_, ?_, ?_, ?_, ?_⟩
    · simp only [runTicks]
      rw [UpdateGame_nostep k draws g hp hf]
      exact h1
    · rw [h3, r9]
      simp only [List.length_cons, Nat.cast_add, Nat.cast_one]
      ring
    · rw [h4, r6]
    · rw [h5, r2]
    · rw [h6, r1]
    · rw [h7, r3]


/-- After an eating advance from a reachable PLAYING state neither collision
test holds, before or after the growth. -/
theorem eating_no_collision (k : Keys) (g : Game) (hr : Reachable g)
    (hp : g.currentScreen = SCREEN_PLAYING)
    (he : (advance (readInput k g)).snake.body 0 = g.food) :
    (CheckWallCollision (advance (readInput k g)) = false ∧
        CheckSelfCollision (advance (readInput k g)) = false) ∧
      ∀ draws e, eatFood draws (advance (readInput k g)) = some e →
        CheckWallCollision e = false ∧ CheckSelfCollision e = false := by
  obtain ⟨w, hw⟩ := hr.window
  have hv := hw.snakeInv
  have hvr := Inv_readInput k w g hv hp
  obtain ⟨r1, -, -, r4, -, -, -, -, -⟩ := readInput_fields k g
  have hfood := hr.food_flag.1
  have h3 : INITIAL_SNAKE_LENGTH = 3 := rfl
  have hlen := hv.len_min
  rw [h3] at hlen
  have htail : ∀ j, 1 ≤ j → j < g.snake.length →
      (advance (readInput k g)).snake.body j ≠ g.food := by
    intro j h1 h2
    have := advance_tail_food w (readInput k g) hvr j h1 (by rw [r1]; exact h2)
    rw [r4] at this
    exact this
  have alen : (advance (readInput k g)).snake.length = g.snake.length := by
    rw [advance_length, r1]
  have key : ∀ e : Game, e.snake.body 0 = g.food →
      (∀ j, 1 ≤ j → j < e.snake.length → e.snake.body j ≠ g.food) →
      CheckWallCollision e = false ∧ CheckSelfCollision e = false := by
    intro e h0 ht
    have hwall : CheckWallCollision e = false := by
      rw [Bool.eq_false_iff]
      intro hc
      exact (wallCollision_iff e).1 hc (by rw [h0]; exact hfood)
    have hself : CheckSelfCollision e = false := by
      rw [Bool.eq_false_iff]
      intro hc
      obtain ⟨i, h1, h2, h3⟩ := (selfCollision_iff e).1 hc
      exact ht i h1 h2 (by rw [← h3, h0])
    exact ⟨hwall, hself⟩
  refine ⟨key _ he (fun j h1 h2 => htail j h1 (by rw [← alen]; exact h2)), ?_⟩
  intro draws e hef
  obtain ⟨e1, -⟩ := eatFood_some _ _ _ hef
  apply key
  · rw [e1, GrowSnake_head, he]
  · intro j h1 h2
    rw [e1] at h2 ⊢
    rcases GrowSnake_cases (advance (readInput k g)) with ⟨-, hg, hnew, hold⟩ | ⟨-, hg⟩
    · rw [hg, alen] at h2
      rw [alen] at hnew
      by_cases hlast : j = g.snake.length
      · rw [hlast, hnew]
        exact htail (g.snake.length - 1) (by omega) (by omega)
      · rw [hold j (by rw [alen]; omega)]
        exact htail j h1 (by omega)
    · rw [hg] at h2 ⊢
      exact htail j h1 (by rw [← alen]; exact h2)

theorem checkGameOver_idle (e : Game) (hw : CheckWallCollision e = false)
    (hs : CheckSelfCollision e = false) : checkGameOver e = e := by
  unfold checkGameOver
  rw [hw, hs]
  rfl

theorem checkGameOver_food (g : Game) :
    CheckFoodCollision (checkGameOver g) = CheckFoodCollision g := by
  unfold CheckFoodCollision
  rw [checkGameOver_snake, (checkGameOver_fields g).1]

/-- C23 (eating never ends the game). For a simulation step fired in a
reachable PLAYING state whose advanced head lands on the food: neither
`CheckWallCollision` nor `CheckSelfCollision` is true on the advanced snake,
and in the state the tick returns (after the growth) both are false, the
screen is still PLAYING and `gameOver` is false. For every step from a
reachable PLAYING state, eating or not, the step that runs the collision test
before the food test (`collisionFirstStep`) has the same outcome as the
program's step. -/
theorem C23_eating_never_ends (k : Keys) (draws : List Nat) (g : Game) (hr : Reachable g)
    (hp : g.currentScreen = SCREEN_PLAYING) (hf : stepFires g) :
    ((advance (readInput k g)).snake.body 0 = g.food →
        CheckWallCollision (advance (readInput k g)) = false ∧
          CheckSelfCollision (advance (readInput k g)) = false ∧
          UpdateGame k draws g = eatFood draws (advance (readInput k g)) ∧
          ∀ g', UpdateGame k draws g = some g' →
            CheckWallCollision g' = false ∧ CheckSelfCollision g' = false ∧
              g'.currentScreen = SCREEN_PLAYING ∧ g'.gameOver = false) ∧
      collisionFirstStep draws (readInput k g) = simulationStep draws (readInput k g) := by
  obtain ⟨r1, -, -, r4, -, -, r7, r8, -⟩ := readInput_fields k g
  have hflag : g.gameOver = false := by
    cases hgo : g.gameOver with
    | false => rfl
    | true =>
      have := hr.food_flag.2.1 hgo
      rw [hp] at this
      exact GameScreen.noConfusion this
  constructor
  · intro he
    obtain ⟨ha, hall⟩ := eating_no_collision k g hr hp he
    have hfc : CheckFoodCollision (advance (readInput k g)) = true :=
      (foodCollision_iff _).2 (by rw [advance_food, r4]; exact he)
    have hup : UpdateGame k draws g = eatFood draws (advance (readInput k g)) := by
      rw [UpdateGame_step k draws g hp hf, simulationStep_eat draws _ hfc]
      cases hef : eatFood draws (advance (readInput k g)) with
      | none => rfl
      | some e =>
        rw [Option.map_some', checkGameOver_idle e (hall draws e hef).1 (hall draws e hef).2]
    refine ⟨ha.1, ha.2, hup, ?_⟩
    intro g' hg'
    rw [hup] at hg'
    obtain ⟨-, -, e3, -, -, e6, -⟩ := eatFood_some _ _ _ hg'
    refine ⟨(hall draws g' hg').1, (hall draws g' hg').2, ?_, ?_⟩
    · rw [e3, advance_screen, r7]; exact hp
    · rw [e6, (advance_fields _).2.2, r8]; exact hflag
  · unfold collisionFirstStep
    dsimp only
    rw [checkGameOver_food]
    by_cases hfc : CheckFoodCollision (advance (readInput k g)) = true
    · have he : (advance (readInput k g)).snake.body 0 = g.food := by
        have := (foodCollision_iff _).1 hfc
        rw [advance_food, r4] at this
        exact this
      obtain ⟨ha, hall⟩ := eating_no_collision k g hr hp he
      rw [if_pos hfc, checkGameOver_idle _ ha.1 ha.2, simulationStep_eat draws _ hfc]
      cases hef : eatFood draws (advance (readInput k g)) with
      | none => rfl
      | some e =>
        rw [Option.map_some', checkGameOver_idle e (hall draws e hef).1 (hall draws e hef).2]
    · have hfc' : CheckFoodCollision (advance (readInput k g)) = false := by simpa using hfc
      rw [if_neg hfc, simulationStep_noeat draws _ hfc']

theorem C23_eating_never_ends_witness :
    (advance (readInput noKeys readyState)).snake.body 0 = readyState.food ∧
      (UpdateGame noKeys [22, 15] readyState).map
          (fun g => (g.snake.length, g.score, g.currentScreen, g.gameOver)) =
        some (4, 10, SCREEN_PLAYING, false) ∧
      (CheckWallCollision (advance (readInput noKeys readyState)) = false ∧
        CheckSelfCollision (advance (readInput noKeys readyState)) = false ∧
        UpdateGame noKeys [22, 15] readyState =
          eatFood [22, 15] (advance (readInput noKeys readyState)) ∧
        ∀ g', UpdateGame noKeys [22, 15] readyState = some g' →
          CheckWallCollision g' = false ∧ CheckSelfCollision g' = false ∧
            g'.currentScreen = SCREEN_PLAYING ∧ g'.gameOver = false) :=
  ⟨by decide!, by decide!,
    (C23_eating_never_ends noKeys [22, 15] readyState readyState_reachable (by decide!)
      (by decide!)).1 (by decide!)⟩

/-- C26 (grid bounds). In every reachable state every segment other than the
head lies within `[0, GRID_WIDTH) x [0, GRID_HEIGHT)`; the head lies within
the grid whenever `currentScreen` is not GAMEOVER; and in every reachable
state, GAMEOVER included, the head is one `MoveSnake` step from the in-grid
segment behind it, so it is at most one cell outside the grid and at most one
of its coordinates is out of range. -/
theorem C26_grid_bounds (g : Game) (hr : Reachable g) :
    (∀ i, 1 ≤ i → i < g.snake.length → inGrid (g.snake.body i)) ∧
      (g.currentScreen ≠ SCREEN_GAMEOVER → inGrid (g.snake.body 0)) ∧
      (g.snake.body 0 = moveHead g.snake.direction (g.snake.body 1) ∧
        inGrid (g.snake.body 1)) ∧
      (-1 ≤ (g.snake.body 0).x ∧ (g.snake.body 0).x ≤ GRID_WIDTH ∧ -1 ≤ (g.snake.body 0).y ∧
        (g.snake.body 0).y ≤ GRID_HEIGHT ∧
        ((0 ≤ (g.snake.body 0).x ∧ (g.snake.body 0).x < GRID_WIDTH) ∨
          (0 ≤ (g.snake.body 0).y ∧ (g.snake.body 0).y < GRID_HEIGHT))) := by
  have hpr := hr.progress
  obtain ⟨w, hw⟩ := hr.window
  have hlen := hw.snakeInv.len_min
  have h3 : INITIAL_SNAKE_LENGTH = 3 := rfl
  rw [h3] at hlen
  have h1 := hpr.tail_in 1 (le_refl 1) (by omega)
  refine ⟨hpr.tail_in, hpr.head_in, ⟨hpr.head_step, h1⟩, ?_⟩
  rw [hpr.head_step]
  exact moveHead_near _ _ h1

theorem C26_grid_bounds_witness :
    wallOver.currentScreen = SCREEN_GAMEOVER ∧ wallOver.snake.body 0 = ⟨20, -1⟩ ∧
      (∀ i, 1 ≤ i → i < wallOver.snake.length → inGrid (wallOver.snake.body i)) ∧
      (-1 ≤ (wallOver.snake.body 0).x ∧ (wallOver.snake.body 0).x ≤ GRID_WIDTH ∧
        -1 ≤ (wallOver.snake.body 0).y ∧ (wallOver.snake.body 0).y ≤ GRID_HEIGHT ∧
        ((0 ≤ (wallOver.snake.body 0).x ∧ (wallOver.snake.body 0).x < GRID_WIDTH) ∨
          (0 ≤ (wallOver.snake.body 0).y ∧ (wallOver.snake.body 0).y < GRID_HEIGHT))) :=
  ⟨by decide!, by decide!, (C26_grid_bounds wallOver wallOver_reachable).1,
    (C26_grid_bounds wallOver wallOver_reachable).2.2.2⟩

/-- C27 (progression relation, over unbounded integers). In every reachable
state `score` is a non-negative multiple of 10,
`snake.length = min MAX_SNAKE_LENGTH (INITIAL_SNAKE_LENGTH + score / 10)` and
`moveSpeed = max MIN_SPEED (INITIAL_SPEED - score / 10)`, hence
`MIN_SPEED ≤ moveSpeed ≤ INITIAL_SPEED`; and on every tick that does not
restart the game (the screen is PLAYING or ENTER is not pressed) the score
does not decrease and `moveSpeed` does not increase. -/
theorem C27_progression (g : Game) (hr : Reachable g) :
    0 ≤ g.score ∧ (10 : Int) ∣ g.score ∧
      (g.snake.length : Int) =
        min (MAX_SNAKE_LENGTH : Int) ((INITIAL_SNAKE_LENGTH : Int) + g.score / 10) ∧
      g.moveSpeed = max MIN_SPEED (INITIAL_SPEED - g.score / 10) ∧
      MIN_SPEED ≤ g.moveSpeed ∧ g.moveSpeed ≤ INITIAL_SPEED ∧
      ∀ k draws g', UpdateGame k draws g = some g' →
        (g.currentScreen = SCREEN_PLAYING ∨ k.enter = false) →
        g.score ≤ g'.score ∧ g'.moveSpeed ≤ g.moveSpeed := by
  have hpr := hr.progress
  have h0 := hpr.score_nonneg
  have hs := hpr.speed_eq
  have h5 : MIN_SPEED = 5 := rfl
  have h15 : INITIAL_SPEED = 15 := rfl
  refine ⟨h0, hpr.score_mult, hpr.length_eq, hs, ?_, ?_, ?_⟩
  · rw [hs, h5, h15]; omega
  · rw [hs, h5, h15]; omega
  · intro k draws g' h hk
    have hpr' := (Reachable.tick k draws g g' hr h).progress
    have hs' := hpr'.speed_eq
    rw [h5, h15] at hs hs'
    rcases UpdateGame_score k draws g g' h hk with he | he
    · rw [hs, hs', he]
      exact ⟨le_refl _, le_refl _⟩
    · rw [hs, hs', he]
      constructor <;> omega

theorem C27_progression_witness :
    (fedState.score, fedState.snake.length, fedState.moveSpeed) = (10, 4, 14) ∧
      (0 ≤ fedState.score ∧ (10 : Int) ∣ fedState.score ∧
        (fedState.snake.length : Int) =
          min (MAX_SNAKE_LENGTH : Int) ((INITIAL_SNAKE_LENGTH : Int) + fedState.score / 10) ∧
        fedState.moveSpeed = max MIN_SPEED (INITIAL_SPEED - fedState.score / 10) ∧
        MIN_SPEED ≤ fedState.moveSpeed ∧ fedState.moveSpeed ≤ INITIAL_SPEED) :=
  have h := C27_progression fedState fedState_reachable
  ⟨by decide!, h.1, h.2.1, h.2.2.1, h.2.2.2.1, h.2.2.2.2.1, h.2.2.2.2.2.1⟩

/-- C28 (frame counter). In every reachable state
`0 ≤ frameCounter < moveSpeed`, and `frameCounter = 0` whenever the screen is
TITLE or GAMEOVER. Hence after ENTER on either of these screens the game is
PLAYING with `frameCounter = 0` and `moveSpeed = INITIAL_SPEED = 15`, and
whatever the inputs of the next `n < 15` frames, they all return without a
simulation step (the snake is as it was, `frameCounter = n`), and the frame
after them fires the first step exactly when `n + 1 = 15`. -/
theorem C28_frame_counter (g : Game) (hr : Reachable g) :
    0 ≤ g.frameCounter ∧ g.frameCounter < g.moveSpeed ∧
      (g.currentScreen = SCREEN_TITLE ∨ g.currentScreen = SCREEN_GAMEOVER →
        g.frameCounter = 0) ∧
      ∀ k draws g1, g.currentScreen ≠ SCREEN_PLAYING → k.enter = true →
        UpdateGame k draws g = some g1 →
        g1.currentScreen = SCREEN_PLAYING ∧ g1.frameCounter = 0 ∧
          g1.moveSpeed = INITIAL_SPEED ∧ INITIAL_SPEED = 15 ∧
          ∀ l : List (Keys × List Nat), l.length < 15 →
            ∃ g2, runTicks l g1 = some g2 ∧ g2.currentScreen = SCREEN_PLAYING ∧
              g2.frameCounter = (l.length : Int) ∧ g2.moveSpeed = INITIAL_SPEED ∧
              g2.snake.body = g1.snake.body ∧ g2.snake.length = g1.snake.length ∧
              (stepFires g2 ↔ l.length + 1 = 15) := by
  have hpr := hr.progress
  obtain ⟨w, hw⟩ := hr.window
  have hc := hw.snakeInv.counter
  refine ⟨hpr.counter_lo, hpr.counter_hi, ?_, ?_⟩
  · intro hs
    apply hc
    rcases hs with hs | hs <;> rw [hs] <;> exact fun hh => GameScreen.noConfusion hh
  · intro k draws g1 hs hk h
    have hinit : InitGame draws { g with currentScreen := SCREEN_PLAYING } = some g1 := by
      unfold UpdateGame at h
      cases hcs : g.currentScreen with
      | SCREEN_TITLE => rw [hcs] at h; simpa [hk] using h
      | SCREEN_PLAYING => exact absurd hcs hs
      | SCREEN_GAMEOVER => rw [hcs] at h; simpa [hk] using h
    obtain ⟨-, -, -, -, -, -, i7, -, i9, i10⟩ := InitGame_some draws _ g1 hinit
    have hp1 : g1.currentScreen = SCREEN_PLAYING := i9
    have hf1 : g1.frameCounter = 0 := by
      rw [i10]
      exact hc hs
    have h15 : INITIAL_SPEED = 15 := rfl
    refine ⟨hp1, hf1, i7, h15, ?_⟩
    intro l hl
    obtain ⟨g2, q1, q2, q3, q4, q5, q6, -⟩ := quiet_run l g1 hp1
      (by rw [hf1, i7, h15]; omega)
    rw [hf1, zero_add] at q3
    rw [i7] at q4
    refine ⟨g2, q1, q2, q3, q4, q5, q6, ?_⟩
    unfold stepFires
    rw [q3, q4, h15]
    constructor
    · intro hh
      have := hh.2
      omega
    · intro hh
      exact ⟨q2, by omega⟩

theorem C28_frame_counter_witness :
    titleState.currentScreen ≠ SCREEN_PLAYING ∧
      UpdateGame enterKey [0, 0] titleState = some playState ∧
      ∃ g2, runTicks (idle 14) playState = some g2 ∧ g2.currentScreen = SCREEN_PLAYING ∧
        g2.frameCounter = ((idle 14).length : Int) ∧ g2.moveSpeed = INITIAL_SPEED ∧
        g2.snake.body = playState.snake.body ∧ g2.snake.length = playState.snake.length ∧
        (stepFires g2 ↔ (idle 14).length + 1 = 15) :=
  ⟨by decide!, getD_of_isSome _ _ (by decide!),
    ((C28_frame_counter titleState titleState_reachable).2.2.2 enterKey [0, 0] playState
      (by decide!) rfl (getD_of_isSome _ _ (by decide!))).2.2.2.2 (idle 14) (by decide)⟩

/-- C29 (distinctness while alive). In every reachable state whose screen is
not GAMEOVER, two indices `i < j < length` that hold the same cell are the
last two, `i = length - 2` and `j = length - 1`. A simulation step from a
reachable PLAYING state that does not eat returns, and in the state it leaves
the last two segments differ; any two segments that coincide there are the
head and a later segment, in a GAMEOVER state. -/
theorem C29_distinct_alive (k : Keys) (draws : List Nat) (g : Game) (hr : Reachable g) :
    (g.currentScreen ≠ SCREEN_GAMEOVER →
        ∀ i j, i < j → j < g.snake.length → g.snake.body i = g.snake.body j →
          i + 2 = g.snake.length ∧ j + 1 = g.snake.length) ∧
      (g.currentScreen = SCREEN_PLAYING → stepFires g →
        CheckFoodCollision (advance (readInput k g)) = false →
        ∃ g', UpdateGame k draws g = some g' ∧ g'.snake.length = g.snake.length ∧
          g'.snake.body (g'.snake.length - 2) ≠ g'.snake.body (g'.snake.length - 1) ∧
          ∀ i j, i < j → j < g'.snake.length → g'.snake.body i = g'.snake.body j →
            i = 0 ∧ g'.currentScreen = SCREEN_GAMEOVER) := by
  obtain ⟨w, hw⟩ := hr.window
  have hv := hw.snakeInv
  constructor
  · intro hs i j hij hj he
    rcases hv.distinct i j hij hj he with ⟨-, h1, h2⟩ | ⟨-, h2⟩
    · exact ⟨h1, h2⟩
    · exact absurd h2 hs
  · intro hp hf hfc
    have hup : UpdateGame k draws g = some (checkGameOver (advance (readInput k g))) := by
      rw [UpdateGame_step k draws g hp hf, simulationStep_noeat draws _ hfc]
    have hv' := Inv_UpdateGame k draws w g _ hv hup
    have hwin : windowAfter k g w = false := by
      unfold windowAfter
      rw [hp]
      dsimp only
      rw [if_pos ((stepFires_iff k g hp).1 hf), hfc]
    rw [hwin] at hv'
    have hd : ∀ i j, i < j → j < (checkGameOver (advance (readInput k g))).snake.length →
        (checkGameOver (advance (readInput k g))).snake.body i =
          (checkGameOver (advance (readInput k g))).snake.body j →
        i = 0 ∧ (checkGameOver (advance (readInput k g))).currentScreen = SCREEN_GAMEOVER := by
      intro i j hij hj he
      rcases hv'.distinct i j hij hj he with ⟨hh, -⟩ | hh
      · exact absurd hh (by decide)
      · exact hh
    have hlen := hv'.len_min
    have h3 : INITIAL_SNAKE_LENGTH = 3 := rfl
    rw [h3] at hlen
    refine ⟨_, hup, ?_, ?_, hd⟩
    · rw [checkGameOver_snake, advance_length, (readInput_fields k g).1]
    · intro he
      have := (hd _ _ (by omega) (by omega) he).1
      omega

theorem C29_distinct_alive_witness :
    dupState.snake.body 3 = dupState.snake.body 4 ∧
      (dupState.currentScreen ≠ SCREEN_GAMEOVER →
        ∀ i j, i < j → j < dupState.snake.length →
          dupState.snake.body i = dupState.snake.body j →
          i + 2 = dupState.snake.length ∧ j + 1 = dupState.snake.length) ∧
      ∃ g', UpdateGame noKeys [] dupState = some g' ∧
        g'.snake.length = dupState.snake.length ∧
        g'.snake.body (g'.snake.length - 2) ≠ g'.snake.body (g'.snake.length - 1) ∧
        ∀ i j, i < j → j < g'.snake.length → g'.snake.body i = g'.snake.body j →
          i = 0 ∧ g'.currentScreen = SCREEN_GAMEOVER :=
  ⟨by decide!, (C29_distinct_alive noKeys [] dupState dupState_reachable).1,
    (C29_distinct_alive noKeys [] dupState dupState_reachable).2 (by decide!) (by decide!)
      (by decide!)⟩

end SnakeGame

namespace PongGame
open GameScreen

theorem sameBoard.trans {F : Type} {a b c : Game F} (h1 : sameBoard a b) (h2 : sameBoard b c) :
    sameBoard a c :=
  ⟨h1.1.trans h2.1, h1.2.1.trans h2.2.1, h1.2.2.1.trans h2.2.2.1, h1.2.2.2.trans h2.2.2.2⟩

section
variable {F : Type} [LinearOrderedField F]

theorem movePaddles_board (k : Keys) (g : Game F) : sameBoard (movePaddles k g) g := by
  unfold movePaddles
  dsimp only
  split_ifs <;> exact ⟨rfl, rfl, rfl, rfl⟩

theorem clampPaddles_board (g : Game F) : sameBoard (clampPaddles g) g := ⟨rfl, rfl, rfl, rfl⟩

theorem moveBall_board (g : Game F) : sameBoard (moveBall g) g := ⟨rfl, rfl, rfl, rfl⟩

theorem wallBounce_board (g : Game F) : sameBoard (wallBounce g) g := by
  unfold wallBounce
  split_ifs <;> exact ⟨rfl, rfl, rfl, rfl⟩

theorem leftPaddleHit_board (lib : Lib F) (g : Game F) : sameBoard (leftPaddleHit lib g) g := by
  unfold leftPaddleHit
  dsimp only
  split_ifs <;> exact ⟨rfl, rfl, rfl, rfl⟩

theorem rightPaddleHit_board (lib : Lib F) (g : Game F) : sameBoard (rightPaddleHit lib g) g := by
  unfold rightPaddleHit
  dsimp only
  split_ifs <;> exact ⟨rfl, rfl, rfl, rfl⟩

/-- The stages before the scoring tests leave scores, winner and screen. -/
theorem beforeScoring_board (lib : Lib F) (k : Keys) (g : Game F) :
    sameBoard (beforeScoring lib k g) g :=
  (rightPaddleHit_board lib _).trans <| (leftPaddleHit_board lib _).trans <|
    (wallBounce_board _).trans <| (moveBall_board _).trans <|
      (clampPaddles_board _).trans (movePaddles_board k g)

theorem ResetBall_fields (lib : Lib F) (d : Int) (rnd : Nat → Nat) (g : Game F) :
    (ResetBall lib d rnd g).1.player1Score = g.player1Score ∧
      (ResetBall lib d rnd g).1.player2Score = g.player2Score ∧
      (ResetBall lib d rnd g).1.winner = g.winner ∧
      (ResetBall lib d rnd g).1.currentScreen = g.currentScreen ∧
      (ResetBall lib d rnd g).1.leftPaddle = g.leftPaddle ∧
      (ResetBall lib d rnd g).1.rightPaddle = g.rightPaddle ∧
      (ResetBall lib d rnd g).1.ball.position = ⟨400, 300⟩ := by
  refine ⟨rfl, rfl, rfl, rfl, rfl, rfl, ?_⟩
  simp only [ResetBall, SCREEN_WIDTH, SCREEN_HEIGHT]
  norm_num

/-- What `scoreLeft` does to scores, winner, screen and the ball abscissa. -/
theorem scoreLeft_fields (lib : Lib F) (rnd : Nat → Nat) (g : Game F) :
    (scoreLeft lib rnd g).1.player1Score = g.player1Score ∧
      (scoreLeft lib rnd g).1.player2Score =
        (if g.ball.position.x < 0 then g.player2Score + 1 else g.player2Score) ∧
      (scoreLeft lib rnd g).1.winner =
        (if g.ball.position.x < 0 ∧ g.player2Score + 1 ≥ WINNING_SCORE then 2 else g.winner) ∧
      (scoreLeft lib rnd g).1.currentScreen =
        (if g.ball.position.x < 0 ∧ g.player2Score + 1 ≥ WINNING_SCORE then SCREEN_WINNER
          else g.currentScreen) ∧
      (scoreLeft lib rnd g).1.ball.position.x =
        (if g.ball.position.x < 0 ∧ ¬ g.player2Score + 1 ≥ WINNING_SCORE then 400
          else g.ball.position.x) := by
  unfold scoreLeft
  by_cases hx : g.ball.position.x < 0
  · by_cases hw : g.player2Score + 1 ≥ WINNING_SCORE
    · simp only [hx, hw, if_true, and_self, not_true_eq_false, and_false, if_false]
    · obtain ⟨h1, h2, h3, h4, -, -, h7⟩ :=
        ResetBall_fields lib 1 rnd { g with player2Score := g.player2Score + 1 }
      simp only [hx, hw, if_true, if_false, and_false, not_false_eq_true, and_self, h1, h2, h3, h4,
        h7]
  · simp only [hx, if_false, false_and, and_self]

/-- What `scoreRight` does to scores, winner and screen. -/
theorem scoreRight_fields (lib : Lib F) (rnd : Nat → Nat) (g : Game F) :
    (scoreRight lib rnd g).1.player2Score = g.player2Score ∧
      (scoreRight lib rnd g).1.player1Score =
        (if g.ball.position.x > (SCREEN_WIDTH : F) then g.player1Score + 1 else g.player1Score) ∧
      (scoreRight lib rnd g).1.winner =
        (if g.ball.position.x > (SCREEN_WIDTH : F) ∧ g.player1Score + 1 ≥ WINNING_SCORE then 1
          else g.winner) ∧
      (scoreRight lib rnd g).1.currentScreen =
        (if g.ball.position.x > (SCREEN_WIDTH : F) ∧ g.player1Score + 1 ≥ WINNING_SCORE then
          SCREEN_WINNER
        else g.currentScreen) := by
  unfold scoreRight
  by_cases hx : g.ball.position.x > (SCREEN_WIDTH : F)
  · by_cases hw : g.player1Score + 1 ≥ WINNING_SCORE
    · simp only [hx, hw, if_true, and_self]
    · obtain ⟨h1, h2, h3, h4, -, -, -⟩ :=
        ResetBall_fields lib (-1) rnd { g with player1Score := g.player1Score + 1 }
      simp only [hx, hw, if_true, if_false, and_false, h1, h2, h3, h4, and_self]
  · simp only [hx, if_false, false_and, and_self]

end


section
variable {F : Type} [LinearOrderedField F]

theorem InitGame_fields (lib : Lib F) (rnd : Nat → Nat) (g : Game F) :
    (InitGame lib rnd g).1.player1Score = 0 ∧ (InitGame lib rnd g).1.player2Score = 0 ∧
      (InitGame lib rnd g).1.winner = g.winner ∧
      (InitGame lib rnd g).1.currentScreen = g.currentScreen :=
  ⟨rfl, rfl, rfl, rfl⟩

/-- The scoring stage in terms of the state `b` it starts from. -/
theorem scoring_fields (lib : Lib F) (rnd : Nat → Nat) (b : Game F) :
    (scoring lib rnd b).player2Score =
        (if b.ball.position.x < 0 then b.player2Score + 1 else b.player2Score) ∧
      (scoring lib rnd b).player1Score =
        (if b.ball.position.x > (SCREEN_WIDTH : F) then b.player1Score + 1 else b.player1Score) ∧
      (scoring lib rnd b).winner =
        (if b.ball.position.x > (SCREEN_WIDTH : F) ∧ b.player1Score + 1 ≥ WINNING_SCORE then 1
          else if b.ball.position.x < 0 ∧ b.player2Score + 1 ≥ WINNING_SCORE then 2
          else b.winner) ∧
      (scoring lib rnd b).currentScreen =
        (if b.ball.position.x > (SCREEN_WIDTH : F) ∧ b.player1Score + 1 ≥ WINNING_SCORE then
          SCREEN_WINNER
        else if b.ball.position.x < 0 ∧ b.player2Score + 1 ≥ WINNING_SCORE then SCREEN_WINNER
        else b.currentScreen) := by
  obtain ⟨l1, l2, l3, l4, l5⟩ := scoreLeft_fields lib rnd b
  obtain ⟨r1, r2, r3, r4⟩ := scoreRight_fields lib (scoreLeft lib rnd b).2 (scoreLeft lib rnd b).1
  have hw : (SCREEN_WIDTH : F) = 800 := by simp [SCREEN_WIDTH]
  have hx : (scoreLeft lib rnd b).1.ball.position.x > (SCREEN_WIDTH : F) ↔
      b.ball.position.x > (SCREEN_WIDTH : F) := by
    rw [l5, hw]
    by_cases h0 : b.ball.position.x < 0
    · have hb : ¬ b.ball.position.x > 800 := by
        intro h; linarith
      by_cases h5 : b.player2Score + 1 ≥ WINNING_SCORE
      · simp [h0, h5]
      · simp only [h0, h5, not_false_eq_true, and_self, if_true, hb, iff_false]
        norm_num
    · simp [h0]
  unfold scoring
  dsimp only
  rw [r1, r2, r3, r4, l1, l2, l3, l4]
  simp only [hx]
  exact ⟨trivial, trivial, trivial, trivial⟩

theorem pongInv_scoring (lib : Lib F) (rnd : Nat → Nat) (b : Game F) (hi : Inv b)
    (hg : b.currentScreen = SCREEN_GAME) : Inv (scoring lib rnd b) := by
  obtain ⟨h2, h1, hw, hs⟩ := scoring_fields lib rnd b
  obtain ⟨hp1, hp2⟩ := hi.playing hg
  have i1 := hi.score1
  have i2 := hi.score2
  refine ⟨?_, ?_, ?_, ?_, ?_⟩
  · rw [h1]; split_ifs <;> omega
  · rw [h2]; split_ifs <;> omega
  · intro hscr
    rw [hs] at hscr
    by_cases c1 : b.ball.position.x > (SCREEN_WIDTH : F) ∧ b.player1Score + 1 ≥ WINNING_SCORE
    · rw [if_pos c1] at hscr
      exact GameScreen.noConfusion hscr
    · by_cases c2 : b.ball.position.x < 0 ∧ b.player2Score + 1 ≥ WINNING_SCORE
      · rw [if_neg c1, if_pos c2] at hscr
        exact GameScreen.noConfusion hscr
      · rw [h1, h2]
        constructor
        · by_cases hx : b.ball.position.x > (SCREEN_WIDTH : F)
          · rw [if_pos hx]
            have : ¬ b.player1Score + 1 ≥ WINNING_SCORE := fun h => c1 ⟨hx, h⟩
            omega
          · rw [if_neg hx]; exact hp1
        · by_cases hx : b.ball.position.x < 0
          · rw [if_pos hx]
            have : ¬ b.player2Score + 1 ≥ WINNING_SCORE := fun h => c2 ⟨hx, h⟩
            omega
          · rw [if_neg hx]; exact hp2
  · intro hscr
    rw [hs, hg] at hscr
    split_ifs at hscr
  · intro hscr
    rw [hs, hg] at hscr
    rw [hw]
    by_cases c1 : b.ball.position.x > (SCREEN_WIDTH : F) ∧ b.player1Score + 1 ≥ WINNING_SCORE
    · rw [if_pos c1]; exact Or.inl rfl
    · by_cases c2 : b.ball.position.x < 0 ∧ b.player2Score + 1 ≥ WINNING_SCORE
      · rw [if_neg c1, if_pos c2]; exact Or.inr rfl
      · rw [if_neg c1, if_neg c2] at hscr
        exact GameScreen.noConfusion hscr

theorem pongInv_InitGame (lib : Lib F) (rnd : Nat → Nat) (g : Game F) :
    Inv (InitGame lib rnd { g with currentScreen := SCREEN_GAME }).1 := by
  obtain ⟨h1, h2, h3, h4⟩ := InitGame_fields lib rnd { g with currentScreen := SCREEN_GAME }
  refine ⟨by rw [h1], by rw [h2], ?_, ?_, ?_⟩
  · intro _; rw [h1, h2]; decide
  · intro h; rw [h4] at h; exact GameScreen.noConfusion h
  · intro h; rw [h4] at h; exact GameScreen.noConfusion h

theorem pongInv_UpdateGame (lib : Lib F) (k : Keys) (rnd : Nat → Nat) (g : Game F) (hi : Inv g) :
    Inv (UpdateGame lib k rnd g) := by
  unfold UpdateGame
  split
  · split
    · exact pongInv_InitGame lib rnd g
    · exact hi
  · next hg =>
    obtain ⟨b1, b2, b3, b4⟩ := beforeScoring_board lib k g
    apply pongInv_scoring
    · refine ⟨by rw [b1]; exact hi.score1, by rw [b2]; exact hi.score2, ?_, ?_, ?_⟩
      · intro _; rw [b1, b2]; exact hi.playing hg
      · intro h; rw [b4] at h; rw [b3]; exact hi.menu h
      · intro h; rw [b4] at h; rw [b3]; exact hi.won h
    · rw [b4]; exact hg
  · split
    · exact pongInv_InitGame lib rnd g
    · exact hi

theorem Reachable.pongInv {lib : Lib F} {g : Game F} (h : Reachable lib g) : Inv g := by
  induction h with
  | init rnd =>
    obtain ⟨h1, h2, h3, h4⟩ := InitGame_fields lib rnd (startGlobals : Game F)
    refine ⟨by rw [h1], by rw [h2], ?_, ?_, ?_⟩
    · intro h; rw [h4] at h; exact GameScreen.noConfusion h
    · intro _; rw [h3]; rfl
    · intro h; rw [h4] at h; exact GameScreen.noConfusion h
  | tick k rnd g _ ih => exact pongInv_UpdateGame lib k rnd g ih

end


section
variable {F : Type} [LinearOrderedField F]

/-- C5 (phase machine and win rule). One call of `UpdateGame` maps MENU to GAME
if SPACE is pressed and to MENU otherwise, WINNER to GAME if SPACE is pressed
and to WINNER otherwise, and GAME to GAME or WINNER; no state other than MENU
is mapped to MENU.  In a reachable GAME state both scores are below
`WINNING_SCORE`, and the tick leads to WINNER exactly when it brings one of the
scores to `WINNING_SCORE` (= 5). -/
theorem C5_phase_machine (lib : Lib F) (k : Keys) (rnd : Nat → Nat) (g : Game F) :
    (g.currentScreen = SCREEN_MENU →
        (UpdateGame lib k rnd g).currentScreen = if k.space then SCREEN_GAME else SCREEN_MENU) ∧
      (g.currentScreen = SCREEN_WINNER →
        (UpdateGame lib k rnd g).currentScreen = if k.space then SCREEN_GAME else SCREEN_WINNER) ∧
      (g.currentScreen = SCREEN_GAME →
        (UpdateGame lib k rnd g).currentScreen = SCREEN_GAME ∨
          (UpdateGame lib k rnd g).currentScreen = SCREEN_WINNER) ∧
      (g.currentScreen ≠ SCREEN_MENU → (UpdateGame lib k rnd g).currentScreen ≠ SCREEN_MENU) ∧
      (Reachable lib g → g.currentScreen = SCREEN_GAME →
        g.player1Score < WINNING_SCORE ∧ g.player2Score < WINNING_SCORE ∧
          ((UpdateGame lib k rnd g).currentScreen = SCREEN_WINNER ↔
            (UpdateGame lib k rnd g).player1Score = WINNING_SCORE ∨
              (UpdateGame lib k rnd g).player2Score = WINNING_SCORE)) := by
  have hmenu : g.currentScreen = SCREEN_MENU →
      (UpdateGame lib k rnd g).currentScreen = if k.space then SCREEN_GAME else SCREEN_MENU := by
    intro h
    unfold UpdateGame
    rw [h]
    dsimp only
    split
    · rfl
    · exact h
  have hwin : g.currentScreen = SCREEN_WINNER →
      (UpdateGame lib k rnd g).currentScreen = if k.space then SCREEN_GAME else SCREEN_WINNER := by
    intro h
    unfold UpdateGame
    rw [h]
    dsimp only
    split
    · rfl
    · exact h
  have hupd : g.currentScreen = SCREEN_GAME →
      UpdateGame lib k rnd g = scoring lib rnd (beforeScoring lib k g) := by
    intro h
    unfold UpdateGame
    rw [h]
  obtain ⟨-, -, -, hs⟩ := scoring_fields lib rnd (beforeScoring lib k g)
  obtain ⟨-, -, -, b4⟩ := beforeScoring_board lib k g
  have hgame : g.currentScreen = SCREEN_GAME →
      (UpdateGame lib k rnd g).currentScreen = SCREEN_GAME ∨
        (UpdateGame lib k rnd g).currentScreen = SCREEN_WINNER := by
    intro h
    rw [hupd h, hs, b4, h]
    split_ifs
    · exact Or.inr rfl
    · exact Or.inr rfl
    · exact Or.inl rfl
  refine ⟨hmenu, hwin, hgame, ?_, ?_⟩
  · intro hne
    cases hscr : g.currentScreen with
    | SCREEN_MENU => exact absurd hscr hne
    | SCREEN_GAME =>
      rcases hgame hscr with h | h <;> rw [h] <;> exact fun hh => GameScreen.noConfusion hh
    | SCREEN_WINNER =>
      rw [hwin hscr]
      split <;> exact fun hh => GameScreen.noConfusion hh
  · intro hr hg
    obtain ⟨hp1, hp2⟩ := hr.pongInv.playing hg
    have hinv' := (Reachable.tick k rnd g hr).pongInv
    refine ⟨hp1, hp2, ?_⟩
    obtain ⟨h2, h1, -, -⟩ := scoring_fields lib rnd (beforeScoring lib k g)
    obtain ⟨b1, b2, -, -⟩ := beforeScoring_board lib k g
    rw [hupd hg, hs, h1, h2, b1, b2, b4, hg]
    unfold WINNING_SCORE at *
    by_cases hx1 : (beforeScoring lib k g).ball.position.x > (SCREEN_WIDTH : F) <;>
      by_cases hx2 : (beforeScoring lib k g).ball.position.x < 0 <;>
      by_cases hw1 : g.player1Score + 1 ≥ 5 <;>
      by_cases hw2 : g.player2Score + 1 ≥ 5 <;>
      simp only [hx1, hx2, hw1, hw2, and_self, and_true, and_false, if_true, if_false, true_iff,
        false_iff, reduceCtorEq] <;>
      omega

end


section
variable {F : Type} [LinearOrderedField F]

theorem pong_runTicks_reachable (lib : Lib F) (l : List (Keys × (Nat → Nat))) (g : Game F)
    (hr : Reachable lib g) : Reachable lib (runTicks lib l g) := by
  induction l generalizing g with
  | nil => exact hr
  | cons a rest ih =>
    obtain ⟨k, rnd⟩ := a
    exact ih _ (Reachable.tick k rnd g hr)

theorem UpdateGame_game (lib : Lib F) (k : Keys) (rnd : Nat → Nat) (g : Game F)
    (hg : g.currentScreen = SCREEN_GAME) :
    UpdateGame lib k rnd g = scoring lib rnd (beforeScoring lib k g) := by
  unfold UpdateGame
  rw [hg]

theorem UpdateGame_restart (lib : Lib F) (k : Keys) (rnd : Nat → Nat) (g : Game F)
    (hg : g.currentScreen ≠ SCREEN_GAME) (hk : k.space = true) :
    UpdateGame lib k rnd g = (InitGame lib rnd { g with currentScreen := SCREEN_GAME }).1 := by
  unfold UpdateGame
  cases hs : g.currentScreen with
  | SCREEN_MENU => simp [hk]
  | SCREEN_GAME => exact absurd hs hg
  | SCREEN_WINNER => simp [hk]

theorem UpdateGame_restart_winner (lib : Lib F) (k : Keys) (rnd : Nat → Nat) (g : Game F)
    (hg : g.currentScreen ≠ SCREEN_GAME) (hk : k.space = true) :
    (UpdateGame lib k rnd g).winner = g.winner := by
  rw [UpdateGame_restart lib k rnd g hg hk]
  rfl

/-- `InitGame` overwrites everything but `winner` and `currentScreen`. -/
theorem InitGame_eq (lib : Lib F) (rnd : Nat → Nat) (a b : Game F) :
    (InitGame lib rnd a).1 =
      { (InitGame lib rnd b).1 with winner := a.winner, currentScreen := a.currentScreen } :=
  rfl

/-- The serve angle is one of the sixty multiples `n * DEG2RAD`, `-30 ≤ n < 30`. -/
theorem ResetBall_velocity_x (lib : Lib F) (d : Int) (rnd : Nat → Nat) (g : Game F) :
    ∃ n : Int, -30 ≤ n ∧ n < 30 ∧
      (ResetBall lib d rnd g).1.ball.velocity.x =
        lib.cosf ((n : F) * lib.DEG2RAD) * BALL_SPEED_START * (d : F) := by
  refine ⟨((rnd 0 % 60 : Nat) : Int) - 30, ?_, ?_, rfl⟩
  · omega
  · omega

end

theorem menuState_reachable : Reachable ratLib menuState := Reachable.init flatServe

theorem wonState_reachable : Reachable ratLib wonState :=
  pong_runTicks_reachable ratLib matchTrace menuState menuState_reachable

theorem overlap_below (x px : ℚ) :
    circleRecOverlap (⟨x, 300⟩ : Vector2 ℚ) 8 ⟨px, 520, (PADDLE_WIDTH : ℚ), (PADDLE_HEIGHT : ℚ)⟩ = false := by
  unfold circleRecOverlap
  simp only [decide_eq_false_iff_not, not_le, PADDLE_HEIGHT, PADDLE_WIDTH]
  have h1 : max (520 : ℚ) (min 300 (520 + ((80 : Int) : ℚ))) = 520 := by norm_num
  rw [h1]
  nlinarith [mul_self_nonneg (x - max px (min x (px + ((15 : Int) : ℚ))))]

theorem rally_before (x vx : ℚ) (s1 s2 w : Int) :
    beforeScoring ratLib sDownKeys (rally x vx s1 s2 w) = rally (x + vx) vx s1 s2 w := by
  have hm : movePaddles sDownKeys (rally x vx s1 s2 w) =
      { rally x vx s1 s2 w with leftPaddle := ⟨⟨30, 526⟩, 6⟩, rightPaddle := ⟨⟨755, 526⟩, 6⟩ } := by
    simp [movePaddles, sDownKeys, rally, Paddle.setY]
    norm_num
  have hc : clampPaddles { rally x vx s1 s2 w with leftPaddle := ⟨⟨30, 526⟩, 6⟩, rightPaddle := ⟨⟨755, 526⟩, 6⟩ } = rally x vx s1 s2 w := by
    simp [clampPaddles, clampPaddle, rally, Paddle.setY, PADDLE_HEIGHT, SCREEN_HEIGHT]
    norm_num
  have hb : moveBall (rally x vx s1 s2 w) = rally (x + vx) vx s1 s2 w := by
    simp [moveBall, rally]
  have hw : wallBounce (rally (x + vx) vx s1 s2 w) = rally (x + vx) vx s1 s2 w := by
    simp [wallBounce, rally, SCREEN_HEIGHT]
    norm_num
  have hl : leftPaddleHit ratLib (rally (x + vx) vx s1 s2 w) = rally (x + vx) vx s1 s2 w := by
    unfold leftPaddleHit
    have := overlap_below (x + vx) 30
    simp only [rally, ratLib, this] 
    simp
  have hr : rightPaddleHit ratLib (rally (x + vx) vx s1 s2 w) = rally (x + vx) vx s1 s2 w := by
    unfold rightPaddleHit
    have := overlap_below (x + vx) 755
    simp only [rally, ratLib, this] 
    simp
  unfold beforeScoring
  rw [hm, hc, hb, hw, hl, hr]

theorem ratLib_serve (d : Int) (g : Game ℚ) :
    (ResetBall ratLib d flatServe g).1 = { g with ball := ⟨⟨400, 300⟩, ⟨5 * (d : ℚ), 0⟩, 8⟩ } := by
  simp [ResetBall, ratLib, flatServe, BALL_RADIUS, BALL_SPEED_START, SCREEN_WIDTH, SCREEN_HEIGHT]

theorem rally_scoring_none (x vx : ℚ) (s1 s2 w : Int) (h0 : 0 ≤ x) (h1 : x ≤ 800) :
    scoring ratLib flatServe (rally x vx s1 s2 w) = rally x vx s1 s2 w := by
  have hx0 : ¬ x < 0 := not_lt.2 h0
  have hx1 : ¬ x > 800 := not_lt.2 h1
  simp [scoring, scoreLeft, scoreRight, rally, SCREEN_WIDTH, hx0, hx1]

theorem rally_scoring_right (x vx : ℚ) (s1 s2 w : Int) (hx : 800 < x) (hs : s1 + 1 < 5) :
    scoring ratLib flatServe (rally x vx s1 s2 w) = rally 400 (-5) (s1 + 1) s2 w := by
  have hx0 : ¬ x < 0 := by intro h; linarith
  have hs' : ¬ (5 ≤ s1 + 1) := by omega
  simp [scoring, scoreLeft, scoreRight, rally, SCREEN_WIDTH, WINNING_SCORE, hx0, hx, hs', ratLib_serve]

theorem rally_scoring_left (x vx : ℚ) (s1 s2 w : Int) (hx : x < 0) (hs : s2 + 1 < 5) :
    scoring ratLib flatServe (rally x vx s1 s2 w) = rally 400 5 s1 (s2 + 1) w := by
  have hs' : ¬ (5 ≤ s2 + 1) := by omega
  have h4 : ¬ ((800 : ℚ) < 400) := by norm_num
  simp [scoring, scoreLeft, scoreRight, rally, SCREEN_WIDTH, WINNING_SCORE, hx, hs', ratLib_serve,
    h4]

theorem rally_scoring_win (x vx : ℚ) (s1 s2 w : Int) (hx : 800 < x) (hs : 5 ≤ s1 + 1) :
    scoring ratLib flatServe (rally x vx s1 s2 w) =
      { rally x vx (s1 + 1) s2 1 with currentScreen := SCREEN_WINNER } := by
  have hx0 : ¬ x < 0 := by intro h; linarith
  simp [scoring, scoreLeft, scoreRight, rally, SCREEN_WIDTH, WINNING_SCORE, hx0, hx, hs]

theorem runTicks_append {F : Type} [LinearOrderedField F] (lib : Lib F)
    (l1 l2 : List (Keys × (Nat → Nat))) (g : Game F) :
    runTicks lib (l1 ++ l2) g = runTicks lib l2 (runTicks lib l1 g) := by
  induction l1 generalizing g with
  | nil => rfl
  | cons a rest ih =>
    obtain ⟨k, rnd⟩ := a
    exact ih _

theorem holdDown_add (m n : Nat) : holdDown (m + n) = holdDown m ++ holdDown n := by
  unfold holdDown
  exact List.replicate_add m n _

theorem holdDown_one (g : Game ℚ) :
    runTicks ratLib (holdDown 1) g = UpdateGame ratLib sDownKeys flatServe g :=
  rfl

theorem rally_tick (x vx : ℚ) (s1 s2 w : Int) :
    UpdateGame ratLib sDownKeys flatServe (rally x vx s1 s2 w) =
      scoring ratLib flatServe (rally (x + vx) vx s1 s2 w) := by
  rw [UpdateGame_game ratLib sDownKeys flatServe _ rfl, rally_before]

/-- The ball flies `n` frames to the right without meeting anything. -/
theorem rally_right (n : Nat) (x : ℚ) (s1 s2 w : Int) (h0 : 0 ≤ x) (h1 : x + 5 * n ≤ 800) :
    runTicks ratLib (holdDown n) (rally x 5 s1 s2 w) = rally (x + 5 * n) 5 s1 s2 w := by
  induction n generalizing x with
  | zero => simp [holdDown, runTicks]
  | succ n ih =>
    have hn : (0 : ℚ) ≤ n := Nat.cast_nonneg n
    push_cast at h1
    have hstep : runTicks ratLib (holdDown (n + 1)) (rally x 5 s1 s2 w) =
        runTicks ratLib (holdDown n) (UpdateGame ratLib sDownKeys flatServe (rally x 5 s1 s2 w)) :=
      rfl
    rw [hstep, rally_tick, rally_scoring_none _ _ _ _ _ (by linarith) (by linarith),
      ih (x + 5) (by linarith) (by linarith)]
    push_cast
    ring_nf

/-- The ball flies `n` frames to the left without meeting anything. -/
theorem rally_left (n : Nat) (x : ℚ) (s1 s2 w : Int) (h0 : 0 ≤ x - 5 * n) (h1 : x ≤ 800) :
    runTicks ratLib (holdDown n) (rally x (-5) s1 s2 w) = rally (x - 5 * n) (-5) s1 s2 w := by
  induction n generalizing x with
  | zero => simp [holdDown, runTicks]
  | succ n ih =>
    have hn : (0 : ℚ) ≤ n := Nat.cast_nonneg n
    push_cast at h0
    have hstep : runTicks ratLib (holdDown (n + 1)) (rally x (-5) s1 s2 w) =
        runTicks ratLib (holdDown n)
          (UpdateGame ratLib sDownKeys flatServe (rally x (-5) s1 s2 w)) :=
      rfl
    rw [hstep, rally_tick, rally_scoring_none _ _ _ _ _ (by linarith) (by linarith),
      ih (x + -5) (by linarith) (by linarith)]
    push_cast
    ring_nf

/-- A serve to the right from the centre: after 81 frames player 1 has scored
and the ball is served to the left. -/
theorem round_right (s1 s2 w : Int) (hs : s1 + 1 < 5) :
    runTicks ratLib (holdDown 81) (rally 400 5 s1 s2 w) = rally 400 (-5) (s1 + 1) s2 w := by
  have h := holdDown_add 80 1
  norm_num at h
  have hx : (400 : ℚ) + 5 * ((80 : ℕ) : ℚ) = 800 := by norm_num
  rw [h, runTicks_append, rally_right 80 400 s1 s2 w (by norm_num) (by norm_num), hx, holdDown_one,
    rally_tick, rally_scoring_right _ _ _ _ _ (by norm_num) hs]

/-- A serve to the left from the centre: after 81 frames player 2 has scored
and the ball is served to the right. -/
theorem round_left (s1 s2 w : Int) (hs : s2 + 1 < 5) :
    runTicks ratLib (holdDown 81) (rally 400 (-5) s1 s2 w) = rally 400 5 s1 (s2 + 1) w := by
  have h := holdDown_add 80 1
  norm_num at h
  have hx : (400 : ℚ) - 5 * ((80 : ℕ) : ℚ) = 0 := by norm_num
  rw [h, runTicks_append, rally_left 80 400 s1 s2 w (by norm_num) (by norm_num), hx, holdDown_one,
    rally_tick, rally_scoring_left _ _ _ _ _ (by norm_num) hs]

/-- The first frame of the match and 44 more: the paddles have reached the
bottom wall while the first serve is on its way. -/
theorem opening_run :
    runTicks ratLib ((spaceKey, flatServe) :: holdDown 44) menuState = rally 620 5 0 0 0 := by
  decide!

theorem matchTrace_eq :
    matchTrace =
      ((spaceKey, flatServe) :: holdDown 44) ++ holdDown 36 ++ holdDown 1 ++ holdDown 81 ++
        holdDown 81 ++ holdDown 81 ++ holdDown 81 ++ holdDown 81 ++ holdDown 81 ++ holdDown 81 ++
        holdDown 80 ++ holdDown 1 := by
  have h : holdDown 729 =
      holdDown (44 + 36 + 1 + 81 + 81 + 81 + 81 + 81 + 81 + 81 + 80 + 1) := rfl
  unfold matchTrace
  rw [h]
  simp only [holdDown_add, List.cons_append]

theorem wonState_eq :
    wonState = { rally 805 5 5 4 1 with currentScreen := SCREEN_WINNER } := by
  have h1 : (620 : ℚ) + 5 * ((36 : ℕ) : ℚ) = 800 := by norm_num
  have h2 : (400 : ℚ) + 5 * ((80 : ℕ) : ℚ) = 800 := by norm_num
  unfold wonState
  rw [matchTrace_eq]
  simp only [runTicks_append, holdDown_one]
  rw [opening_run, rally_right 36 620 0 0 0 (by norm_num) (by norm_num), h1,
    rally_tick, rally_scoring_right _ _ _ _ _ (by norm_num) (by norm_num),
    round_left _ _ _ (by norm_num), round_right _ _ _ (by norm_num),
    round_left _ _ _ (by norm_num), round_right _ _ _ (by norm_num),
    round_left _ _ _ (by norm_num), round_right _ _ _ (by norm_num),
    round_left _ _ _ (by norm_num), rally_right 80 400 _ _ _ (by norm_num) (by norm_num), h2,
    rally_tick, rally_scoring_win _ _ _ _ _ (by norm_num) (by norm_num)]
  norm_num

theorem leftExitState_eq : leftExitState = rally 0 (-5) 1 0 0 := by
  have h : holdDown 161 = holdDown (44 + 36 + 1 + 80) := rfl
  have h1 : (620 : ℚ) + 5 * ((36 : ℕ) : ℚ) = 800 := by norm_num
  have h2 : (400 : ℚ) - 5 * ((80 : ℕ) : ℚ) = 0 := by norm_num
  unfold leftExitState
  rw [h]
  simp only [holdDown_add, ← List.cons_append, runTicks_append, holdDown_one]
  rw [opening_run, rally_right 36 620 0 0 0 (by norm_num) (by norm_num), h1, rally_tick,
    rally_scoring_right _ _ _ _ _ (by norm_num) (by norm_num),
    rally_left 80 400 _ _ _ (by norm_num) (by norm_num), h2]
  norm_num

/-- The match of `matchTrace` ends on the WINNER screen, player 1 having won. -/
theorem wonState_won : wonState.currentScreen = SCREEN_WINNER ∧ wonState.winner = 1 := by
  rw [wonState_eq]
  exact ⟨rfl, rfl⟩

theorem servedState_reachable : Reachable ratLib servedState :=
  Reachable.tick spaceKey flatServe menuState menuState_reachable

theorem leftExitState_reachable : Reachable ratLib leftExitState :=
  pong_runTicks_reachable ratLib _ menuState menuState_reachable

/-- The polynomial `cosf` of `ratLib` is positive on the sixty serve angles. -/
theorem ratLib_cos_pos (n : Int) (h1 : -30 ≤ n) (h2 : n < 30) :
    0 < ratLib.cosf ((n : ℚ) * ratLib.DEG2RAD) := by
  have hb : ((n : ℚ) * ratLib.DEG2RAD) ^ 2 < 1 := by
    have hn1 : (-30 : ℚ) ≤ (n : ℚ) := by exact_mod_cast h1
    have hn2 : (n : ℚ) ≤ 30 := by exact_mod_cast (le_of_lt h2)
    have hd : ratLib.DEG2RAD = 314159265358979323846 / 100000000000000000000 / 180 := rfl
    rw [hd]
    nlinarith
  have h4 : 0 ≤ ((n : ℚ) * ratLib.DEG2RAD) ^ 4 := by positivity
  show 0 < 1 - ((n : ℚ) * ratLib.DEG2RAD) ^ 2 / 2 + ((n : ℚ) * ratLib.DEG2RAD) ^ 4 / 24
  linarith

/-- The real cosine is positive on the sixty serve angles, `DEG2RAD` being
raylib's `PI / 180` with `PI = 3.14159265358979323846`. -/
theorem real_cos_serve_pos (n : Int) (h1 : -30 ≤ n) (h2 : n < 30) :
    0 < Real.cos ((n : ℝ) * (3.14159265358979323846 / 180)) := by
  have hn1 : (-30 : ℝ) ≤ (n : ℝ) := by exact_mod_cast h1
  have hn2 : (n : ℝ) ≤ 30 := by exact_mod_cast (le_of_lt h2)
  have hpi := Real.pi_gt_three
  apply Real.cos_pos_of_mem_Ioo
  constructor
  · linarith
  · linarith


theorem C5_phase_machine_witness :
    servedState.player1Score < WINNING_SCORE ∧ servedState.player2Score < WINNING_SCORE ∧
      ((UpdateGame ratLib sDownKeys flatServe servedState).currentScreen = SCREEN_WINNER ↔
        (UpdateGame ratLib sDownKeys flatServe servedState).player1Score = WINNING_SCORE ∨
          (UpdateGame ratLib sDownKeys flatServe servedState).player2Score = WINNING_SCORE) :=
  (C5_phase_machine ratLib sDownKeys flatServe servedState).2.2.2.2 servedState_reachable
    (by decide!)

section
variable {F : Type} [LinearOrderedField F]

/-- C10 (scoring). On a GAME tick, `b` being the state after movement and
bounces: if `b.ball.position.x < 0` then `player2Score` grows by exactly 1,
`player1Score` is unchanged, and if the new `player2Score` reaches
`WINNING_SCORE` then `winner = 2` and `currentScreen = SCREEN_WINNER`;
symmetrically for `b.ball.position.x > SCREEN_WIDTH` and player 1; if neither
edge is crossed both scores are unchanged. -/
theorem C10_scoring (lib : Lib F) (k : Keys) (rnd : Nat → Nat) (g : Game F)
    (hg : g.currentScreen = SCREEN_GAME) :
    ((beforeScoring lib k g).ball.position.x < 0 →
        (UpdateGame lib k rnd g).player2Score = g.player2Score + 1 ∧
          (UpdateGame lib k rnd g).player1Score = g.player1Score ∧
          ((UpdateGame lib k rnd g).player2Score ≥ WINNING_SCORE →
            (UpdateGame lib k rnd g).winner = 2 ∧
              (UpdateGame lib k rnd g).currentScreen = SCREEN_WINNER)) ∧
      ((beforeScoring lib k g).ball.position.x > (SCREEN_WIDTH : F) →
        (UpdateGame lib k rnd g).player1Score = g.player1Score + 1 ∧
          (UpdateGame lib k rnd g).player2Score = g.player2Score ∧
          ((UpdateGame lib k rnd g).player1Score ≥ WINNING_SCORE →
            (UpdateGame lib k rnd g).winner = 1 ∧
              (UpdateGame lib k rnd g).currentScreen = SCREEN_WINNER)) ∧
      (¬ (beforeScoring lib k g).ball.position.x < 0 →
        ¬ (beforeScoring lib k g).ball.position.x > (SCREEN_WIDTH : F) →
        (UpdateGame lib k rnd g).player1Score = g.player1Score ∧
          (UpdateGame lib k rnd g).player2Score = g.player2Score) := by
  obtain ⟨h2, h1, hw, hs⟩ := scoring_fields lib rnd (beforeScoring lib k g)
  obtain ⟨b1, b2, b3, b4⟩ := beforeScoring_board lib k g
  have hwd : (SCREEN_WIDTH : F) = 800 := by simp [SCREEN_WIDTH]
  rw [UpdateGame_game lib k rnd g hg, h1, h2, hw, hs, b1, b2]
  refine ⟨?_, ?_, ?_⟩
  · intro hx
    have hx' : ¬ (beforeScoring lib k g).ball.position.x > (SCREEN_WIDTH : F) := by
      rw [hwd]; intro h; linarith
    simp only [hx, hx', if_true, if_false, false_and, true_and, and_true]
    intro h5
    simp only [h5, if_true, and_self]
  · intro hx
    have hx' : ¬ (beforeScoring lib k g).ball.position.x < 0 := by
      rw [hwd] at hx; intro h; linarith
    simp only [hx, hx', if_true, if_false, true_and, and_true]
    intro h5
    simp only [h5, if_true, and_self]
  · intro hx hx'
    simp only [hx, hx', if_false, and_self]

end

theorem C10_scoring_witness :
    (UpdateGame ratLib sDownKeys flatServe matchPoint).player1Score = matchPoint.player1Score + 1 ∧
      (UpdateGame ratLib sDownKeys flatServe matchPoint).player2Score = matchPoint.player2Score ∧
      ((UpdateGame ratLib sDownKeys flatServe matchPoint).player1Score ≥ WINNING_SCORE →
        (UpdateGame ratLib sDownKeys flatServe matchPoint).winner = 1 ∧
          (UpdateGame ratLib sDownKeys flatServe matchPoint).currentScreen = SCREEN_WINNER) :=
  (C10_scoring ratLib sDownKeys flatServe matchPoint (by decide!)).2.1 (by decide!)


/-- C8, counterexample. `wonState` is a reachable WINNER state (player 1 has
won 5-4) and `menuState` a reachable MENU state; pressing SPACE with the same
random draw leaves `winner = 1` in the first and `winner = 0` in the second. -/
theorem C8_counterexample :
    Reachable ratLib wonState ∧ wonState.currentScreen = SCREEN_WINNER ∧
      Reachable ratLib menuState ∧ menuState.currentScreen = SCREEN_MENU ∧
      (UpdateGame ratLib spaceKey flatServe wonState).winner = 1 ∧
      (UpdateGame ratLib spaceKey flatServe menuState).winner = 0 := by
  refine ⟨wonState_reachable, wonState_won.1, menuState_reachable, by decide!, ?_, by decide!⟩
  rw [UpdateGame_restart_winner ratLib spaceKey flatServe wonState
    (by rw [wonState_won.1]; decide) (by decide)]
  exact wonState_won.2

section
variable {F : Type} [LinearOrderedField F]

/-- C8, amended. From any reachable WINNER state `g`, pressing SPACE yields
the state that a fresh MENU -> GAME transition (SPACE in a reachable MENU
state `m`) yields with the same random draw, in `currentScreen`, both paddles,
both scores and the ball; `winner` is not reset: it keeps the value 1 or 2 of
the finished game, whereas it is 0 after the fresh transition. -/
theorem C8_full_reset_amended (lib : Lib F) (k : Keys) (rnd : Nat → Nat) (g m : Game F)
    (hg : Reachable lib g) (hgs : g.currentScreen = SCREEN_WINNER) (hm : Reachable lib m)
    (hms : m.currentScreen = SCREEN_MENU) (hk : k.space = true) :
    UpdateGame lib k rnd g = { UpdateGame lib k rnd m with winner := g.winner } ∧
      (UpdateGame lib k rnd g).currentScreen = SCREEN_GAME ∧
      (g.winner = 1 ∨ g.winner = 2) ∧ (UpdateGame lib k rnd m).winner = 0 := by
  have hug := UpdateGame_restart lib k rnd g (by rw [hgs]; exact fun h => GameScreen.noConfusion h) hk
  have hum := UpdateGame_restart lib k rnd m (by rw [hms]; exact fun h => GameScreen.noConfusion h) hk
  refine ⟨?_, ?_, hg.pongInv.won hgs, ?_⟩
  · rw [hug, hum]
    exact InitGame_eq lib rnd _ _
  · rw [hug]; rfl
  · rw [hum]
    exact hm.pongInv.menu hms

/-- C9, amended. On a GAME tick, `b` being the state after movement and
bounces, and `cosf` being positive on the sixty serve angles `n * DEG2RAD`,
`-30 ≤ n < 30`: if `b.ball.position.x < 0` and player 2's incremented score is
below `WINNING_SCORE`, the ball respawns at (400, 300) with `velocity.x > 0`,
towards the right player, who scored; if `b.ball.position.x > SCREEN_WIDTH`
and player 1's incremented score is below `WINNING_SCORE`, it respawns at
(400, 300) with `velocity.x < 0`, towards the left player, who scored. -/
theorem C9_serve_amended (lib : Lib F) (k : Keys) (rnd : Nat → Nat) (g : Game F)
    (hcos : ∀ n : Int, -30 ≤ n → n < 30 → 0 < lib.cosf ((n : F) * lib.DEG2RAD))
    (hg : g.currentScreen = SCREEN_GAME) :
    ((beforeScoring lib k g).ball.position.x < 0 → g.player2Score + 1 < WINNING_SCORE →
        (UpdateGame lib k rnd g).ball.position = ⟨400, 300⟩ ∧
          (UpdateGame lib k rnd g).ball.velocity.x > 0) ∧
      ((beforeScoring lib k g).ball.position.x > (SCREEN_WIDTH : F) →
        g.player1Score + 1 < WINNING_SCORE →
        (UpdateGame lib k rnd g).ball.position = ⟨400, 300⟩ ∧
          (UpdateGame lib k rnd g).ball.velocity.x < 0) := by
  obtain ⟨b1, b2, -, -⟩ := beforeScoring_board lib k g
  have hwd : (SCREEN_WIDTH : F) = 800 := by simp [SCREEN_WIDTH]
  have h5 : (0 : F) < BALL_SPEED_START := by unfold BALL_SPEED_START; norm_num
  rw [UpdateGame_game lib k rnd g hg]
  generalize beforeScoring lib k g = b at b1 b2 ⊢
  constructor
  · intro hx hlt
    have hw : ¬ b.player2Score + 1 ≥ WINNING_SCORE := by rw [b2]; omega
    have hl : scoreLeft lib rnd b =
        ResetBall lib 1 rnd { b with player2Score := b.player2Score + 1 } := by
      unfold scoreLeft
      simp only [hx, hw, if_true, if_false]
    have hpos := (ResetBall_fields lib 1 rnd { b with player2Score := b.player2Score + 1 }).2.2.2.2.2.2
    have hr : scoreRight lib (scoreLeft lib rnd b).2 (scoreLeft lib rnd b).1 =
        ((scoreLeft lib rnd b).1, (scoreLeft lib rnd b).2) := by
      unfold scoreRight
      have : ¬ (scoreLeft lib rnd b).1.ball.position.x > (SCREEN_WIDTH : F) := by
        rw [hl, hpos, hwd]; norm_num
      simp only [this, if_false]
    unfold scoring
    dsimp only
    rw [hr, hl]
    refine ⟨hpos, ?_⟩
    obtain ⟨n, hn1, hn2, hv⟩ :=
      ResetBall_velocity_x lib 1 rnd { b with player2Score := b.player2Score + 1 }
    rw [hv]
    have := hcos n hn1 hn2
    simp only [Int.cast_one, mul_one]
    positivity
  · intro hx hlt
    have hw : ¬ b.player1Score + 1 ≥ WINNING_SCORE := by rw [b1]; omega
    have hx0 : ¬ b.ball.position.x < 0 := by
      rw [hwd] at hx; intro h; linarith
    have hl : scoreLeft lib rnd b = (b, rnd) := by
      unfold scoreLeft
      simp only [hx0, if_false]
    have hr : scoreRight lib rnd b =
        ResetBall lib (-1) rnd { b with player1Score := b.player1Score + 1 } := by
      unfold scoreRight
      simp only [hx, hw, if_true, if_false]
    unfold scoring
    dsimp only
    rw [hl, hr]
    refine ⟨(ResetBall_fields lib (-1) rnd _).2.2.2.2.2.2, ?_⟩
    obtain ⟨n, hn1, hn2, hv⟩ :=
      ResetBall_velocity_x lib (-1) rnd { b with player1Score := b.player1Score + 1 }
    rw [hv]
    have := hcos n hn1 hn2
    simp only [Int.cast_neg, Int.cast_one, mul_neg, mul_one, neg_neg_iff_pos]
    positivity

end

/-- C9, counterexample. In the reachable GAME state `leftExitState` the ball
crosses the left edge while player 2's incremented score is 1; the ball
respawns at (400, 300) with `velocity.x = 5`, which is not negative: the serve
goes to the right. -/
theorem C9_counterexample :
    Reachable ratLib leftExitState ∧
      (leftExitState.currentScreen = SCREEN_GAME ∧
        (beforeScoring ratLib sDownKeys leftExitState).ball.position.x < 0 ∧
        leftExitState.player2Score + 1 < WINNING_SCORE ∧
        (UpdateGame ratLib sDownKeys flatServe leftExitState).ball.position = ⟨400, 300⟩ ∧
        (UpdateGame ratLib sDownKeys flatServe leftExitState).ball.velocity.x = 5 ∧
        ¬ (UpdateGame ratLib sDownKeys flatServe leftExitState).ball.velocity.x < 0) :=
  ⟨leftExitState_reachable, by rw [leftExitState_eq]; decide!⟩

theorem C9_serve_amended_witness :
    (UpdateGame ratLib sDownKeys flatServe leftExitState).ball.position = ⟨400, 300⟩ ∧
      (UpdateGame ratLib sDownKeys flatServe leftExitState).ball.velocity.x > 0 :=
  (C9_serve_amended ratLib sDownKeys flatServe leftExitState ratLib_cos_pos
    (by rw [leftExitState_eq]; decide!)).1
    (by rw [leftExitState_eq]; decide!) (by rw [leftExitState_eq]; decide!)

theorem C8_full_reset_amended_witness :
    UpdateGame ratLib spaceKey flatServe wonState =
        { UpdateGame ratLib spaceKey flatServe menuState with winner := wonState.winner } ∧
      (UpdateGame ratLib spaceKey flatServe wonState).currentScreen = SCREEN_GAME ∧
      (wonState.winner = 1 ∨ wonState.winner = 2) ∧
      (UpdateGame ratLib spaceKey flatServe menuState).winner = 0 :=
  C8_full_reset_amended ratLib spaceKey flatServe wonState menuState wonState_reachable
    wonState_won.1 menuState_reachable (by decide!) (by decide)


section
variable {F : Type} [LinearOrderedField F]

theorem beforeScoring_eq (lib : Lib F) (k : Keys) (g : Game F) :
    beforeScoring lib k g = rightPaddleHit lib (beforeRightHit lib k g) :=
  rfl

theorem clampPaddle_bounds (p : Paddle F) :
    0 ≤ (clampPaddle p).position.y ∧ (clampPaddle p).position.y ≤ 520 ∧
      (clampPaddle p).position.x = p.position.x ∧ (clampPaddle p).speed = p.speed := by
  unfold clampPaddle
  simp only [Paddle.setY, PADDLE_HEIGHT, SCREEN_HEIGHT]
  push_cast
  split_ifs with h1 h2 h2
  · norm_num
  · norm_num at h2 ⊢
  · norm_num
  · simp only [not_lt] at h1 h2
    refine ⟨h1, ?_, rfl, rfl⟩
    linarith

theorem movePaddles_fields (k : Keys) (g : Game F) :
    (movePaddles k g).ball = g.ball ∧
      (movePaddles k g).leftPaddle.position.x = g.leftPaddle.position.x ∧
      (movePaddles k g).rightPaddle.position.x = g.rightPaddle.position.x := by
  unfold movePaddles
  dsimp only
  split_ifs <;> exact ⟨rfl, rfl, rfl⟩

theorem wallBounce_fields (g : Game F) :
    (wallBounce g).leftPaddle = g.leftPaddle ∧ (wallBounce g).rightPaddle = g.rightPaddle ∧
      (wallBounce g).ball.radius = g.ball.radius ∧
      (wallBounce g).ball.position.x = g.ball.position.x ∧
      (wallBounce g).ball.velocity.x = g.ball.velocity.x := by
  unfold wallBounce
  dsimp only
  split_ifs <;> exact ⟨rfl, rfl, rfl, rfl, rfl⟩

theorem leftPaddleHit_fields (lib : Lib F) (g : Game F) :
    (leftPaddleHit lib g).leftPaddle = g.leftPaddle ∧
      (leftPaddleHit lib g).rightPaddle = g.rightPaddle ∧
      (leftPaddleHit lib g).ball.radius = g.ball.radius ∧
      (leftPaddleHit lib g).ball.position.y = g.ball.position.y := by
  unfold leftPaddleHit
  dsimp only
  split_ifs <;> exact ⟨rfl, rfl, rfl, rfl⟩

theorem rightPaddleHit_fields (lib : Lib F) (g : Game F) :
    (rightPaddleHit lib g).leftPaddle = g.leftPaddle ∧
      (rightPaddleHit lib g).rightPaddle = g.rightPaddle ∧
      (rightPaddleHit lib g).ball.radius = g.ball.radius ∧
      (rightPaddleHit lib g).ball.position.y = g.ball.position.y := by
  unfold rightPaddleHit
  dsimp only
  split_ifs <;> exact ⟨rfl, rfl, rfl, rfl⟩

/-- The paddles after the stages before the scoring tests are the clamped
paddles. -/
theorem beforeScoring_paddles (lib : Lib F) (k : Keys) (g : Game F) :
    (beforeScoring lib k g).leftPaddle = clampPaddle (movePaddles k g).leftPaddle ∧
      (beforeScoring lib k g).rightPaddle = clampPaddle (movePaddles k g).rightPaddle := by
  unfold beforeScoring
  obtain ⟨r1, r2, -, -⟩ := rightPaddleHit_fields lib
    (leftPaddleHit lib (wallBounce (moveBall (clampPaddles (movePaddles k g)))))
  obtain ⟨l1, l2, -, -⟩ := leftPaddleHit_fields lib
    (wallBounce (moveBall (clampPaddles (movePaddles k g))))
  obtain ⟨w1, w2, -, -, -⟩ := wallBounce_fields (moveBall (clampPaddles (movePaddles k g)))
  rw [r1, r2, l1, l2, w1, w2]
  exact ⟨rfl, rfl⟩

theorem scoring_paddles (lib : Lib F) (rnd : Nat → Nat) (b : Game F) :
    (scoring lib rnd b).leftPaddle = b.leftPaddle ∧
      (scoring lib rnd b).rightPaddle = b.rightPaddle := by
  unfold scoring scoreRight scoreLeft
  dsimp only
  split_ifs <;> exact ⟨rfl, rfl⟩

/-- C17 (paddle clamp). After every GAME tick, for every previous state (so
for every previous `position.y` and paddle speed) and every combination of
held keys, both paddles satisfy `0 ≤ position.y ≤ SCREEN_HEIGHT -
PADDLE_HEIGHT = 520`. -/
theorem C17_paddle_clamp (lib : Lib F) (k : Keys) (rnd : Nat → Nat) (g : Game F)
    (hg : g.currentScreen = SCREEN_GAME) :
    (0 ≤ (UpdateGame lib k rnd g).leftPaddle.position.y ∧
        (UpdateGame lib k rnd g).leftPaddle.position.y ≤ ((SCREEN_HEIGHT - PADDLE_HEIGHT : Int) : F)) ∧
      (0 ≤ (UpdateGame lib k rnd g).rightPaddle.position.y ∧
        (UpdateGame lib k rnd g).rightPaddle.position.y ≤
          ((SCREEN_HEIGHT - PADDLE_HEIGHT : Int) : F)) ∧
      ((SCREEN_HEIGHT - PADDLE_HEIGHT : Int) : F) = 520 := by
  have h520 : ((SCREEN_HEIGHT - PADDLE_HEIGHT : Int) : F) = 520 := by
    simp only [SCREEN_HEIGHT, PADDLE_HEIGHT]
    norm_num
  obtain ⟨s1, s2⟩ := scoring_paddles lib rnd (beforeScoring lib k g)
  obtain ⟨b1, b2⟩ := beforeScoring_paddles lib k g
  obtain ⟨l1, l2, -, -⟩ := clampPaddle_bounds (movePaddles k g).leftPaddle
  obtain ⟨r1, r2, -, -⟩ := clampPaddle_bounds (movePaddles k g).rightPaddle
  rw [UpdateGame_game lib k rnd g hg, s1, s2, b1, b2, h520]
  exact ⟨⟨l1, l2⟩, ⟨r1, r2⟩, rfl⟩

end

theorem C17_paddle_clamp_witness :
    (0 ≤ (UpdateGame ratLib sDownKeys flatServe matchPoint).leftPaddle.position.y ∧
        (UpdateGame ratLib sDownKeys flatServe matchPoint).leftPaddle.position.y ≤
          ((SCREEN_HEIGHT - PADDLE_HEIGHT : Int) : ℚ)) ∧
      (0 ≤ (UpdateGame ratLib sDownKeys flatServe matchPoint).rightPaddle.position.y ∧
        (UpdateGame ratLib sDownKeys flatServe matchPoint).rightPaddle.position.y ≤
          ((SCREEN_HEIGHT - PADDLE_HEIGHT : Int) : ℚ)) ∧
      ((SCREEN_HEIGHT - PADDLE_HEIGHT : Int) : ℚ) = 520 :=
  C17_paddle_clamp ratLib sDownKeys flatServe matchPoint (by decide!)


section
variable {F : Type} [LinearOrderedField F]

theorem screenHeight_cast : ((SCREEN_HEIGHT : Int) : F) = 600 := by
  simp [SCREEN_HEIGHT]

/-- The wall stage when the test of lines 216-217 fails. -/
theorem wallBounce_idle (g : Game F) (h1 : ¬ touchesTop g) (h2 : ¬ touchesBottom g) :
    wallBounce g = g := by
  unfold wallBounce
  rw [if_neg]
  rintro (h | h)
  · exact h1 h
  · exact h2 h

/-- The wall stage at the top wall, for a ball of radius 8. -/
theorem wallBounce_top (g : Game F) (hr : g.ball.radius = 8) (h : touchesTop g) :
    (wallBounce g).ball.velocity.y = -g.ball.velocity.y ∧
      (wallBounce g).ball.position.y = g.ball.radius := by
  unfold touchesTop at h
  rw [hr] at h
  unfold wallBounce
  rw [if_pos (Or.inl (by rw [hr]; exact h))]
  simp only [hr, screenHeight_cast]
  by_cases hlt : g.ball.position.y - 8 < 0
  · rw [if_pos hlt]
    simp only []
    rw [if_neg (by norm_num)]
    exact ⟨rfl, rfl⟩
  · rw [if_neg hlt]
    simp only []
    have hy : g.ball.position.y = 8 := by linarith [not_lt.1 hlt]
    rw [if_neg (by rw [hy]; norm_num)]
    exact ⟨rfl, hy⟩

/-- The wall stage at the bottom wall, for a ball of radius 8. -/
theorem wallBounce_bottom (g : Game F) (hr : g.ball.radius = 8) (h : touchesBottom g) :
    (wallBounce g).ball.velocity.y = -g.ball.velocity.y ∧
      (wallBounce g).ball.position.y = (SCREEN_HEIGHT : F) - g.ball.radius := by
  unfold touchesBottom at h
  rw [hr, screenHeight_cast] at h
  unfold wallBounce
  rw [if_pos (Or.inr (by rw [hr, screenHeight_cast]; exact h))]
  simp only [hr, screenHeight_cast]
  have hlt : ¬ g.ball.position.y - 8 < 0 := by
    intro hh; linarith
  rw [if_neg hlt]
  simp only []
  by_cases hgt : g.ball.position.y + 8 > 600
  · rw [if_pos hgt]
    exact ⟨rfl, rfl⟩
  · rw [if_neg hgt]
    have hy : g.ball.position.y = 592 := by linarith [not_lt.1 hgt]
    refine ⟨rfl, ?_⟩
    rw [hy]; norm_num

/-- After the wall stage a ball of radius 8 is between the walls. -/
theorem wallBounce_box (g : Game F) (hr : g.ball.radius = 8) :
    8 ≤ (wallBounce g).ball.position.y ∧ (wallBounce g).ball.position.y ≤ 592 := by
  by_cases ht : touchesTop g
  · rw [(wallBounce_top g hr ht).2, hr]
    norm_num
  · by_cases hb : touchesBottom g
    · rw [(wallBounce_bottom g hr hb).2, hr, screenHeight_cast]
      norm_num
    · rw [wallBounce_idle g ht hb]
      unfold touchesTop at ht
      unfold touchesBottom at hb
      rw [hr] at ht hb
      rw [screenHeight_cast] at hb
      constructor
      · linarith [not_le.1 ht]
      · linarith [not_le.1 hb]

theorem InitGame_geometry (lib : Lib F) (rnd : Nat → Nat) (g : Game F) :
    Geometry (InitGame lib rnd g).1 := by
  refine ⟨rfl, ?_, ?_, rfl, ?_⟩
  · simp only [InitGame, ResetBall, SCREEN_HEIGHT]; norm_num
  · simp only [InitGame, ResetBall, SCREEN_HEIGHT]; norm_num
  · simp only [InitGame, ResetBall, SCREEN_WIDTH, PADDLE_WIDTH]; norm_num

theorem ResetBall_geometry (lib : Lib F) (d : Int) (rnd : Nat → Nat) (g : Game F)
    (hl : g.leftPaddle.position.x = 30) (hr : g.rightPaddle.position.x = 755) :
    Geometry (ResetBall lib d rnd g).1 := by
  refine ⟨rfl, ?_, ?_, hl, hr⟩
  · simp only [ResetBall, SCREEN_HEIGHT]; norm_num
  · simp only [ResetBall, SCREEN_HEIGHT]; norm_num

theorem scoring_geometry (lib : Lib F) (rnd : Nat → Nat) (b : Game F) (h : Geometry b) :
    Geometry (scoring lib rnd b) := by
  have key : ∀ (c : Game F) (r : Nat → Nat), Geometry c → Geometry (scoreRight lib r c).1 := by
    intro c r hc
    unfold scoreRight
    dsimp only
    split_ifs
    · exact ⟨hc.radius, hc.top, hc.bottom, hc.left, hc.right⟩
    · exact ResetBall_geometry lib _ r _ hc.left hc.right
    · exact hc
  unfold scoring
  dsimp only
  apply key
  unfold scoreLeft
  dsimp only
  split_ifs
  · exact ⟨h.radius, h.top, h.bottom, h.left, h.right⟩
  · exact ResetBall_geometry lib _ rnd _ h.left h.right
  · exact h

theorem beforeWall_fields (k : Keys) (g : Game F) :
    (beforeWall k g).ball.radius = g.ball.radius ∧
      (beforeWall k g).ball.velocity = g.ball.velocity ∧
      (beforeWall k g).ball.position.y = g.ball.position.y + g.ball.velocity.y ∧
      (beforeWall k g).ball.position.x = g.ball.position.x + g.ball.velocity.x ∧
      (beforeWall k g).leftPaddle.position.x = g.leftPaddle.position.x ∧
      (beforeWall k g).rightPaddle.position.x = g.rightPaddle.position.x := by
  obtain ⟨m1, m2, m3⟩ := movePaddles_fields k g
  obtain ⟨-, -, l3, -⟩ := clampPaddle_bounds (movePaddles k g).leftPaddle
  obtain ⟨-, -, r3, -⟩ := clampPaddle_bounds (movePaddles k g).rightPaddle
  unfold beforeWall moveBall clampPaddles
  dsimp only
  rw [m1, l3, r3, m2, m3]
  exact ⟨rfl, rfl, rfl, rfl, rfl, rfl⟩

theorem beforeScoring_geometry (lib : Lib F) (k : Keys) (g : Game F) (h : Geometry g) :
    Geometry (beforeScoring lib k g) := by
  obtain ⟨b1, -, -, -, b5, b6⟩ := beforeWall_fields k g
  have hr : (beforeWall k g).ball.radius = 8 := by rw [b1]; exact h.radius
  obtain ⟨hbox1, hbox2⟩ := wallBounce_box (beforeWall k g) hr
  obtain ⟨w1, w2, w3, -, -⟩ := wallBounce_fields (beforeWall k g)
  obtain ⟨l1, l2, l3, l4⟩ := leftPaddleHit_fields lib (wallBounce (beforeWall k g))
  obtain ⟨r1, r2, r3, r4⟩ :=
    rightPaddleHit_fields lib (leftPaddleHit lib (wallBounce (beforeWall k g)))
  have he : beforeScoring lib k g =
      rightPaddleHit lib (leftPaddleHit lib (wallBounce (beforeWall k g))) := rfl
  rw [he]
  refine ⟨?_, ?_, ?_, ?_, ?_⟩
  · rw [r3, l3, w3]; exact hr
  · rw [r4, l4]; exact hbox1
  · rw [r4, l4]; exact hbox2
  · rw [r1, l1, w1, b5]; exact h.left
  · rw [r2, l2, w2, b6]; exact h.right

theorem Reachable.geometry {lib : Lib F} {g : Game F} (h : Reachable lib g) : Geometry g := by
  induction h with
  | init rnd => exact InitGame_geometry lib rnd _
  | tick k rnd g _ ih =>
    unfold UpdateGame
    split
    · split
      · exact InitGame_geometry lib rnd _
      · exact ih
    · exact scoring_geometry lib rnd _ (beforeScoring_geometry lib k g ih)
    · split
      · exact InitGame_geometry lib rnd _
      · exact ih

end


section
variable {F : Type} [LinearOrderedField F]

/-- No overlap with a paddle whose right edge is more than 8 to the left of the
centre of the ball. -/
theorem overlap_far_left (x y px py : F) (h : px + 15 + 8 < x) :
    circleRecOverlap (⟨x, y⟩ : Vector2 F) 8 ⟨px, py, (PADDLE_WIDTH : F), (PADDLE_HEIGHT : F)⟩ =
      false := by
  unfold circleRecOverlap
  simp only [decide_eq_false_iff_not, not_le, PADDLE_HEIGHT, PADDLE_WIDTH]
  push_cast
  have h1 : max px (min x (px + 15)) = px + 15 := by
    rw [min_eq_right (by linarith), max_eq_right (by linarith)]
  rw [h1]
  nlinarith [mul_self_nonneg (y - max py (min y (py + 80))), mul_pos (show (0 : F) < x - (px + 15) - 8 by linarith) (show (0 : F) < x - (px + 15) + 8 by linarith)]

/-- No overlap with a paddle whose left edge is more than 8 to the right of the
centre of the ball. -/
theorem overlap_far_right (x y px py : F) (h : x + 8 < px) :
    circleRecOverlap (⟨x, y⟩ : Vector2 F) 8 ⟨px, py, (PADDLE_WIDTH : F), (PADDLE_HEIGHT : F)⟩ =
      false := by
  unfold circleRecOverlap
  simp only [decide_eq_false_iff_not, not_le, PADDLE_HEIGHT, PADDLE_WIDTH]
  push_cast
  have h1 : max px (min x (px + 15)) = px := by
    rw [min_eq_left (by linarith), max_eq_left (by linarith)]
  rw [h1]
  nlinarith [mul_self_nonneg (y - max py (min y (py + 80))), mul_pos (show (0 : F) < px - x - 8 by linarith) (show (0 : F) < px - x + 8 by linarith)]

theorem approach_beforeLeftHit (x ly ry : F) (hl0 : 0 ≤ ly) (hl1 : ly ≤ 520) (hr0 : 0 ≤ ry)
    (hr1 : ry ≤ 520) : beforeLeftHit noKeys (approach x ly ry) = approach (x + 5) ly ry := by
  have hm : movePaddles noKeys (approach x ly ry) = approach x ly ry := by
    simp [movePaddles, noKeys]
  have hcl : clampPaddle (⟨⟨30, ly⟩, 6⟩ : Paddle F) = ⟨⟨30, ly⟩, 6⟩ := by
    unfold clampPaddle
    simp only [Paddle.setY, PADDLE_HEIGHT, SCREEN_HEIGHT]
    push_cast
    rw [if_neg (not_lt.2 hl0), if_neg (by simp only [not_lt, gt_iff_lt]; linarith)]
  have hcr : clampPaddle (⟨⟨755, ry⟩, 6⟩ : Paddle F) = ⟨⟨755, ry⟩, 6⟩ := by
    unfold clampPaddle
    simp only [Paddle.setY, PADDLE_HEIGHT, SCREEN_HEIGHT]
    push_cast
    rw [if_neg (not_lt.2 hr0), if_neg (by simp only [not_lt, gt_iff_lt]; linarith)]
  have hc : clampPaddles (approach x ly ry) = approach x ly ry := by
    simp only [clampPaddles, approach, hcl, hcr]
  have hb : moveBall (approach x ly ry) = approach (x + 5) ly ry := by
    simp [moveBall, approach]
  have hw : wallBounce (approach (x + 5) ly ry) = approach (x + 5) ly ry := by
    apply wallBounce_idle
    · simp only [touchesTop, approach]; norm_num
    · simp only [touchesBottom, approach, SCREEN_HEIGHT]; norm_num
  unfold beforeLeftHit beforeWall
  rw [hm, hc, hb, hw]

theorem approach_beforeRightHit (lib : Lib F) (hlib : ExactAtZero lib) (x ly ry : F)
    (hl0 : 0 ≤ ly) (hl1 : ly ≤ 520) (hr0 : 0 ≤ ry) (hr1 : ry ≤ 520) (hx : 53 < x + 5) :
    beforeRightHit lib noKeys (approach x ly ry) = approach (x + 5) ly ry := by
  unfold beforeRightHit
  rw [approach_beforeLeftHit x ly ry hl0 hl1 hr0 hr1]
  unfold leftPaddleHit
  have := overlap_far_left (x + 5) 300 30 ly (by linarith)
  simp only [approach, hlib.overlap, this]
  simp

theorem approach_beforeScoring (lib : Lib F) (hlib : ExactAtZero lib) (x ly ry : F)
    (hl0 : 0 ≤ ly) (hl1 : ly ≤ 520) (hr0 : 0 ≤ ry) (hr1 : ry ≤ 520) (hx : 53 < x + 5)
    (hx' : x + 5 < 747) : beforeScoring lib noKeys (approach x ly ry) = approach (x + 5) ly ry := by
  rw [beforeScoring_eq, approach_beforeRightHit lib hlib x ly ry hl0 hl1 hr0 hr1 hx]
  unfold rightPaddleHit
  have := overlap_far_right (x + 5) 300 755 ry (by linarith)
  simp only [approach, hlib.overlap, this]
  simp

theorem approach_tick (lib : Lib F) (hlib : ExactAtZero lib) (rnd : Nat → Nat) (x ly ry : F)
    (hl0 : 0 ≤ ly) (hl1 : ly ≤ 520) (hr0 : 0 ≤ ry) (hr1 : ry ≤ 520) (hx : 53 < x + 5)
    (hx' : x + 5 < 747) : UpdateGame lib noKeys rnd (approach x ly ry) = approach (x + 5) ly ry := by
  rw [UpdateGame_game lib noKeys rnd _ rfl,
    approach_beforeScoring lib hlib x ly ry hl0 hl1 hr0 hr1 hx hx']
  have hx0 : ¬ x + 5 < 0 := by intro h; linarith
  have hx1 : ¬ x + 5 > 800 := by intro h; linarith
  simp [scoring, scoreLeft, scoreRight, approach, SCREEN_WIDTH, hx0, hx1]

/-- The serve flies `n` frames to the right between the paddle columns. -/
theorem approach_run (lib : Lib F) (hlib : ExactAtZero lib) (n : Nat) (x ly ry : F)
    (hl0 : 0 ≤ ly) (hl1 : ly ≤ 520) (hr0 : 0 ≤ ry) (hr1 : ry ≤ 520) (hx : 48 < x)
    (hx' : x + 5 * n < 747) :
    runTicks lib (coast n) (approach x ly ry) = approach (x + 5 * n) ly ry := by
  induction n generalizing x with
  | zero => simp [coast, runTicks]
  | succ n ih =>
    have hn : (0 : F) ≤ n := Nat.cast_nonneg n
    push_cast at hx'
    have hstep : runTicks lib (coast (n + 1)) (approach x ly ry) =
        runTicks lib (coast n) (UpdateGame lib noKeys flatServe (approach x ly ry)) := rfl
    rw [hstep, approach_tick lib hlib flatServe x ly ry hl0 hl1 hr0 hr1 (by linarith)
      (by linarith), ih (x + 5) (by linarith) (by linarith)]
    push_cast
    ring_nf

/-- SPACE on the menu with a horizontal serve. -/
theorem serve_flat (lib : Lib F) (hlib : ExactAtZero lib) (rnd : Nat → Nat) :
    UpdateGame lib spaceKey flatServe (InitGame lib rnd startGlobals).1 = approach 400 260 260 := by
  rw [UpdateGame_restart lib spaceKey flatServe _ (fun h => GameScreen.noConfusion h) rfl]
  simp only [InitGame, ResetBall, flatServe, approach, startGlobals, SCREEN_WIDTH, SCREEN_HEIGHT,
    PADDLE_WIDTH, PADDLE_HEIGHT, PADDLE_SPEED, BALL_RADIUS, BALL_SPEED_START]
  norm_num [hlib.cos_zero, hlib.sin_zero]

theorem approach_reachable (lib : Lib F) (hlib : ExactAtZero lib) (n : Nat) (hn : n ≤ 69) :
    Reachable lib (approach (400 + 5 * (n : F)) 260 260) := by
  have hn' : (n : F) ≤ 69 := by exact_mod_cast hn
  have h := pong_runTicks_reachable lib (coast n) _
    (Reachable.tick spaceKey flatServe _ (Reachable.init flatServe))
  rw [serve_flat lib hlib flatServe,
    approach_run lib hlib n 400 260 260 (by norm_num) (by norm_num) (by norm_num) (by norm_num)
      (by norm_num) (by linarith)] at h
  exact h

/-- One frame away from the right paddle the bounce fires. -/
theorem approach_fires (lib : Lib F) (hlib : ExactAtZero lib) (ry : F) (hr0 : 0 ≤ ry)
    (hr1 : ry ≤ 520) (h1 : ry ≤ 306) (h2 : 214 ≤ ry) :
    rightHitFires lib (beforeRightHit lib noKeys (approach 745 260 ry)) := by
  rw [approach_beforeRightHit lib hlib 745 260 ry (by norm_num) (by norm_num) hr0 hr1 (by norm_num)]
  have h750 : (745 : F) + 5 = 750 := by norm_num
  rw [h750]
  unfold rightHitFires
  refine ⟨?_, by simp only [approach]; norm_num⟩
  rw [hlib.overlap]
  unfold circleRecOverlap
  simp only [approach, decide_eq_true_eq, PADDLE_WIDTH, PADDLE_HEIGHT]
  push_cast
  have hx : max (755 : F) (min 750 (755 + 15)) = 755 := by norm_num
  rw [hx]
  have hy1 : (300 : F) - 6 ≤ max ry (min 300 (ry + 80)) := by
    apply le_max_of_le_right
    apply le_min <;> linarith
  have hy2 : max ry (min 300 (ry + 80)) ≤ 300 + 6 := by
    apply max_le
    · linarith
    · exact le_trans (min_le_left _ _) (by norm_num)
  generalize max ry (min 300 (ry + 80)) = m at hy1 hy2
  have hm := mul_nonneg (show (0 : F) ≤ 300 + 6 - m by linarith)
    (show (0 : F) ≤ m - (300 - 6) by linarith)
  have he : (750 - 755 : F) * (750 - 755) + (300 - m) * (300 - m) =
      8 * 8 - 3 - (300 + 6 - m) * (m - (300 - 6)) := by ring
  rw [he]
  linarith

end

theorem ratLib_exact : ExactAtZero ratLib := ⟨by decide!, by decide!, rfl⟩

theorem edgeState_eq : edgeState = approach 745 260 302 := by decide!

theorem edgeState_reachable : Reachable ratLib edgeState :=
  pong_runTicks_reachable ratLib _ _ menuState_reachable

theorem wallState_reachable : Reachable ratLib wallState :=
  pong_runTicks_reachable ratLib _ _ edgeState_reachable

/-- In `wallState` the match is on and the next integration step takes the
edge of the ball past the top wall. -/
theorem wallState_touches :
    wallState.currentScreen = SCREEN_GAME ∧ touchesTop (beforeWall noKeys wallState) := by
  unfold wallState touchesTop
  rw [edgeState_eq]
  decide!


section
variable {F : Type} [LinearOrderedField F]

/-- C18 (wall rule). On a GAME tick in a reachable state, `m` being the state
after integration and `w` the state after the wall stage: if the ball's edge
reaches the top (`y - radius ≤ 0`), `velocity.y` is negated, the negated
value is `≥ 0` and `position.y = radius`; if it reaches the bottom
(`y + radius ≥ SCREEN_HEIGHT`), `velocity.y` is negated, the negated value is
`≤ 0` and `position.y = SCREEN_HEIGHT - radius`; `velocity.x` and
`position.x` are never changed by the wall stage; after it
`radius ≤ position.y ≤ SCREEN_HEIGHT - radius` always holds; and if neither
wall is reached the wall stage changes nothing. -/
theorem C18_wall_rule (lib : Lib F) (k : Keys) (g : Game F) (hr : Reachable lib g)
    (_hg : g.currentScreen = SCREEN_GAME) :
    (touchesTop (beforeWall k g) →
        (beforeLeftHit k g).ball.velocity.y = -(beforeWall k g).ball.velocity.y ∧
          0 ≤ (beforeLeftHit k g).ball.velocity.y ∧
          (beforeLeftHit k g).ball.position.y = (beforeWall k g).ball.radius) ∧
      (touchesBottom (beforeWall k g) →
        (beforeLeftHit k g).ball.velocity.y = -(beforeWall k g).ball.velocity.y ∧
          (beforeLeftHit k g).ball.velocity.y ≤ 0 ∧
          (beforeLeftHit k g).ball.position.y =
            (SCREEN_HEIGHT : F) - (beforeWall k g).ball.radius) ∧
      (beforeLeftHit k g).ball.velocity.x = (beforeWall k g).ball.velocity.x ∧
      (beforeLeftHit k g).ball.position.x = (beforeWall k g).ball.position.x ∧
      ((beforeLeftHit k g).ball.radius ≤ (beforeLeftHit k g).ball.position.y ∧
        (beforeLeftHit k g).ball.position.y ≤
          (SCREEN_HEIGHT : F) - (beforeLeftHit k g).ball.radius) ∧
      (¬ touchesTop (beforeWall k g) → ¬ touchesBottom (beforeWall k g) →
        beforeLeftHit k g = beforeWall k g) := by
  have hgeo := hr.geometry
  obtain ⟨b1, b2, b3, -, -, -⟩ := beforeWall_fields k g
  have hrad : (beforeWall k g).ball.radius = 8 := by rw [b1]; exact hgeo.radius
  obtain ⟨-, -, w3, w4, w5⟩ := wallBounce_fields (beforeWall k g)
  obtain ⟨hbox1, hbox2⟩ := wallBounce_box (beforeWall k g) hrad
  have hvy : (beforeWall k g).ball.velocity.y = g.ball.velocity.y := by rw [b2]
  unfold beforeLeftHit
  refine ⟨?_, ?_, w5, w4, ?_, wallBounce_idle (beforeWall k g)⟩
  · intro ht
    obtain ⟨h1, h2⟩ := wallBounce_top (beforeWall k g) hrad ht
    refine ⟨h1, ?_, h2⟩
    rw [h1, hvy]
    unfold touchesTop at ht
    rw [hrad, b3] at ht
    linarith [hgeo.top]
  · intro hb
    obtain ⟨h1, h2⟩ := wallBounce_bottom (beforeWall k g) hrad hb
    refine ⟨h1, ?_, h2⟩
    rw [h1, hvy]
    unfold touchesBottom at hb
    rw [hrad, b3, screenHeight_cast] at hb
    linarith [hgeo.bottom]
  · rw [w3, hrad, screenHeight_cast]
    constructor
    · exact hbox1
    · linarith

end

theorem C18_wall_rule_witness :
    touchesTop (beforeWall noKeys wallState) ∧
      (beforeLeftHit noKeys wallState).ball.velocity.y =
        -(beforeWall noKeys wallState).ball.velocity.y ∧
      0 ≤ (beforeLeftHit noKeys wallState).ball.velocity.y ∧
      (beforeLeftHit noKeys wallState).ball.position.y = (beforeWall noKeys wallState).ball.radius :=
  ⟨wallState_touches.2,
    (C18_wall_rule ratLib noKeys wallState wallState_reachable wallState_touches.1).1
      wallState_touches.2⟩


section
variable {F : Type} [LinearOrderedField F]

/-- The angle of a paddle hit is `hitAngleDegrees` degrees. -/
theorem hitAngle_degrees (lib : Lib F) (ballY paddleY : F) :
    hitAngle lib ballY paddleY = hitAngleDegrees ballY paddleY * lib.DEG2RAD := rfl

/-- A ball of radius 8 that overlaps a paddle has its centre at most 8 above
the top or below the bottom of the paddle, so the hit angle is within 36
degrees of the horizontal. -/
theorem hitAngleDegrees_bound (x y px py : F)
    (h : circleRecOverlap (⟨x, y⟩ : Vector2 F) 8
      ⟨px, py, (PADDLE_WIDTH : F), (PADDLE_HEIGHT : F)⟩ = true) :
    -36 ≤ hitAngleDegrees y py ∧ hitAngleDegrees y py ≤ 36 := by
  unfold circleRecOverlap at h
  simp only [decide_eq_true_eq, PADDLE_HEIGHT, PADDLE_WIDTH] at h
  push_cast at h
  have hy : (y - max py (min y (py + 80))) * (y - max py (min y (py + 80))) ≤ 8 * 8 := by
    nlinarith [mul_self_nonneg (x - max px (min x (px + 15)))]
  have habs := abs_le_of_sq_le_sq' (by nlinarith : (y - max py (min y (py + 80))) ^ 2 ≤ 8 ^ 2)
    (by norm_num : (0 : F) ≤ 8)
  have h1 : py - 8 ≤ y := by
    by_contra hc
    have hlt : y < py - 8 := not_le.1 hc
    have hm : max py (min y (py + 80)) = py := by
      rw [min_eq_left (by linarith), max_eq_left (by linarith)]
    rw [hm] at habs
    linarith [habs.1]
  have h2 : y ≤ py + 88 := by
    by_contra hc
    have hlt : py + 88 < y := not_le.1 hc
    have hm : max py (min y (py + 80)) = py + 80 := by
      rw [min_eq_right (by linarith), max_eq_right (by linarith)]
    rw [hm] at habs
    linarith [habs.2]
  unfold hitAngleDegrees
  simp only [PADDLE_HEIGHT]
  push_cast
  constructor
  · have : -36 = ((py - 8 - py) / 80 - 1 / 2) * (60 : F) := by ring
    rw [this]
    apply mul_le_mul_of_nonneg_right _ (by norm_num)
    apply sub_le_sub_right
    apply div_le_div_of_nonneg_right _ (by norm_num)
    linarith
  · have : (36 : F) = ((py + 88 - py) / 80 - 1 / 2) * (60 : F) := by ring
    rw [this]
    apply mul_le_mul_of_nonneg_right _ (by norm_num)
    apply sub_le_sub_right
    apply div_le_div_of_nonneg_right _ (by norm_num)
    linarith

end

/-- C12 (fails on the code). In the reachable GAME state `edgeState` the first
serve, at (745, 300) with velocity (5, 0), is one frame from the right paddle,
whose top edge is at height 302. On the next frame the circle of radius 8
around (750, 300) overlaps the paddle rectangle (755, 302, 15, 80) and the
ball moves towards the paddle, so the right bounce fires; the offset
`hitPos = (300 - 302) / 80` is negative and the new angle
`(hitPos - 0.5) * 60` is -31.5 degrees, outside the range -30 to +30. -/
theorem C12_angle_exceeds_30 :
    Reachable ratLib edgeState ∧ edgeState.currentScreen = SCREEN_GAME ∧
      rightHitFires ratLib (beforeRightHit ratLib noKeys edgeState) ∧
      (beforeRightHit ratLib noKeys edgeState).ball.position = ⟨750, 300⟩ ∧
      (beforeRightHit ratLib noKeys edgeState).rightPaddle.position = ⟨755, 302⟩ ∧
      hitAngle ratLib (beforeRightHit ratLib noKeys edgeState).ball.position.y
          (beforeRightHit ratLib noKeys edgeState).rightPaddle.position.y =
        -63 / 2 * ratLib.DEG2RAD ∧
      hitAngleDegrees (beforeRightHit ratLib noKeys edgeState).ball.position.y
          (beforeRightHit ratLib noKeys edgeState).rightPaddle.position.y = -63 / 2 ∧
      ¬ (-30 ≤ hitAngleDegrees (beforeRightHit ratLib noKeys edgeState).ball.position.y
          (beforeRightHit ratLib noKeys edgeState).rightPaddle.position.y) ∧
      (UpdateGame ratLib noKeys flatServe edgeState).ball.velocity.x < 0 := by
  refine ⟨edgeState_reachable, ?_⟩
  rw [edgeState_eq]
  unfold rightHitFires
  decide!


section
variable {F : Type} [LinearOrderedField F]

theorem wallBounce_speed (lib : Lib F) (g : Game F) :
    ballSpeed lib (wallBounce g) = ballSpeed lib g := by
  unfold wallBounce ballSpeed
  dsimp only
  split_ifs <;> simp only [neg_mul_neg]

theorem beforeLeftHit_speed (lib : Lib F) (k : Keys) (g : Game F) :
    ballSpeed lib (beforeLeftHit k g) = ballSpeed lib g := by
  unfold beforeLeftHit
  rw [wallBounce_speed]
  unfold ballSpeed
  rw [(beforeWall_fields k g).2.1]

/-- The clamp of lines 253 and 283 is a minimum. -/
theorem hitSpeed_min (lib : Lib F) (vx vy : F) :
    hitSpeed lib vx vy = min (lib.sqrtf (vx * vx + vy * vy) + BALL_SPEED_INCREASE) BALL_SPEED_MAX := by
  unfold hitSpeed
  dsimp only
  split_ifs with h
  · exact (min_eq_right (le_of_lt h)).symm
  · exact (min_eq_left (not_lt.1 h)).symm

theorem hitSpeed_neg (lib : Lib F) (b : Game F) :
    hitSpeed lib (-b.ball.velocity.x) b.ball.velocity.y =
      min (ballSpeed lib b + BALL_SPEED_INCREASE) BALL_SPEED_MAX := by
  rw [hitSpeed_min, neg_mul_neg]
  rfl

theorem leftPaddleHit_fires (lib : Lib F) (b : Game F) (h : leftHitFires lib b) :
    (leftPaddleHit lib b).ball.velocity =
        ⟨lib.cosf (hitAngle lib b.ball.position.y b.leftPaddle.position.y) *
            hitSpeed lib (-b.ball.velocity.x) b.ball.velocity.y,
          lib.sinf (hitAngle lib b.ball.position.y b.leftPaddle.position.y) *
            hitSpeed lib (-b.ball.velocity.x) b.ball.velocity.y⟩ ∧
      (leftPaddleHit lib b).ball.position.x =
        b.leftPaddle.position.x + (PADDLE_WIDTH : F) + b.ball.radius := by
  unfold leftPaddleHit
  dsimp only
  rw [if_pos h.1, if_pos h.2]
  exact ⟨rfl, rfl⟩

theorem rightPaddleHit_fires (lib : Lib F) (b : Game F) (h : rightHitFires lib b) :
    (rightPaddleHit lib b).ball.velocity =
        ⟨-lib.cosf (hitAngle lib b.ball.position.y b.rightPaddle.position.y) *
            hitSpeed lib (-b.ball.velocity.x) b.ball.velocity.y,
          lib.sinf (hitAngle lib b.ball.position.y b.rightPaddle.position.y) *
            hitSpeed lib (-b.ball.velocity.x) b.ball.velocity.y⟩ ∧
      (rightPaddleHit lib b).ball.position.x = b.rightPaddle.position.x - b.ball.radius := by
  unfold rightPaddleHit
  dsimp only
  rw [if_pos h.1, if_pos h.2]
  exact ⟨rfl, rfl⟩

theorem leftPaddleHit_idle (lib : Lib F) (b : Game F) (h : ¬ leftHitFires lib b) :
    leftPaddleHit lib b = b := by
  unfold leftHitFires at h
  unfold leftPaddleHit
  dsimp only
  split_ifs with h1 h2
  · exact absurd ⟨h1, h2⟩ h
  · rfl
  · rfl

theorem rightPaddleHit_idle (lib : Lib F) (b : Game F) (h : ¬ rightHitFires lib b) :
    rightPaddleHit lib b = b := by
  unfold rightHitFires at h
  unfold rightPaddleHit
  dsimp only
  split_ifs with h1 h2
  · exact absurd ⟨h1, h2⟩ h
  · rfl
  · rfl

/-- The scoring stage leaves the ball alone or serves it anew. -/
theorem scoring_ball (lib : Lib F) (rnd : Nat → Nat) (b : Game F) :
    (scoring lib rnd b).ball = b.ball ∨
      ∃ (d : Int) (r : Nat → Nat) (c : Game F),
        (d = 1 ∨ d = -1) ∧ (scoring lib rnd b).ball = (ResetBall lib d r c).1.ball := by
  have key : ∀ (c : Game F) (r : Nat → Nat),
      (scoreRight lib r c).1.ball = c.ball ∨
        ∃ c2 : Game F, (scoreRight lib r c).1.ball = (ResetBall lib (-1) r c2).1.ball := by
    intro c r
    unfold scoreRight
    dsimp only
    split_ifs
    · exact Or.inl rfl
    · exact Or.inr ⟨_, rfl⟩
    · exact Or.inl rfl
  have keyL : (scoreLeft lib rnd b).1.ball = b.ball ∨
      ∃ c2 : Game F, (scoreLeft lib rnd b).1.ball = (ResetBall lib 1 rnd c2).1.ball := by
    unfold scoreLeft
    dsimp only
    split_ifs
    · exact Or.inl rfl
    · exact Or.inr ⟨_, rfl⟩
    · exact Or.inl rfl
  have hs : (scoring lib rnd b).ball =
      (scoreRight lib (scoreLeft lib rnd b).2 (scoreLeft lib rnd b).1).1.ball := rfl
  rw [hs]
  rcases key (scoreLeft lib rnd b).1 (scoreLeft lib rnd b).2 with h | ⟨c2, h⟩
  · rw [h]
    rcases keyL with h2 | ⟨c3, h2⟩
    · exact Or.inl h2
    · exact Or.inr ⟨1, rnd, c3, Or.inl rfl, h2⟩
  · exact Or.inr ⟨-1, _, c2, Or.inr rfl, h⟩

end

/-- Over the reals a vector in polar form has the length of its radius. -/
theorem sqrt_polar (a s : ℝ) (hs : 0 ≤ s) :
    Real.sqrt (Real.cos a * s * (Real.cos a * s) + Real.sin a * s * (Real.sin a * s)) = s := by
  have h : Real.cos a * s * (Real.cos a * s) + Real.sin a * s * (Real.sin a * s) = s ^ 2 := by
    linear_combination (s ^ 2) * Real.cos_sq_add_sin_sq a
  rw [h, Real.sqrt_sq hs]

theorem ResetBall_speed (lib : Lib ℝ) (hl : IdealLibm lib) (d : Int) (hd : d = 1 ∨ d = -1)
    (rnd : Nat → Nat) (g : Game ℝ) : ballSpeed lib (ResetBall lib d rnd g).1 = 5 := by
  unfold ballSpeed ResetBall
  dsimp only
  rw [hl.cosf, hl.sinf, hl.sqrtf]
  have h5 : (BALL_SPEED_START : ℝ) = 5 := rfl
  rw [h5]
  generalize ((((rnd 0 % 60 : Nat) : Int) - 30 : Int) : ℝ) * lib.DEG2RAD = a
  have hsq : ((d : Int) : ℝ) * ((d : Int) : ℝ) = 1 := by
    rcases hd with h | h <;> rw [h] <;> norm_num
  have h : Real.cos a * 5 * ((d : Int) : ℝ) * (Real.cos a * 5 * ((d : Int) : ℝ)) +
      Real.sin a * 5 * (Real.sin a * 5) = 5 ^ 2 := by
    linear_combination (25 : ℝ) * Real.cos_sq_add_sin_sq a + 25 * Real.cos a ^ 2 * hsq
  rw [h, Real.sqrt_sq (by norm_num)]

theorem hitSpeed_pos (lib : Lib ℝ) (hl : IdealLibm lib) (b : Game ℝ) :
    0 < min (ballSpeed lib b + BALL_SPEED_INCREASE) BALL_SPEED_MAX := by
  have h0 : 0 ≤ ballSpeed lib b := by
    unfold ballSpeed
    rw [hl.sqrtf]
    exact Real.sqrt_nonneg _
  apply lt_min
  · have : (BALL_SPEED_INCREASE : ℝ) = 1 / 2 := rfl
    rw [this]; linarith
  · have : (BALL_SPEED_MAX : ℝ) = 12 := rfl
    rw [this]; norm_num

/-- Over ideal reals the speed right after a left paddle bounce. -/
theorem leftPaddleHit_speed (lib : Lib ℝ) (hl : IdealLibm lib) (b : Game ℝ)
    (h : leftHitFires lib b) :
    ballSpeed lib (leftPaddleHit lib b) =
      min (ballSpeed lib b + BALL_SPEED_INCREASE) BALL_SPEED_MAX := by
  have hv := (leftPaddleHit_fires lib b h).1
  have hpos := hitSpeed_pos lib hl b
  unfold ballSpeed at hpos ⊢
  rw [hv, hitSpeed_neg]
  unfold ballSpeed
  dsimp only
  rw [hl.cosf, hl.sinf]
  nth_rewrite 1 [hl.sqrtf]
  exact sqrt_polar _ _ (le_of_lt hpos)

/-- Over ideal reals the speed right after a right paddle bounce. -/
theorem rightPaddleHit_speed (lib : Lib ℝ) (hl : IdealLibm lib) (b : Game ℝ)
    (h : rightHitFires lib b) :
    ballSpeed lib (rightPaddleHit lib b) =
      min (ballSpeed lib b + BALL_SPEED_INCREASE) BALL_SPEED_MAX := by
  have hv := (rightPaddleHit_fires lib b h).1
  have hpos := hitSpeed_pos lib hl b
  unfold ballSpeed at hpos ⊢
  rw [hv, hitSpeed_neg]
  unfold ballSpeed
  dsimp only
  rw [hl.cosf, hl.sinf]
  nth_rewrite 1 [hl.sqrtf]
  rw [neg_mul, neg_mul_neg]
  exact sqrt_polar _ _ (le_of_lt hpos)

theorem bump_range (s : ℝ) (h1 : 5 ≤ s) :
    (5 : ℝ) ≤ min (s + BALL_SPEED_INCREASE) BALL_SPEED_MAX ∧
      min (s + BALL_SPEED_INCREASE) BALL_SPEED_MAX ≤ 12 := by
  have hi : (BALL_SPEED_INCREASE : ℝ) = 1 / 2 := rfl
  have hm : (BALL_SPEED_MAX : ℝ) = 12 := rfl
  rw [hi, hm]
  constructor
  · apply le_min
    · linarith
    · norm_num
  · exact min_le_right _ _

/-- Over ideal reals the paddle stages keep the speed within [5, 12]. -/
theorem beforeScoring_speed (lib : Lib ℝ) (hl : IdealLibm lib) (k : Keys) (g : Game ℝ)
    (h : 5 ≤ ballSpeed lib g ∧ ballSpeed lib g ≤ 12) :
    (5 ≤ ballSpeed lib (beforeRightHit lib k g) ∧ ballSpeed lib (beforeRightHit lib k g) ≤ 12) ∧
      5 ≤ ballSpeed lib (beforeScoring lib k g) ∧ ballSpeed lib (beforeScoring lib k g) ≤ 12 := by
  have h1 : 5 ≤ ballSpeed lib (beforeRightHit lib k g) ∧
      ballSpeed lib (beforeRightHit lib k g) ≤ 12 := by
    unfold beforeRightHit
    by_cases hf : leftHitFires lib (beforeLeftHit k g)
    · rw [leftPaddleHit_speed lib hl _ hf, beforeLeftHit_speed]
      exact bump_range _ h.1
    · rw [leftPaddleHit_idle lib _ hf, beforeLeftHit_speed]
      exact h
  refine ⟨h1, ?_⟩
  rw [beforeScoring_eq]
  by_cases hf : rightHitFires lib (beforeRightHit lib k g)
  · rw [rightPaddleHit_speed lib hl _ hf]
    exact bump_range _ h1.1
  · rw [rightPaddleHit_idle lib _ hf]
    exact h1

theorem InitGame_speed (lib : Lib ℝ) (hl : IdealLibm lib) (rnd : Nat → Nat) (g : Game ℝ) :
    ballSpeed lib (InitGame lib rnd g).1 = 5 := by
  unfold InitGame
  exact ResetBall_speed lib hl 1 (Or.inl rfl) rnd _

/-- Over ideal reals the speed of the ball is within [5, 12] in every
reachable state. -/
theorem Reachable.speed {lib : Lib ℝ} {g : Game ℝ} (hl : IdealLibm lib) (h : Reachable lib g) :
    5 ≤ ballSpeed lib g ∧ ballSpeed lib g ≤ 12 := by
  induction h with
  | init rnd => rw [InitGame_speed lib hl]; norm_num
  | tick k rnd g _ ih =>
    unfold UpdateGame
    split
    · split
      · rw [InitGame_speed lib hl]; norm_num
      · exact ih
    · have hb := (beforeScoring_speed lib hl k g ih).2
      rcases scoring_ball lib rnd (beforeScoring lib k g) with h | ⟨d, r, c, hd, h⟩
      · unfold ballSpeed at hb ⊢
        rw [h]
        exact hb
      · have hs := ResetBall_speed lib hl d hd r c
        unfold ballSpeed at hs ⊢
        rw [h, hs]
        norm_num
    · split
      · rw [InitGame_speed lib hl]; norm_num
      · exact ih


section
variable {F : Type} [LinearOrderedField F]

theorem beforeLeftHit_geometry (k : Keys) (g : Game F) (h : Geometry g) :
    (beforeLeftHit k g).ball.radius = 8 ∧ (beforeLeftHit k g).leftPaddle.position.x = 30 ∧
      (beforeLeftHit k g).rightPaddle.position.x = 755 := by
  obtain ⟨b1, -, -, -, b5, b6⟩ := beforeWall_fields k g
  obtain ⟨w1, w2, w3, -, -⟩ := wallBounce_fields (beforeWall k g)
  unfold beforeLeftHit
  refine ⟨?_, ?_, ?_⟩
  · rw [w3, b1]; exact h.radius
  · rw [w1, b5]; exact h.left
  · rw [w2, b6]; exact h.right

theorem beforeRightHit_geometry (lib : Lib F) (k : Keys) (g : Game F) (h : Geometry g) :
    (beforeRightHit lib k g).ball.radius = 8 ∧
      (beforeRightHit lib k g).leftPaddle.position.x = 30 ∧
      (beforeRightHit lib k g).rightPaddle.position.x = 755 := by
  obtain ⟨g1, g2, g3⟩ := beforeLeftHit_geometry k g h
  obtain ⟨l1, l2, l3, -⟩ := leftPaddleHit_fields lib (beforeLeftHit k g)
  unfold beforeRightHit
  refine ⟨?_, ?_, ?_⟩
  · rw [l3]; exact g1
  · rw [l1]; exact g2
  · rw [l2]; exact g3

end

/-- Over the reals the cosine of a hit angle of at most 36 degrees is
positive as soon as 36 degrees are less than a right angle. -/
theorem cos_hit_pos (deg d : ℝ) (h1 : -36 ≤ deg) (h2 : deg ≤ 36) (hd0 : 0 ≤ d)
    (hd : d * 36 < Real.pi / 2) : 0 < Real.cos (deg * d) := by
  apply Real.cos_pos_of_mem_Ioo
  constructor
  · nlinarith
  · nlinarith

/-- C11 (speed bound, over ideal real arithmetic). With `cosf`, `sinf` and
`sqrtf` the real cosine, sine and square root, in every reachable state the
speed `sqrt (vx^2 + vy^2)` of the ball lies within
`[BALL_SPEED_START, BALL_SPEED_MAX] = [5, 12]`, and on a GAME tick it lies
within that range immediately after the left paddle stage when the left
bounce fires and immediately after the right paddle stage when the right
bounce fires, whatever the hit offset, the collision test and `DEG2RAD`. -/
theorem C11_speed_bound (lib : Lib ℝ) (hl : IdealLibm lib) (k : Keys) (g : Game ℝ)
    (hr : Reachable lib g) (_hg : g.currentScreen = SCREEN_GAME) :
    (BALL_SPEED_START ≤ ballSpeed lib g ∧ ballSpeed lib g ≤ BALL_SPEED_MAX) ∧
      (leftHitFires lib (beforeLeftHit k g) →
        BALL_SPEED_START ≤ ballSpeed lib (beforeRightHit lib k g) ∧
          ballSpeed lib (beforeRightHit lib k g) ≤ BALL_SPEED_MAX) ∧
      (rightHitFires lib (beforeRightHit lib k g) →
        BALL_SPEED_START ≤ ballSpeed lib (beforeScoring lib k g) ∧
          ballSpeed lib (beforeScoring lib k g) ≤ BALL_SPEED_MAX) ∧
      (BALL_SPEED_START : ℝ) = 5 ∧ (BALL_SPEED_MAX : ℝ) = 12 := by
  have h5 : (BALL_SPEED_START : ℝ) = 5 := rfl
  have h12 : (BALL_SPEED_MAX : ℝ) = 12 := rfl
  have hs := hr.speed hl
  obtain ⟨hb1, hb2⟩ := beforeScoring_speed lib hl k g hs
  rw [h5, h12]
  exact ⟨hs, fun _ => hb1, fun _ => hb2, rfl, rfl⟩

/-- C15 (paddle hit, over ideal real arithmetic). With `cosf`, `sinf`, `sqrtf`
the real functions, the collision test the circle-rectangle overlap test and
36 degrees less than a right angle (`0 ≤ DEG2RAD`, `36 * DEG2RAD < π / 2`), on
a GAME tick in a reachable state: when the right bounce fires (the ball
overlaps the right paddle and `velocity.x > 0`), after the right paddle stage
`velocity.x < 0`, the speed is
`min (previous speed + BALL_SPEED_INCREASE) BALL_SPEED_MAX`, `velocity.y` is
`sin ((hitPos - 0.5) * 60 * DEG2RAD) * speed` with
`hitPos = (ball.y - paddle.y) / PADDLE_HEIGHT`, and
`ball.position.x = rightPaddle.position.x - ball.radius`; when the left bounce
fires, after the left paddle stage `velocity.x > 0`, the speed and `velocity.y`
follow the same formulas, `ball.position.x = leftPaddle.position.x +
PADDLE_WIDTH + ball.radius`, and the right paddle stage leaves that state
alone. -/
theorem C15_paddle_hit (lib : Lib ℝ) (hl : IdealLibm lib)
    (hc : lib.CheckCollisionCircleRec = circleRecOverlap) (hd0 : 0 ≤ lib.DEG2RAD)
    (hd : lib.DEG2RAD * 36 < Real.pi / 2) (k : Keys) (g : Game ℝ) (hr : Reachable lib g)
    (_hg : g.currentScreen = SCREEN_GAME) :
    (rightHitFires lib (beforeRightHit lib k g) →
        (beforeScoring lib k g).ball.velocity.x < 0 ∧
          ballSpeed lib (beforeScoring lib k g) =
            min (ballSpeed lib (beforeRightHit lib k g) + BALL_SPEED_INCREASE) BALL_SPEED_MAX ∧
          (beforeScoring lib k g).ball.velocity.y =
            Real.sin
                (hitAngleDegrees (beforeRightHit lib k g).ball.position.y
                    (beforeRightHit lib k g).rightPaddle.position.y *
                  lib.DEG2RAD) *
              ballSpeed lib (beforeScoring lib k g) ∧
          (beforeScoring lib k g).ball.position.x =
            (beforeRightHit lib k g).rightPaddle.position.x -
              (beforeRightHit lib k g).ball.radius) ∧
      (leftHitFires lib (beforeLeftHit k g) →
        (beforeRightHit lib k g).ball.velocity.x > 0 ∧
          ballSpeed lib (beforeRightHit lib k g) =
            min (ballSpeed lib (beforeLeftHit k g) + BALL_SPEED_INCREASE) BALL_SPEED_MAX ∧
          (beforeRightHit lib k g).ball.velocity.y =
            Real.sin
                (hitAngleDegrees (beforeLeftHit k g).ball.position.y
                    (beforeLeftHit k g).leftPaddle.position.y *
                  lib.DEG2RAD) *
              ballSpeed lib (beforeRightHit lib k g) ∧
          (beforeRightHit lib k g).ball.position.x =
            (beforeLeftHit k g).leftPaddle.position.x + (PADDLE_WIDTH : ℝ) +
              (beforeLeftHit k g).ball.radius ∧
          beforeScoring lib k g = beforeRightHit lib k g) := by
  have hgeo := hr.geometry
  constructor
  · intro hf
    obtain ⟨hrad, -, -⟩ := beforeRightHit_geometry lib k g hgeo
    rw [beforeScoring_eq]
    generalize beforeRightHit lib k g = b at hf hrad ⊢
    obtain ⟨hv, hx⟩ := rightPaddleHit_fires lib b hf
    have hsp := rightPaddleHit_speed lib hl b hf
    have hpos := hitSpeed_pos lib hl b
    have hov := hf.1
    rw [hc, hrad] at hov
    obtain ⟨d1, d2⟩ := hitAngleDegrees_bound b.ball.position.x b.ball.position.y
      b.rightPaddle.position.x b.rightPaddle.position.y hov
    have hcos := cos_hit_pos _ _ d1 d2 hd0 hd
    refine ⟨?_, hsp, ?_, hx⟩
    · rw [hv, hitSpeed_neg, hitAngle_degrees, hl.cosf]
      dsimp only
      rw [neg_mul]
      exact neg_neg_of_pos (mul_pos hcos hpos)
    · rw [hsp, hv, hitSpeed_neg, hitAngle_degrees, hl.sinf]
  · intro hf
    obtain ⟨hrad, hlx, hrx⟩ := beforeLeftHit_geometry k g hgeo
    have he : beforeRightHit lib k g = leftPaddleHit lib (beforeLeftHit k g) := rfl
    rw [beforeScoring_eq, he]
    generalize beforeLeftHit k g = b at hf hrad hlx hrx ⊢
    obtain ⟨hv, hx⟩ := leftPaddleHit_fires lib b hf
    obtain ⟨-, l2, l3, l4⟩ := leftPaddleHit_fields lib b
    have hsp := leftPaddleHit_speed lib hl b hf
    have hpos := hitSpeed_pos lib hl b
    have hov := hf.1
    rw [hc, hrad] at hov
    obtain ⟨d1, d2⟩ := hitAngleDegrees_bound b.ball.position.x b.ball.position.y
      b.leftPaddle.position.x b.leftPaddle.position.y hov
    have hcos := cos_hit_pos _ _ d1 d2 hd0 hd
    have hvx : (leftPaddleHit lib b).ball.velocity.x > 0 := by
      rw [hv, hitSpeed_neg, hitAngle_degrees, hl.cosf]
      exact mul_pos hcos hpos
    refine ⟨hvx, hsp, ?_, hx, ?_⟩
    · rw [hsp, hv, hitSpeed_neg, hitAngle_degrees, hl.sinf]
    · apply rightPaddleHit_idle
      intro hfr
      have hov2 := hfr.1
      have hw : ((PADDLE_WIDTH : Int) : ℝ) = 15 := by simp [PADDLE_WIDTH]
      rw [hc, l3, hrad, l2, hrx] at hov2
      have hpx : (leftPaddleHit lib b).ball.position.x = 53 := by
        rw [hx, hlx, hrad, hw]; norm_num
      have hfar := overlap_far_right (leftPaddleHit lib b).ball.position.x
        (leftPaddleHit lib b).ball.position.y 755 b.rightPaddle.position.y
        (by rw [hpx]; norm_num)
      rw [hfar] at hov2
      exact Bool.noConfusion hov2

theorem real_exact :
    ExactAtZero (libOf Real.cos Real.sin Real.sqrt (3.14159265358979323846 / 180)) :=
  ⟨Real.cos_zero, Real.sin_zero, rfl⟩

theorem real_approach_reachable :
    Reachable (libOf Real.cos Real.sin Real.sqrt (3.14159265358979323846 / 180))
      (approach 745 260 260) := by
  have h := approach_reachable _ real_exact 69 (le_refl _)
  have he : (400 : ℝ) + 5 * ((69 : Nat) : ℝ) = 745 := by norm_num
  rw [he] at h
  exact h

theorem real_approach_fires :
    rightHitFires (libOf Real.cos Real.sin Real.sqrt (3.14159265358979323846 / 180))
      (beforeRightHit (libOf Real.cos Real.sin Real.sqrt (3.14159265358979323846 / 180)) noKeys
        (approach 745 260 260)) :=
  approach_fires _ real_exact 260 (by norm_num) (by norm_num) (by norm_num) (by norm_num)

theorem real_approach_before :
    beforeRightHit (libOf Real.cos Real.sin Real.sqrt (3.14159265358979323846 / 180)) noKeys
        (approach 745 260 260) = approach 750 260 260 := by
  rw [approach_beforeRightHit _ real_exact 745 260 260 (by norm_num) (by norm_num) (by norm_num)
    (by norm_num) (by norm_num)]
  norm_num

theorem real_approach_speed :
    ballSpeed (libOf Real.cos Real.sin Real.sqrt (3.14159265358979323846 / 180))
      (approach 750 260 260) = 5 := by
  have h : ((5 : ℝ) * 5 + 0 * 0) = 5 ^ 2 := by norm_num
  show Real.sqrt ((5 : ℝ) * 5 + 0 * 0) = 5
  rw [h, Real.sqrt_sq (by norm_num)]

theorem C11_speed_bound_witness :
    BALL_SPEED_START ≤
        ballSpeed (libOf Real.cos Real.sin Real.sqrt (3.14159265358979323846 / 180))
          (beforeScoring (libOf Real.cos Real.sin Real.sqrt (3.14159265358979323846 / 180))
            noKeys (approach 745 260 260)) ∧
      ballSpeed (libOf Real.cos Real.sin Real.sqrt (3.14159265358979323846 / 180))
          (beforeScoring (libOf Real.cos Real.sin Real.sqrt (3.14159265358979323846 / 180))
            noKeys (approach 745 260 260)) ≤
        BALL_SPEED_MAX :=
  (C11_speed_bound (libOf Real.cos Real.sin Real.sqrt (3.14159265358979323846 / 180))
    ⟨rfl, rfl, rfl⟩ noKeys (approach 745 260 260) real_approach_reachable rfl).2.2.1
    real_approach_fires

theorem C15_paddle_hit_witness :
    (beforeScoring (libOf Real.cos Real.sin Real.sqrt (3.14159265358979323846 / 180)) noKeys
          (approach 745 260 260)).ball.velocity.x < 0 ∧
      ballSpeed (libOf Real.cos Real.sin Real.sqrt (3.14159265358979323846 / 180))
          (beforeScoring (libOf Real.cos Real.sin Real.sqrt (3.14159265358979323846 / 180))
            noKeys (approach 745 260 260)) = 11 / 2 ∧
      (beforeScoring (libOf Real.cos Real.sin Real.sqrt (3.14159265358979323846 / 180)) noKeys
          (approach 745 260 260)).ball.position.x = 747 := by
  have h := (C15_paddle_hit (libOf Real.cos Real.sin Real.sqrt (3.14159265358979323846 / 180))
    ⟨rfl, rfl, rfl⟩ rfl (by unfold libOf; norm_num)
    (by unfold libOf; dsimp only; linarith [Real.pi_gt_three]) noKeys (approach 745 260 260)
    real_approach_reachable rfl).1 real_approach_fires
  obtain ⟨h1, h2, -, h4⟩ := h
  rw [real_approach_before] at h2 h4
  refine ⟨h1, ?_, ?_⟩
  · rw [h2, real_approach_speed]
    unfold BALL_SPEED_INCREASE BALL_SPEED_MAX
    rw [min_eq_left (by norm_num)]
    norm_num
  · rw [h4]
    simp only [approach]
    norm_num


section
variable {F : Type} [LinearOrderedField F]

theorem UpdateGame_idle (lib : Lib F) (k : Keys) (rnd : Nat → Nat) (g : Game F)
    (hs : g.currentScreen ≠ SCREEN_GAME) (hk : k.space = false) : UpdateGame lib k rnd g = g := by
  unfold UpdateGame
  cases hc : g.currentScreen with
  | SCREEN_MENU => simp [hk]
  | SCREEN_GAME => exact absurd hc hs
  | SCREEN_WINNER => simp [hk]

/-- The scoring stage does nothing while the ball is between the two edges. -/
theorem scoring_none (lib : Lib F) (rnd : Nat → Nat) (b : Game F) (h0 : ¬ b.ball.position.x < 0)
    (h1 : ¬ b.ball.position.x > (SCREEN_WIDTH : F)) : scoring lib rnd b = b := by
  unfold scoring scoreLeft
  dsimp only
  rw [if_neg h0]
  unfold scoreRight
  dsimp only
  rw [if_neg h1]

theorem scoreInv_scoring (lib : Lib F) (rnd : Nat → Nat) (b : Game F) (hi : Inv b)
    (hg : b.currentScreen = SCREEN_GAME) : ScoreInv (scoring lib rnd b) := by
  obtain ⟨h2, h1, hw, hs⟩ := scoring_fields lib rnd b
  obtain ⟨hp1, hp2⟩ := hi.playing hg
  have hwd : (SCREEN_WIDTH : F) = 800 := by simp [SCREEN_WIDTH]
  have h5 : WINNING_SCORE = 5 := rfl
  rw [h5] at hp1 hp2
  constructor
  · intro hscr
    rw [hs, hg] at hscr
    split_ifs at hscr
  · intro hscr
    rw [h1, h2, hw]
    by_cases c1 : b.ball.position.x > (SCREEN_WIDTH : F) ∧ b.player1Score + 1 ≥ WINNING_SCORE
    · have hx0 : ¬ b.ball.position.x < 0 := by
        intro h
        have := c1.1
        rw [hwd] at this
        linarith
      have hge := c1.2
      left
      rw [if_pos c1.1, if_neg hx0, if_pos c1, h5]
      rw [h5] at hge
      exact ⟨by omega, hp2, rfl⟩
    · by_cases c2 : b.ball.position.x < 0 ∧ b.player2Score + 1 ≥ WINNING_SCORE
      · have hx1 : ¬ b.ball.position.x > (SCREEN_WIDTH : F) := by
          intro h
          have := c2.1
          rw [hwd] at h
          linarith
        have hge := c2.2
        right
        rw [if_pos c2.1, if_neg hx1, if_neg c1, if_pos c2, h5]
        rw [h5] at hge
        exact ⟨by omega, hp1, rfl⟩
      · exfalso
        rw [hs, if_neg c1, if_neg c2, hg] at hscr
        exact GameScreen.noConfusion hscr

theorem scoreInv_InitGame (lib : Lib F) (rnd : Nat → Nat) (g : Game F)
    (hs : g.currentScreen ≠ SCREEN_WINNER) : ScoreInv (InitGame lib rnd g).1 := by
  obtain ⟨h1, h2, -, h4⟩ := InitGame_fields lib rnd g
  constructor
  · intro _; exact ⟨h1, h2⟩
  · intro h; rw [h4] at h; exact absurd h hs

theorem scoreInv_UpdateGame (lib : Lib F) (k : Keys) (rnd : Nat → Nat) (g : Game F) (hv : Inv g)
    (hi : ScoreInv g) : ScoreInv (UpdateGame lib k rnd g) := by
  unfold UpdateGame
  split
  · split
    · exact scoreInv_InitGame lib rnd _ (fun h => GameScreen.noConfusion h)
    · exact hi
  · next hg =>
    obtain ⟨b1, b2, b3, b4⟩ := beforeScoring_board lib k g
    apply scoreInv_scoring
    · refine ⟨by rw [b1]; exact hv.score1, by rw [b2]; exact hv.score2, ?_, ?_, ?_⟩
      · intro _; rw [b1, b2]; exact hv.playing hg
      · intro h; rw [b4] at h; rw [b3]; exact hv.menu h
      · intro h; rw [b4] at h; rw [b3]; exact hv.won h
    · rw [b4]; exact hg
  · split
    · exact scoreInv_InitGame lib rnd _ (fun h => GameScreen.noConfusion h)
    · exact hi

theorem Reachable.scoreInv {lib : Lib F} {g : Game F} (h : Reachable lib g) : ScoreInv g := by
  induction h with
  | init rnd =>
    exact scoreInv_InitGame lib rnd _ (fun h => GameScreen.noConfusion h)
  | tick k rnd g hr ih => exact scoreInv_UpdateGame lib k rnd g hr.pongInv ih

/-- The speed after a paddle hit is positive and at most `BALL_SPEED_MAX` as
soon as `sqrtf` is never negative. -/
theorem hitSpeed_range (lib : Lib F) (hsq : ∀ x : F, 0 ≤ lib.sqrtf x) (b : Game F) :
    0 < hitSpeed lib (-b.ball.velocity.x) b.ball.velocity.y ∧
      hitSpeed lib (-b.ball.velocity.x) b.ball.velocity.y ≤ 12 := by
  rw [hitSpeed_min]
  have hi : (BALL_SPEED_INCREASE : F) = 1 / 2 := rfl
  have hm : (BALL_SPEED_MAX : F) = 12 := rfl
  rw [hi, hm]
  constructor
  · apply lt_min
    · have := hsq (-b.ball.velocity.x * -b.ball.velocity.x +
        b.ball.velocity.y * b.ball.velocity.y)
      linarith
    · norm_num
  · exact min_le_right _ _

theorem beforeLeftHit_fields (k : Keys) (g : Game F) :
    (beforeLeftHit k g).ball.velocity.x = g.ball.velocity.x ∧
      (beforeLeftHit k g).ball.position.x = g.ball.position.x + g.ball.velocity.x := by
  obtain ⟨-, b2, -, b4, -, -⟩ := beforeWall_fields k g
  obtain ⟨-, -, -, w4, w5⟩ := wallBounce_fields (beforeWall k g)
  unfold beforeLeftHit
  rw [w4, w5, b2, b4]
  exact ⟨rfl, rfl⟩

end


/-- C30, counterexample. `wonState` is a reachable WINNER state with the
scores 5 and 4; SPACE restarts the game and resets both scores to 0 on that
single tick, so both scores change, the first by 5 and the second by 4. -/
theorem C30_counterexample :
    Reachable ratLib wonState ∧ wonState.currentScreen = SCREEN_WINNER ∧
      (wonState.player1Score, wonState.player2Score) = (5, 4) ∧
      ((UpdateGame ratLib spaceKey flatServe wonState).player1Score,
          (UpdateGame ratLib spaceKey flatServe wonState).player2Score) = (0, 0) ∧
      (UpdateGame ratLib spaceKey flatServe wonState).player1Score ≠ wonState.player1Score ∧
      (UpdateGame ratLib spaceKey flatServe wonState).player2Score ≠ wonState.player2Score ∧
      ¬ oneScoreStep wonState (UpdateGame ratLib spaceKey flatServe wonState) := by
  refine ⟨wonState_reachable, wonState_won.1, ?_⟩
  rw [wonState_eq]
  unfold oneScoreStep
  decide!

section
variable {F : Type} [LinearOrderedField F]

/-- C30, amended. In every reachable state both scores are between 0 and
`WINNING_SCORE`; while the screen is GAME both are at most
`WINNING_SCORE - 1`; while it is WINNER exactly one score equals
`WINNING_SCORE` and `winner` is the number (1 or 2) of that player; on any
single tick that does not restart the game (a GAME tick, or a MENU or WINNER
tick without SPACE) at most one of the two scores changes, by exactly 1; and
a restart (SPACE on MENU or WINNER) sets both scores to 0. -/
theorem C30_scores_amended (lib : Lib F) (k : Keys) (rnd : Nat → Nat) (g : Game F)
    (hr : Reachable lib g) :
    (0 ≤ g.player1Score ∧ g.player1Score ≤ WINNING_SCORE ∧ 0 ≤ g.player2Score ∧
        g.player2Score ≤ WINNING_SCORE) ∧
      (g.currentScreen = SCREEN_GAME →
        g.player1Score ≤ WINNING_SCORE - 1 ∧ g.player2Score ≤ WINNING_SCORE - 1) ∧
      (g.currentScreen = SCREEN_WINNER →
        (g.player1Score = WINNING_SCORE ∧ g.player2Score ≠ WINNING_SCORE ∧ g.winner = 1) ∨
          (g.player2Score = WINNING_SCORE ∧ g.player1Score ≠ WINNING_SCORE ∧ g.winner = 2)) ∧
      (g.currentScreen = SCREEN_GAME ∨ k.space = false →
        oneScoreStep g (UpdateGame lib k rnd g)) ∧
      (g.currentScreen ≠ SCREEN_GAME → k.space = true →
        (UpdateGame lib k rnd g).player1Score = 0 ∧ (UpdateGame lib k rnd g).player2Score = 0) := by
  have hv := hr.pongInv
  have hi := hr.scoreInv
  have h5 : WINNING_SCORE = 5 := rfl
  have hwd : (SCREEN_WIDTH : F) = 800 := by simp [SCREEN_WIDTH]
  refine ⟨?_, ?_, ?_, ?_, ?_⟩
  · refine ⟨hv.score1, ?_, hv.score2, ?_⟩
    · cases hs : g.currentScreen with
      | SCREEN_MENU => rw [(hi.menu hs).1, h5]; decide
      | SCREEN_GAME => exact le_of_lt (hv.playing hs).1
      | SCREEN_WINNER =>
        rcases hi.won hs with ⟨h1, -, -⟩ | ⟨-, h1, -⟩
        · rw [h1]
        · exact le_of_lt h1
    · cases hs : g.currentScreen with
      | SCREEN_MENU => rw [(hi.menu hs).2, h5]; decide
      | SCREEN_GAME => exact le_of_lt (hv.playing hs).2
      | SCREEN_WINNER =>
        rcases hi.won hs with ⟨-, h1, -⟩ | ⟨h1, -, -⟩
        · exact le_of_lt h1
        · rw [h1]
  · intro hs
    obtain ⟨h1, h2⟩ := hv.playing hs
    constructor <;> omega
  · intro hs
    rcases hi.won hs with ⟨h1, h2, h3⟩ | ⟨h1, h2, h3⟩
    · exact Or.inl ⟨h1, ne_of_lt h2, h3⟩
    · exact Or.inr ⟨h1, ne_of_lt h2, h3⟩
  · intro hk
    unfold oneScoreStep
    by_cases hg : g.currentScreen = SCREEN_GAME
    · obtain ⟨s2, s1, -, -⟩ := scoring_fields lib rnd (beforeScoring lib k g)
      obtain ⟨b1, b2, -, -⟩ := beforeScoring_board lib k g
      rw [UpdateGame_game lib k rnd g hg, s1, s2, b1, b2]
      by_cases hx : (beforeScoring lib k g).ball.position.x > (SCREEN_WIDTH : F)
      · have hx0 : ¬ (beforeScoring lib k g).ball.position.x < 0 := by
          intro h
          rw [hwd] at hx
          linarith
        rw [if_pos hx, if_neg hx0]
        exact Or.inr (Or.inl ⟨rfl, rfl⟩)
      · rw [if_neg hx]
        by_cases hx0 : (beforeScoring lib k g).ball.position.x < 0
        · rw [if_pos hx0]
          exact Or.inr (Or.inr ⟨rfl, rfl⟩)
        · rw [if_neg hx0]
          exact Or.inl ⟨rfl, rfl⟩
    · have hsp : k.space = false := by
        rcases hk with h | h
        · exact absurd h hg
        · exact h
      rw [UpdateGame_idle lib k rnd g hg hsp]
      exact Or.inl ⟨rfl, rfl⟩
  · intro hg hk
    rw [UpdateGame_restart lib k rnd g hg hk]
    exact ⟨rfl, rfl⟩

/-- C24 (directional guard). A paddle stage changes the state only if the
ball moves towards that paddle (`velocity.x < 0` for the left paddle, `> 0`
for the right one); if the ball moves away, the stage returns the state as it
is, whether or not the circle overlaps the rectangle. Consequently, the
collision test being the circle-rectangle overlap test, `cosf` being in
`(0, 1]` on angles of at most 36 degrees and `sqrtf` being never negative, on
a GAME tick in a reachable state: if the left bounce fires, it does not fire
on the next tick, whatever the keys; and likewise for the right bounce. -/
theorem C24_directional_guard (lib : Lib F) (k k2 : Keys) (rnd : Nat → Nat) (g : Game F) :
    (∀ b : Game F, leftPaddleHit lib b ≠ b → b.ball.velocity.x < 0) ∧
      (∀ b : Game F, ¬ b.ball.velocity.x < 0 → leftPaddleHit lib b = b) ∧
      (∀ b : Game F, rightPaddleHit lib b ≠ b → b.ball.velocity.x > 0) ∧
      (∀ b : Game F, ¬ b.ball.velocity.x > 0 → rightPaddleHit lib b = b) ∧
      (lib.CheckCollisionCircleRec = circleRecOverlap →
        (∀ d : F, -36 ≤ d → d ≤ 36 →
          0 < lib.cosf (d * lib.DEG2RAD) ∧ lib.cosf (d * lib.DEG2RAD) ≤ 1) →
        (∀ x : F, 0 ≤ lib.sqrtf x) → Reachable lib g → g.currentScreen = SCREEN_GAME →
        (leftHitFires lib (beforeLeftHit k g) →
            ¬ leftHitFires lib (beforeLeftHit k2 (UpdateGame lib k rnd g))) ∧
          (rightHitFires lib (beforeRightHit lib k g) →
            ¬ rightHitFires lib (beforeRightHit lib k2 (UpdateGame lib k rnd g)))) := by
  have hl : ∀ b : Game F, ¬ b.ball.velocity.x < 0 → leftPaddleHit lib b = b :=
    fun b h => leftPaddleHit_idle lib b (fun hf => h hf.2)
  have hrt : ∀ b : Game F, ¬ b.ball.velocity.x > 0 → rightPaddleHit lib b = b :=
    fun b h => rightPaddleHit_idle lib b (fun hf => h hf.2)
  refine ⟨fun b hne => by_contra fun h => hne (hl b h), hl,
    fun b hne => by_contra fun h => hne (hrt b h), hrt, ?_⟩
  intro hc hcos hsq hr hg
  have hgeo := hr.geometry
  have hgeo2 := (Reachable.tick k rnd g hr).geometry
  have hwd : (SCREEN_WIDTH : F) = 800 := by simp [SCREEN_WIDTH]
  have hw : ((PADDLE_WIDTH : Int) : F) = 15 := by simp [PADDLE_WIDTH]
  rw [UpdateGame_game lib k rnd g hg] at hgeo2 ⊢
  constructor
  · intro hf
    obtain ⟨hrad, hlx, hrx⟩ := beforeLeftHit_geometry k g hgeo
    have he : beforeRightHit lib k g = leftPaddleHit lib (beforeLeftHit k g) := rfl
    obtain ⟨hv, hx⟩ := leftPaddleHit_fires lib _ hf
    obtain ⟨-, l2, l3, -⟩ := leftPaddleHit_fields lib (beforeLeftHit k g)
    obtain ⟨hpos, -⟩ := hitSpeed_range lib hsq (beforeLeftHit k g)
    have hov := hf.1
    rw [hc, hrad] at hov
    obtain ⟨d1, d2⟩ := hitAngleDegrees_bound _ _ _ _ hov
    have hvx : (beforeRightHit lib k g).ball.velocity.x > 0 := by
      rw [he, hv, hitAngle_degrees]
      exact mul_pos (hcos _ d1 d2).1 hpos
    have hpx : (beforeRightHit lib k g).ball.position.x = 53 := by
      rw [he, hx, hlx, hrad, hw]; norm_num
    have hidle : beforeScoring lib k g = beforeRightHit lib k g := by
      rw [beforeScoring_eq]
      apply rightPaddleHit_idle
      intro hfr
      have hov2 := hfr.1
      rw [he, hc, l3, hrad, l2, hrx] at hov2
      rw [he] at hpx
      have hfar := overlap_far_right (leftPaddleHit lib (beforeLeftHit k g)).ball.position.x
        (leftPaddleHit lib (beforeLeftHit k g)).ball.position.y 755
        (beforeLeftHit k g).rightPaddle.position.y (by rw [hpx]; norm_num)
      rw [hfar] at hov2
      exact Bool.noConfusion hov2
    rw [hidle, scoring_none lib rnd _ (by rw [hpx]; norm_num) (by rw [hpx, hwd]; norm_num)]
    intro hf2
    have := hf2.2
    rw [(beforeLeftHit_fields k2 _).1] at this
    exact absurd hvx (not_lt.2 (le_of_lt this))
  · intro hf
    obtain ⟨hrad, -, hrx⟩ := beforeRightHit_geometry lib k g hgeo
    obtain ⟨hv, hx⟩ := rightPaddleHit_fires lib _ hf
    obtain ⟨hpos, h12⟩ := hitSpeed_range lib hsq (beforeRightHit lib k g)
    have hov := hf.1
    rw [hc, hrad] at hov
    obtain ⟨d1, d2⟩ := hitAngleDegrees_bound _ _ _ _ hov
    obtain ⟨c0, c1⟩ := hcos _ d1 d2
    have hbs := beforeScoring_eq lib k g
    have hvx : (beforeScoring lib k g).ball.velocity.x < 0 ∧
        -12 ≤ (beforeScoring lib k g).ball.velocity.x := by
      rw [hbs, hv, hitAngle_degrees]
      dsimp only
      rw [neg_mul]
      constructor
      · exact neg_neg_of_pos (mul_pos c0 hpos)
      · have : lib.cosf (hitAngleDegrees (beforeRightHit lib k g).ball.position.y
            (beforeRightHit lib k g).rightPaddle.position.y * lib.DEG2RAD) *
            hitSpeed lib (-(beforeRightHit lib k g).ball.velocity.x)
              (beforeRightHit lib k g).ball.velocity.y ≤ 1 * 12 :=
          mul_le_mul c1 h12 (le_of_lt hpos) (by norm_num)
        linarith
    have hpx : (beforeScoring lib k g).ball.position.x = 747 := by
      rw [hbs, hx, hrx, hrad]; norm_num
    rw [scoring_none lib rnd _ (by rw [hpx]; norm_num) (by rw [hpx, hwd]; norm_num)] at hgeo2 ⊢
    obtain ⟨grad, glx, -⟩ := beforeLeftHit_geometry k2 _ hgeo2
    obtain ⟨f1, f2⟩ := beforeLeftHit_fields k2 (beforeScoring lib k g)
    have hnl : ¬ leftHitFires lib (beforeLeftHit k2 (beforeScoring lib k g)) := by
      intro hfl
      have hov2 := hfl.1
      rw [hc, grad, glx] at hov2
      have hfar := overlap_far_left
        (beforeLeftHit k2 (beforeScoring lib k g)).ball.position.x
        (beforeLeftHit k2 (beforeScoring lib k g)).ball.position.y 30
        (beforeLeftHit k2 (beforeScoring lib k g)).leftPaddle.position.y
        (by rw [f2, hpx]; linarith [hvx.2])
      rw [hfar] at hov2
      exact Bool.noConfusion hov2
    intro hf2
    have := hf2.2
    unfold beforeRightHit at this
    rw [leftPaddleHit_idle lib _ hnl, f1] at this
    exact absurd hvx.1 (not_lt.2 (le_of_lt this))

end

theorem C30_scores_amended_witness :
    (leftExitState.player1Score, leftExitState.player2Score) = (1, 0) ∧
      ((UpdateGame ratLib sDownKeys flatServe leftExitState).player1Score,
          (UpdateGame ratLib sDownKeys flatServe leftExitState).player2Score) = (1, 1) ∧
      oneScoreStep leftExitState (UpdateGame ratLib sDownKeys flatServe leftExitState) :=
  ⟨by rw [leftExitState_eq]; decide!, by rw [leftExitState_eq]; decide!,
    (C30_scores_amended ratLib sDownKeys flatServe leftExitState leftExitState_reachable).2.2.2.1
      (Or.inl (by rw [leftExitState_eq]; decide!))⟩

theorem C24_directional_guard_witness :
    rightHitFires (libOf Real.cos Real.sin Real.sqrt (3.14159265358979323846 / 180))
        (beforeRightHit (libOf Real.cos Real.sin Real.sqrt (3.14159265358979323846 / 180)) noKeys
          (approach 745 260 260)) ∧
      ¬ rightHitFires (libOf Real.cos Real.sin Real.sqrt (3.14159265358979323846 / 180))
        (beforeRightHit (libOf Real.cos Real.sin Real.sqrt (3.14159265358979323846 / 180)) noKeys
          (UpdateGame (libOf Real.cos Real.sin Real.sqrt (3.14159265358979323846 / 180)) noKeys
            flatServe (approach 745 260 260))) :=
  ⟨real_approach_fires,
    ((C24_directional_guard (libOf Real.cos Real.sin Real.sqrt (3.14159265358979323846 / 180))
      noKeys noKeys flatServe (approach 745 260 260)).2.2.2.2 rfl
      (fun d h1 h2 =>
        ⟨cos_hit_pos d _ h1 h2 (by unfold libOf; norm_num)
          (by unfold libOf; dsimp only; linarith [Real.pi_gt_three]), Real.cos_le_one _⟩)
      (fun x => Real.sqrt_nonneg x) real_approach_reachable rfl).2 real_approach_fires⟩

end PongGame
